import Mathlib

/-!
# MPU-9250 driver: bias calibration, self test, frame decoding and scale resolution

A shallow embedding of `Arduino/MPU9250/Wire.cpp` and, from
`Arduino/MPU9250/MPU9250_Data_Store.cpp`, of `calibrateMPU9250`, `MPU9250SelfTest`,
`initMPU9250`, the four raw data readers and the three scale resolvers, followed by the properties
proved about them.

Conventions of the embedding.

* Machine integers are `Nat` / `Int`; every store into a fixed-width variable is an explicit
  reduction (`% 256` for `uint8_t`, `toInt16`, `toInt32`, ...).
* C++ `/` on signed operands is `Int.tdiv` (truncation toward zero); `x >> 8` on a signed operand is
  the arithmetic shift `x / 256` (floor) and `x & 0xFF` is `x % 256`, the two's-complement readings.
* A `float` is read as the rational it denotes.  In `calibrateMPU9250` and the scale resolvers a
  quotient is the exact rational quotient.  In `MPU9250SelfTest`, whose results go through
  `double` operations and `pow`, the roundings and `pow` are parameters (`FloatOps`).
* The I2C slave is an environment: a script of responses, one per read transaction.  Every bus
  transaction and every `delay` is appended to a log.
* Storage that the source leaves uninitialised (the `data[12]` and `rawData` scratch buffers, the
  sum arrays of `MPU9250SelfTest`) is a parameter.
-/

namespace MPU9250

/-! ## Targets, devices, registers -/

/-- The two boards the sketch header names: the 8 MHz Pro Mini (AVR, `int` is 16 bits wide) and the
Teensy 3.1 (ARM, `int` is 32 bits wide).  The width decides what integer promotion does. -/
inductive Board
  | proMini
  | teensy31
  deriving DecidableEq

/-- Reduction of a mathematical integer to `int16_t` (two's complement). -/
def toInt16 (x : Int) : Int := (x + 32768) % 65536 - 32768

/-- Reduction of a mathematical integer to `int32_t` (two's complement). -/
def toInt32 (x : Int) : Int := (x + 2147483648) % 4294967296 - 2147483648

/-- Reduction of a mathematical integer to `uint8_t`. -/
def toUInt8 (x : Int) : Nat := (x % 256).toNat

/-- The value of an expression of type `int` whose 16 low bits are the pattern `p`, `p < 65536`:
on the Pro Mini the pattern is the whole `int`, on the Teensy it is the low half of a non-negative
`int`. -/
def Board.toInt : Board → Nat → Int
  | Board.proMini, p => toInt16 p
  | Board.teensy31, p => p

/-- I2C device addresses used by the sketch (`#define`d in the sketch itself). -/
inductive Dev
  | MPU9250_ADDRESS
  | AK8963_ADDRESS
  deriving DecidableEq

/-- Modelled from the spec: the register names of `MPU9250_Register_Map.h`, a header that is not
among the sources.  The spec (section 6) only says that they are fixed manufacturer constants, so
the names are kept symbolic and no numeric address is assumed. -/
inductive Reg
  | PWR_MGMT_1 | PWR_MGMT_2 | INT_ENABLE | INT_PIN_CFG | FIFO_EN | I2C_MST_CTRL | USER_CTRL
  | CONFIG | SMPLRT_DIV | GYRO_CONFIG | ACCEL_CONFIG | ACCEL_CONFIG2
  | FIFO_COUNTH | FIFO_R_W
  | XG_OFFSET_H | XG_OFFSET_L | YG_OFFSET_H | YG_OFFSET_L | ZG_OFFSET_H | ZG_OFFSET_L
  | XA_OFFSET_H | XA_OFFSET_L | YA_OFFSET_H | YA_OFFSET_L | ZA_OFFSET_H | ZA_OFFSET_L
  | ACCEL_XOUT_H | GYRO_XOUT_H | TEMP_OUT_H
  | SELF_TEST_X_ACCEL | SELF_TEST_Y_ACCEL | SELF_TEST_Z_ACCEL
  | SELF_TEST_X_GYRO | SELF_TEST_Y_GYRO | SELF_TEST_Z_GYRO
  | AK8963_ST1 | AK8963_XOUT_L | AK8963_CNTL | AK8963_ASAX
  deriving DecidableEq

/-! ## The transport (`Wire.cpp`) -/

/-- What the program does to the outside world, in program order. -/
inductive Event
  | write (address : Dev) (subAddress : Reg) (data : Nat)
  | read (address : Dev) (subAddress : Reg) (count : Nat)
  | delay (ms : Nat)
  deriving DecidableEq

/-- The bus as the program sees it: `rx` scripts the slave (the n-th read transaction from now is
answered with the n-th list), `log` records what has been done so far, oldest first. -/
structure Bus where
  rx : List (List Nat)
  log : List Event
  deriving DecidableEq

/-- The Arduino `delay(ms)`. -/
def delay (ms : Nat) (bus : Bus) : Bus :=
  ⟨bus.rx, bus.log ++ [Event.delay ms]⟩

/-- The function `writeByte(address, subAddress, data)` of `Wire.cpp`; `data` is a `uint8_t`. -/
def writeByte (address : Dev) (subAddress : Reg) (data : Nat) (bus : Bus) : Bus :=
  ⟨bus.rx, bus.log ++ [Event.write address subAddress (data % 256)]⟩

/-- The call `Wire.requestFrom(address, count)`: at most `count` bytes of the slave's answer reach the
receive buffer, which is returned.  An exhausted script is a slave that does not answer. -/
def requestFrom (count : Nat) (bus : Bus) : List Nat × Bus :=
  (((bus.rx.headD []).take count).map (fun b => b % 256), ⟨bus.rx.tail, bus.log⟩)

/-- The loop `while (Wire.available()) { dest[i++] = Wire.read(); }` of `readBytes`, run on the
receive buffer. -/
def fillDest : List Nat → Nat → (Nat → Nat) → (Nat → Nat)
  | [], _, dest => dest
  | x :: xs, i, dest => fillDest xs (i + 1) (fun j => if j = i then x else dest j)

/-- The function `readBytes(address, subAddress, count, dest)` of `Wire.cpp`: returns the updated
`dest`. -/
def readBytes (address : Dev) (subAddress : Reg) (count : Nat) (dest : Nat → Nat) (bus : Bus) :
    (Nat → Nat) × Bus :=
  let r := requestFrom count ⟨bus.rx, bus.log ++ [Event.read address subAddress count]⟩
  (fillDest r.1 0 dest, r.2)

/-- The function `readByte(address, subAddress)` of `Wire.cpp`.  `Wire.read()` on an empty receive buffer
returns `-1`, which the `uint8_t data` stores as 255. -/
def readByte (address : Dev) (subAddress : Reg) (bus : Bus) : Nat × Bus :=
  let r := requestFrom 1 ⟨bus.rx, bus.log ++ [Event.read address subAddress 1]⟩
  (r.1.headD 255, r.2)

/-! ## `calibrateMPU9250` -/

/-- A C array of three elements. -/
structure Arr3 (α : Type) where
  e0 : α
  e1 : α
  e2 : α
  deriving DecidableEq

/-- Undefined behaviour the embedding tracks. -/
inductive Fault
  | divisionByZero
  deriving DecidableEq

/-- The expression `((int16_t)hi << 8) | lo`, of type `int`, for two `uint8_t` operands. -/
def int16Pair (board : Board) (hi lo : Nat) : Int :=
  board.toInt ((hi <<< 8) ||| lo)

/-- The locals of `calibrateMPU9250` that the FIFO loop touches, together with the bus. -/
structure CalibState where
  bus : Bus
  data : Nat → Nat
  accel_bias : Arr3 Int
  gyro_bias : Arr3 Int

/-- Lines 368-416: reset, clock selection, FIFO and interrupt shutdown, fixed filter, rate and
full-scale configuration, then the 40 ms FIFO capture window. -/
def calibrateMPU9250.configure (bus : Bus) : Bus :=
  let bus := writeByte Dev.MPU9250_ADDRESS Reg.PWR_MGMT_1 0x80 bus
  let bus := delay 100 bus
  let bus := writeByte Dev.MPU9250_ADDRESS Reg.PWR_MGMT_1 0x01 bus
  let bus := writeByte Dev.MPU9250_ADDRESS Reg.PWR_MGMT_2 0x00 bus
  let bus := delay 200 bus
  let bus := writeByte Dev.MPU9250_ADDRESS Reg.INT_ENABLE 0x00 bus
  let bus := writeByte Dev.MPU9250_ADDRESS Reg.FIFO_EN 0x00 bus
  let bus := writeByte Dev.MPU9250_ADDRESS Reg.PWR_MGMT_1 0x00 bus
  let bus := writeByte Dev.MPU9250_ADDRESS Reg.I2C_MST_CTRL 0x00 bus
  let bus := writeByte Dev.MPU9250_ADDRESS Reg.USER_CTRL 0x00 bus
  let bus := writeByte Dev.MPU9250_ADDRESS Reg.USER_CTRL 0x0C bus
  let bus := delay 15 bus
  let bus := writeByte Dev.MPU9250_ADDRESS Reg.CONFIG 0x01 bus
  let bus := writeByte Dev.MPU9250_ADDRESS Reg.SMPLRT_DIV 0x00 bus
  let bus := writeByte Dev.MPU9250_ADDRESS Reg.GYRO_CONFIG 0x00 bus
  let bus := writeByte Dev.MPU9250_ADDRESS Reg.ACCEL_CONFIG 0x00 bus
  let bus := writeByte Dev.MPU9250_ADDRESS Reg.USER_CTRL 0x40 bus
  let bus := writeByte Dev.MPU9250_ADDRESS Reg.FIFO_EN 0x78 bus
  let bus := delay 40 bus
  writeByte Dev.MPU9250_ADDRESS Reg.FIFO_EN 0x00 bus

/-- Line 403: `uint16_t gyrosensitivity = 131`. -/
def gyrosensitivity : Nat := 131

/-- Line 404: `uint16_t accelsensitivity = 16384`. -/
def accelsensitivity : Nat := 16384

/-- Line 419: `fifo_count = ((uint16_t)data[0] << 8) | data[1]`, stored in a `uint16_t`. -/
def calibrateMPU9250.fifo_count (data : Nat → Nat) : Nat :=
  ((data 0 <<< 8) ||| data 1) % 65536

/-- Line 421: `packet_count = fifo_count/12`, stored in a `uint16_t`. -/
def calibrateMPU9250.packet_count (data : Nat → Nat) : Nat :=
  (calibrateMPU9250.fifo_count data / 12) % 65536

/-- Lines 424-442: the body of the FIFO loop.  One 12-byte read of `FIFO_R_W`, six big-endian
`int16_t` samples, six `int32_t` accumulations. -/
def calibrateMPU9250.loopBody (board : Board) (s : CalibState) : CalibState :=
  let r := readBytes Dev.MPU9250_ADDRESS Reg.FIFO_R_W 12 s.data s.bus
  let data := r.1
  let accel_temp : Arr3 Int :=
    ⟨toInt16 (int16Pair board (data 0) (data 1)),
     toInt16 (int16Pair board (data 2) (data 3)),
     toInt16 (int16Pair board (data 4) (data 5))⟩
  let gyro_temp : Arr3 Int :=
    ⟨toInt16 (int16Pair board (data 6) (data 7)),
     toInt16 (int16Pair board (data 8) (data 9)),
     toInt16 (int16Pair board (data 10) (data 11))⟩
  ⟨r.2, data,
   ⟨toInt32 (s.accel_bias.e0 + accel_temp.e0),
    toInt32 (s.accel_bias.e1 + accel_temp.e1),
    toInt32 (s.accel_bias.e2 + accel_temp.e2)⟩,
   ⟨toInt32 (s.gyro_bias.e0 + gyro_temp.e0),
    toInt32 (s.gyro_bias.e1 + gyro_temp.e1),
    toInt32 (s.gyro_bias.e2 + gyro_temp.e2)⟩⟩

/-- Line 423: `for (ii = 0; ii < packet_count; ii++)`, as the number of iterations still to run. -/
def calibrateMPU9250.loop (board : Board) : Nat → CalibState → CalibState
  | 0, s => s
  | n + 1, s => calibrateMPU9250.loop board n (calibrateMPU9250.loopBody board s)

/-- Lines 368-443: everything up to the end of the FIFO loop.  Returns the packet count with the
state the loop leaves. -/
def calibrateMPU9250.capture (board : Board) (data : Nat → Nat) (bus : Bus) : Nat × CalibState :=
  let bus := calibrateMPU9250.configure bus
  let r := readBytes Dev.MPU9250_ADDRESS Reg.FIFO_COUNTH 2 data bus
  let packet_count := calibrateMPU9250.packet_count r.1
  (packet_count,
    calibrateMPU9250.loop board packet_count ⟨r.2, r.1, ⟨0, 0, 0⟩, ⟨0, 0, 0⟩⟩)

/-- The compound assignment `x /= (int32_t) packet_count` on an `int32_t`: undefined for a zero
divisor, truncating toward zero otherwise. -/
def divAssign32 (x : Int) (packet_count : Nat) : Except Fault Int :=
  if packet_count = 0 then Except.error Fault.divisionByZero
  else Except.ok (toInt32 (Int.tdiv x packet_count))

/-- Lines 446-451: the six sums are divided by the packet count, in source order. -/
def calibrateMPU9250.normalize (packet_count : Nat) (accel_bias gyro_bias : Arr3 Int) :
    Except Fault (Arr3 Int × Arr3 Int) := do
  let a0 ← divAssign32 accel_bias.e0 packet_count
  let a1 ← divAssign32 accel_bias.e1 packet_count
  let a2 ← divAssign32 accel_bias.e2 packet_count
  let g0 ← divAssign32 gyro_bias.e0 packet_count
  let g1 ← divAssign32 gyro_bias.e1 packet_count
  let g2 ← divAssign32 gyro_bias.e2 packet_count
  pure (⟨a0, a1, a2⟩, ⟨g0, g1, g2⟩)

/-- Lines 453-459: gravity removal on the z accelerometer mean. -/
def calibrateMPU9250.removeGravity (accel_bias : Arr3 Int) : Arr3 Int :=
  if accel_bias.e2 > 0 then
    ⟨accel_bias.e0, accel_bias.e1, toInt32 (accel_bias.e2 - accelsensitivity)⟩
  else
    ⟨accel_bias.e0, accel_bias.e1, toInt32 (accel_bias.e2 + accelsensitivity)⟩

/-- Lines 465 and 467: `(-gyro_bias[k]/4 >> 8) & 0xFF` and `(-gyro_bias[k]/4) & 0xFF`, each stored
in a `uint8_t`.  Unary minus binds tighter than `/`. -/
def calibrateMPU9250.gyroBytes (g : Int) : Nat × Nat :=
  (toUInt8 ((Int.tdiv (toInt32 (-g)) 4 / 256) % 256), toUInt8 (Int.tdiv (toInt32 (-g)) 4 % 256))

/-- Lines 465-471: the scratch buffer after the six gyroscope offset bytes have been stored in
`data[0]` to `data[5]`; the other elements keep what the FIFO loop left. -/
def calibrateMPU9250.gyroData (gyro_bias : Arr3 Int) (data : Nat → Nat) : Nat → Nat :=
  fun j =>
    if j = 0 then (calibrateMPU9250.gyroBytes gyro_bias.e0).1
    else if j = 1 then (calibrateMPU9250.gyroBytes gyro_bias.e0).2
    else if j = 2 then (calibrateMPU9250.gyroBytes gyro_bias.e1).1
    else if j = 3 then (calibrateMPU9250.gyroBytes gyro_bias.e1).2
    else if j = 4 then (calibrateMPU9250.gyroBytes gyro_bias.e2).1
    else if j = 5 then (calibrateMPU9250.gyroBytes gyro_bias.e2).2
    else data j

/-- Lines 465-479: the six gyroscope offset bytes are formed and pushed to the hardware.  The
bytes written are the ones `gyroData` stores in `data[0]` to `data[5]`. -/
def calibrateMPU9250.pushGyro (gyro_bias : Arr3 Int) (bus : Bus) : Bus :=
  let x := calibrateMPU9250.gyroBytes gyro_bias.e0
  let y := calibrateMPU9250.gyroBytes gyro_bias.e1
  let z := calibrateMPU9250.gyroBytes gyro_bias.e2
  let bus := writeByte Dev.MPU9250_ADDRESS Reg.XG_OFFSET_H x.1 bus
  let bus := writeByte Dev.MPU9250_ADDRESS Reg.XG_OFFSET_L x.2 bus
  let bus := writeByte Dev.MPU9250_ADDRESS Reg.YG_OFFSET_H y.1 bus
  let bus := writeByte Dev.MPU9250_ADDRESS Reg.YG_OFFSET_L y.2 bus
  let bus := writeByte Dev.MPU9250_ADDRESS Reg.ZG_OFFSET_H z.1 bus
  writeByte Dev.MPU9250_ADDRESS Reg.ZG_OFFSET_L z.2 bus

/-- Lines 497-502: one factory trim read, `readBytes(.., 2, &data[0])` followed by
`(int32_t) (((int16_t)data[0] << 8) | data[1])`.  Returns the register value and the new `data`. -/
def calibrateMPU9250.readTrim (board : Board) (reg : Reg) (data : Nat → Nat) (bus : Bus) :
    Int × (Nat → Nat) × Bus :=
  let r := readBytes Dev.MPU9250_ADDRESS reg 2 data bus
  (toInt32 (int16Pair board (r.1 0) (r.1 1)), r.1, r.2)

/-- Lines 505-514: `mask_bit[ii]`, 0x01 when `accel_bias_reg[ii] & mask` is non-zero
(`mask = 1uL`), else 0. -/
def calibrateMPU9250.mask_bit (accel_bias_reg : Int) : Nat :=
  if accel_bias_reg % 2 ≠ 0 then 0x01 else 0

/-- Lines 518, 522-525 for one axis: the bias scaled by 8 is subtracted from the register value
(`int32_t`), the result is split into two `uint8_t`, and the low byte is or-ed with the mask bit. -/
def calibrateMPU9250.accelBytes (accel_bias_reg accel_bias : Int) : Nat × Nat :=
  let mask_bit := calibrateMPU9250.mask_bit accel_bias_reg
  let reg := toInt32 (accel_bias_reg - Int.tdiv accel_bias 8)
  (toUInt8 ((reg / 256) % 256), (toUInt8 (reg % 256) ||| mask_bit) % 256)

/-- Lines 494-543: the factory trims are read, corrected and written back. -/
def calibrateMPU9250.pushAccel (board : Board) (accel_bias : Arr3 Int) (data : Nat → Nat)
    (bus : Bus) : Bus :=
  let rx := calibrateMPU9250.readTrim board Reg.XA_OFFSET_H data bus
  let ry := calibrateMPU9250.readTrim board Reg.YA_OFFSET_H rx.2.1 rx.2.2
  let rz := calibrateMPU9250.readTrim board Reg.ZA_OFFSET_H ry.2.1 ry.2.2
  let x := calibrateMPU9250.accelBytes rx.1 accel_bias.e0
  let y := calibrateMPU9250.accelBytes ry.1 accel_bias.e1
  let z := calibrateMPU9250.accelBytes rz.1 accel_bias.e2
  let bus := writeByte Dev.MPU9250_ADDRESS Reg.XA_OFFSET_H x.1 rz.2.2
  let bus := writeByte Dev.MPU9250_ADDRESS Reg.XA_OFFSET_L x.2 bus
  let bus := writeByte Dev.MPU9250_ADDRESS Reg.YA_OFFSET_H y.1 bus
  let bus := writeByte Dev.MPU9250_ADDRESS Reg.YA_OFFSET_L y.2 bus
  let bus := writeByte Dev.MPU9250_ADDRESS Reg.ZA_OFFSET_H z.1 bus
  writeByte Dev.MPU9250_ADDRESS Reg.ZA_OFFSET_L z.2 bus

/-- Lines 482-484 and 546-548: `(float) bias[k] / (float) sensitivity`, as exact rationals. -/
def calibrateMPU9250.scaled (bias : Arr3 Int) (sensitivity : Nat) : Arr3 ℚ :=
  ⟨(bias.e0 : ℚ) / (sensitivity : ℚ), (bias.e1 : ℚ) / (sensitivity : ℚ),
   (bias.e2 : ℚ) / (sensitivity : ℚ)⟩

/-- What a call of `calibrateMPU9250` leaves behind: the bus, and either the fault it ran into or
the contents of `dest1` (gyroscope) and `dest2` (accelerometer). -/
structure CalibRun where
  bus : Bus
  dest : Except Fault (Arr3 ℚ × Arr3 ℚ)

/-- Lines 453-548: what follows the normalisation, given the six integer means.  The factory trim
reads of lines 497-502 start from the buffer that holds the gyroscope offset bytes. -/
def calibrateMPU9250.finish (board : Board) (accel_bias gyro_bias : Arr3 Int) (data : Nat → Nat)
    (bus : Bus) : CalibRun :=
  let accel_bias := calibrateMPU9250.removeGravity accel_bias
  let data := calibrateMPU9250.gyroData gyro_bias data
  let bus := calibrateMPU9250.pushGyro gyro_bias bus
  let dest1 := calibrateMPU9250.scaled gyro_bias gyrosensitivity
  let bus := calibrateMPU9250.pushAccel board accel_bias data bus
  let dest2 := calibrateMPU9250.scaled accel_bias accelsensitivity
  ⟨bus, Except.ok (dest1, dest2)⟩

/-- The function `calibrateMPU9250(dest1, dest2)`, lines 361-549.  `data` is the initial (indeterminate) content
of the scratch buffer `data[12]`. -/
def calibrateMPU9250 (board : Board) (data : Nat → Nat) (bus : Bus) : CalibRun :=
  let c := calibrateMPU9250.capture board data bus
  match calibrateMPU9250.normalize c.1 c.2.accel_bias c.2.gyro_bias with
  | Except.error f => ⟨c.2.bus, Except.error f⟩
  | Except.ok m => calibrateMPU9250.finish board m.1 m.2 c.2.data c.2.bus

/-! ## Scale resolution (`getMres`, `getGres`, `getAres`) -/

/-- Lines 41-46: the enumerators of `enum Ascale`. -/
def AFS_2G : Nat := 0

/-- See `AFS_2G`. -/
def AFS_4G : Nat := 1

/-- See `AFS_2G`. -/
def AFS_8G : Nat := 2

/-- See `AFS_2G`. -/
def AFS_16G : Nat := 3

/-- Lines 48-53: the enumerators of `enum Gscale`. -/
def GFS_250DPS : Nat := 0

/-- See `GFS_250DPS`. -/
def GFS_500DPS : Nat := 1

/-- See `GFS_250DPS`. -/
def GFS_1000DPS : Nat := 2

/-- See `GFS_250DPS`. -/
def GFS_2000DPS : Nat := 3

/-- Lines 55-58: the enumerators of `enum Mscale`. -/
def MFS_14BITS : Nat := 0

/-- See `MFS_14BITS`. -/
def MFS_16BITS : Nat := 1

/-- The global variables of lines 61-66: the three scale settings and the mode (`uint8_t`) and the
three resolutions (`float`). -/
structure Globals where
  Gscale : Nat
  Ascale : Nat
  Mscale : Nat
  Mmode : Nat
  aRes : ℚ
  gRes : ℚ
  mRes : ℚ

/-- The function `getMres()`, lines 123-132.  The `switch` has no `default`. -/
def getMres (g : Globals) : Globals :=
  if g.Mscale = MFS_14BITS then
    ⟨g.Gscale, g.Ascale, g.Mscale, g.Mmode, g.aRes, g.gRes, 10 * 4219 / 8190⟩
  else if g.Mscale = MFS_16BITS then
    ⟨g.Gscale, g.Ascale, g.Mscale, g.Mmode, g.aRes, g.gRes, 10 * 4219 / 32760⟩
  else g

/-- The function `getGres()`, lines 142-157.  The `switch` has no `default`. -/
def getGres (g : Globals) : Globals :=
  if g.Gscale = GFS_250DPS then
    ⟨g.Gscale, g.Ascale, g.Mscale, g.Mmode, g.aRes, 250 / 32768, g.mRes⟩
  else if g.Gscale = GFS_500DPS then
    ⟨g.Gscale, g.Ascale, g.Mscale, g.Mmode, g.aRes, 500 / 32768, g.mRes⟩
  else if g.Gscale = GFS_1000DPS then
    ⟨g.Gscale, g.Ascale, g.Mscale, g.Mmode, g.aRes, 1000 / 32768, g.mRes⟩
  else if g.Gscale = GFS_2000DPS then
    ⟨g.Gscale, g.Ascale, g.Mscale, g.Mmode, g.aRes, 2000 / 32768, g.mRes⟩
  else g

/-- The function `getAres()`, lines 167-182.  The `switch` has no `default`. -/
def getAres (g : Globals) : Globals :=
  if g.Ascale = AFS_2G then
    ⟨g.Gscale, g.Ascale, g.Mscale, g.Mmode, 2 / 32768, g.gRes, g.mRes⟩
  else if g.Ascale = AFS_4G then
    ⟨g.Gscale, g.Ascale, g.Mscale, g.Mmode, 4 / 32768, g.gRes, g.mRes⟩
  else if g.Ascale = AFS_8G then
    ⟨g.Gscale, g.Ascale, g.Mscale, g.Mmode, 8 / 32768, g.gRes, g.mRes⟩
  else if g.Ascale = AFS_16G then
    ⟨g.Gscale, g.Ascale, g.Mscale, g.Mmode, 16 / 32768, g.gRes, g.mRes⟩
  else g

/-! ## Raw frame decoding (`readAccelData`, `readGyroData`, `readMagData`, `readTempData`) -/

/-- The value an `int16_t` takes from the expression `((int16_t)hi << 8) | lo`. -/
def int16Of (board : Board) (hi lo : Nat) : Int :=
  toInt16 (int16Pair board hi lo)

/-- The function `readAccelData(destination)`, lines 189-195.  `rawData` is the initial
(indeterminate) content of the local `rawData[6]`; all three elements of `destination` are
assigned, so the function returns them. -/
def readAccelData (board : Board) (rawData : Nat → Nat) (bus : Bus) : Arr3 Int × Bus :=
  let r := readBytes Dev.MPU9250_ADDRESS Reg.ACCEL_XOUT_H 6 rawData bus
  (⟨int16Of board (r.1 0) (r.1 1), int16Of board (r.1 2) (r.1 3),
    int16Of board (r.1 4) (r.1 5)⟩, r.2)

/-- The function `readGyroData(destination)`, lines 202-208. -/
def readGyroData (board : Board) (rawData : Nat → Nat) (bus : Bus) : Arr3 Int × Bus :=
  let r := readBytes Dev.MPU9250_ADDRESS Reg.GYRO_XOUT_H 6 rawData bus
  (⟨int16Of board (r.1 0) (r.1 1), int16Of board (r.1 2) (r.1 3),
    int16Of board (r.1 4) (r.1 5)⟩, r.2)

/-- The function `readMagData(destination)`, lines 215-230.  `destination` goes in with the
caller's values and comes out with what the function leaves there. -/
def readMagData (board : Board) (rawData : Nat → Nat) (destination : Arr3 Int) (bus : Bus) :
    Arr3 Int × Bus :=
  let st := readByte Dev.AK8963_ADDRESS Reg.AK8963_ST1 bus
  if st.1 &&& 0x01 ≠ 0 then
    let r := readBytes Dev.AK8963_ADDRESS Reg.AK8963_XOUT_L 7 rawData st.2
    let c := r.1 6
    if c &&& 0x08 = 0 then
      (⟨int16Of board (r.1 1) (r.1 0), int16Of board (r.1 3) (r.1 2),
        int16Of board (r.1 5) (r.1 4)⟩, r.2)
    else (destination, r.2)
  else (destination, st.2)

/-- The function `readTempData()`, lines 236-242. -/
def readTempData (board : Board) (rawData : Nat → Nat) (bus : Bus) : Int × Bus :=
  let r := readBytes Dev.MPU9250_ADDRESS Reg.TEMP_OUT_H 2 rawData bus
  (int16Of board (r.1 0) (r.1 1), r.2)

/-- The byte split the calibrator applies to an `int32_t` (lines 465-467, 522-523):
`(x >> 8) & 0xFF` and `x & 0xFF`, each stored in a `uint8_t`. -/
def splitBytes (x : Int) : Nat × Nat :=
  (toUInt8 ((x / 256) % 256), toUInt8 (x % 256))

/-! ## `MPU9250SelfTest` -/

/-- A C array of six elements. -/
structure Arr6 (α : Type) where
  e0 : α
  e1 : α
  e2 : α
  e3 : α
  e4 : α
  e5 : α
  deriving DecidableEq

/-- The result of an arithmetic operation of type `int`: 16 bits on the Pro Mini, 32 bits on the
Teensy. -/
def Board.wrap : Board → Int → Int
  | Board.proMini, x => toInt16 x
  | Board.teensy31, x => toInt32 x

/-- Line 561: `int16_t gAvg[3], aAvg[3], aSTAvg[3], gSTAvg[3];`, declared without initialiser.
The values the four arrays hold on entry are a parameter of the routine. -/
structure SelfTestSums where
  gAvg : Arr3 Int
  aAvg : Arr3 Int
  aSTAvg : Arr3 Int
  gSTAvg : Arr3 Int

/-- The state of one of the two sampling loops: the bus, `rawData[6]` and the two `int16_t` arrays
the loop adds into. -/
structure SampleState where
  bus : Bus
  rawData : Nat → Nat
  accel : Arr3 Int
  gyro : Arr3 Int

/-- The compound assignment `x += y` on an `int16_t` `x`. -/
def addAssign16 (x y : Int) : Int := toInt16 (x + y)

/-- Lines 578-586 and 606-615: the body of a sampling loop.  The two loops of the source differ
only in the arrays they add into. -/
def MPU9250SelfTest.loopBody (board : Board) (s : SampleState) : SampleState :=
  let r := readBytes Dev.MPU9250_ADDRESS Reg.ACCEL_XOUT_H 6 s.rawData s.bus
  let accel : Arr3 Int :=
    ⟨addAssign16 s.accel.e0 (int16Of board (r.1 0) (r.1 1)),
     addAssign16 s.accel.e1 (int16Of board (r.1 2) (r.1 3)),
     addAssign16 s.accel.e2 (int16Of board (r.1 4) (r.1 5))⟩
  let q := readBytes Dev.MPU9250_ADDRESS Reg.GYRO_XOUT_H 6 r.1 r.2
  let gyro : Arr3 Int :=
    ⟨addAssign16 s.gyro.e0 (int16Of board (q.1 0) (q.1 1)),
     addAssign16 s.gyro.e1 (int16Of board (q.1 2) (q.1 3)),
     addAssign16 s.gyro.e2 (int16Of board (q.1 4) (q.1 5))⟩
  ⟨q.2, q.1, accel, gyro⟩

/-- Lines 577 and 604: `for (int ii = 0; ii < 200; ii++)`, as the number of iterations still to
run. -/
def MPU9250SelfTest.loop (board : Board) : Nat → SampleState → SampleState
  | 0, s => s
  | n + 1, s => MPU9250SelfTest.loop board n (MPU9250SelfTest.loopBody board s)

/-- Lines 590-593 and 619-622: `x[ii] /= 200` on each element of an `int16_t` array. -/
def MPU9250SelfTest.average (x : Arr3 Int) : Arr3 Int :=
  ⟨toInt16 (Int.tdiv x.e0 200), toInt16 (Int.tdiv x.e1 200), toInt16 (Int.tdiv x.e2 200)⟩

/-- Line 563: `uint8_t FS = 0`. -/
def MPU9250SelfTest.FS : Nat := 0

/-- The floating-point arithmetic lines 644-655 rely on.  A finite `float` or `double` value is
read as the rational number it denotes.  The roundings of the target and its library function
`pow` are not fixed here: they are parameters of the routine, so that what is proved of
`MPU9250SelfTest` holds whatever they are. -/
structure FloatOps where
  /-- The `float` a number is rounded to: a conversion `(float)x` or a store in a `float`. -/
  toFloat : ℚ → ℚ
  /-- The `double` a number is rounded to: a `double` literal or the result of a `double`
  operation. -/
  toDouble : ℚ → ℚ
  /-- The library call `pow(x, y)` on two `double` values. -/
  pow : ℚ → ℚ → ℚ

/-- Lines 644-649: `(float)(2620/1<<FS)*(pow(1.01, ((float)selfTest[k] - 1.0)))`, stored in the
`float` `factoryTrim[k]`.  In C++ the integer expression parses as `(2620/1) << FS`; the literals
`1.01` and `1.0` are `double`, so the subtraction, `pow` and the product are `double`
operations. -/
def MPU9250SelfTest.factoryTrim (fp : FloatOps) (selfTest : Nat) : ℚ :=
  fp.toFloat (fp.toDouble
    (fp.toFloat (((2620 / 1) <<< MPU9250SelfTest.FS : Nat) : ℚ)
      * fp.pow (fp.toDouble (101 / 100))
          (fp.toDouble (fp.toFloat (selfTest : ℚ) - fp.toDouble 1))))

/-- Lines 654-655: `100.0*((float)(stAvg - avg))/factoryTrim`, stored in a `float`.  The
subtraction is done in `int`; the literal `100.0` is `double`, so the product and the quotient
are `double` operations. -/
def MPU9250SelfTest.deviation (fp : FloatOps) (board : Board) (stAvg avg : Int)
    (factoryTrim : ℚ) : ℚ :=
  fp.toFloat (fp.toDouble
    (fp.toDouble (fp.toDouble 100 * fp.toFloat ((board.wrap (stAvg - avg) : Int) : ℚ))
      / factoryTrim))

/-- What lines 565-641 leave: the bus, the four averages and the six trim codes. -/
structure Measured where
  bus : Bus
  aAvg : Arr3 Int
  gAvg : Arr3 Int
  aSTAvg : Arr3 Int
  gSTAvg : Arr3 Int
  selfTest : Arr6 Nat

/-- Lines 565-641: configuration, baseline capture, stimulated capture, return to normal
operation, and the six trim code reads. -/
def MPU9250SelfTest.measure (board : Board) (sums : SelfTestSums) (bus : Bus) : Measured :=
  let bus := writeByte Dev.MPU9250_ADDRESS Reg.SMPLRT_DIV 0x00 bus
  let bus := writeByte Dev.MPU9250_ADDRESS Reg.CONFIG 0x02 bus
  let bus := writeByte Dev.MPU9250_ADDRESS Reg.GYRO_CONFIG (1 <<< MPU9250SelfTest.FS) bus
  let bus := writeByte Dev.MPU9250_ADDRESS Reg.ACCEL_CONFIG2 0x02 bus
  let bus := writeByte Dev.MPU9250_ADDRESS Reg.ACCEL_CONFIG (1 <<< MPU9250SelfTest.FS) bus
  let b := MPU9250SelfTest.loop board 200 ⟨bus, fun _ => 0, sums.aAvg, sums.gAvg⟩
  let aAvg := MPU9250SelfTest.average b.accel
  let gAvg := MPU9250SelfTest.average b.gyro
  let bus := writeByte Dev.MPU9250_ADDRESS Reg.ACCEL_CONFIG 0xE0 b.bus
  let bus := writeByte Dev.MPU9250_ADDRESS Reg.GYRO_CONFIG 0xE0 bus
  let bus := delay 25 bus
  let t := MPU9250SelfTest.loop board 200 ⟨bus, b.rawData, sums.aSTAvg, sums.gSTAvg⟩
  let aSTAvg := MPU9250SelfTest.average t.accel
  let gSTAvg := MPU9250SelfTest.average t.gyro
  let bus := writeByte Dev.MPU9250_ADDRESS Reg.ACCEL_CONFIG 0x00 t.bus
  let bus := writeByte Dev.MPU9250_ADDRESS Reg.GYRO_CONFIG 0x00 bus
  let bus := delay 25 bus
  let s0 := readByte Dev.MPU9250_ADDRESS Reg.SELF_TEST_X_ACCEL bus
  let s1 := readByte Dev.MPU9250_ADDRESS Reg.SELF_TEST_Y_ACCEL s0.2
  let s2 := readByte Dev.MPU9250_ADDRESS Reg.SELF_TEST_Z_ACCEL s1.2
  let s3 := readByte Dev.MPU9250_ADDRESS Reg.SELF_TEST_X_GYRO s2.2
  let s4 := readByte Dev.MPU9250_ADDRESS Reg.SELF_TEST_Y_GYRO s3.2
  let s5 := readByte Dev.MPU9250_ADDRESS Reg.SELF_TEST_Z_GYRO s4.2
  ⟨s5.2, aAvg, gAvg, aSTAvg, gSTAvg, ⟨s0.1, s1.1, s2.1, s3.1, s4.1, s5.1⟩⟩

/-- Lines 644-649: the six factory trims, from the six trim codes. -/
def MPU9250SelfTest.factoryTrims (fp : FloatOps) (selfTest : Arr6 Nat) : Arr6 ℚ :=
  ⟨MPU9250SelfTest.factoryTrim fp selfTest.e0, MPU9250SelfTest.factoryTrim fp selfTest.e1,
   MPU9250SelfTest.factoryTrim fp selfTest.e2, MPU9250SelfTest.factoryTrim fp selfTest.e3,
   MPU9250SelfTest.factoryTrim fp selfTest.e4, MPU9250SelfTest.factoryTrim fp selfTest.e5⟩

/-- The assignment `destination[i] = v` on a `float` array. -/
def setFloat (destination : Nat → ℚ) (i : Nat) (v : ℚ) : Nat → ℚ :=
  fun j => if j = i then v else destination j

/-- Lines 653-656: the loop `for (int i = 0; i < 3; i++)` that stores the six deviations, unrolled
in program order. -/
def MPU9250SelfTest.report (fp : FloatOps) (board : Board) (m : Measured)
    (destination : Nat → ℚ) : Nat → ℚ :=
  let factoryTrim := MPU9250SelfTest.factoryTrims fp m.selfTest
  let d := setFloat destination 0 (MPU9250SelfTest.deviation fp board m.aSTAvg.e0 m.aAvg.e0
    factoryTrim.e0)
  let d := setFloat d 3 (MPU9250SelfTest.deviation fp board m.gSTAvg.e0 m.gAvg.e0 factoryTrim.e3)
  let d := setFloat d 1 (MPU9250SelfTest.deviation fp board m.aSTAvg.e1 m.aAvg.e1 factoryTrim.e1)
  let d := setFloat d 4 (MPU9250SelfTest.deviation fp board m.gSTAvg.e1 m.gAvg.e1 factoryTrim.e4)
  let d := setFloat d 2 (MPU9250SelfTest.deviation fp board m.aSTAvg.e2 m.aAvg.e2 factoryTrim.e2)
  setFloat d 5 (MPU9250SelfTest.deviation fp board m.gSTAvg.e2 m.gAvg.e2 factoryTrim.e5)

/-- The function `MPU9250SelfTest(destination)`, lines 558-657.  `sums` holds the indeterminate
initial values of the four sum arrays; `destination` goes in with the caller's values; `fp` is
the floating-point arithmetic of the target. -/
def MPU9250SelfTest (fp : FloatOps) (board : Board) (sums : SelfTestSums)
    (destination : Nat → ℚ) (bus : Bus) : (Nat → ℚ) × Bus :=
  let m := MPU9250SelfTest.measure board sums bus
  (MPU9250SelfTest.report fp board m destination, m.bus)

/-! ## `initMPU9250` and the sketch state -/

/-- The expression `c & ~m` for a `uint8_t` `c` and a constant `m` below 256, as the `uint8_t`
argument `writeByte` receives: `c` with the bits of `m` cleared. -/
def clearBits (c m : Nat) : Nat := c &&& (0xFF - m)

/-- The function `initMPU9250()`, lines 284-352.  It reads the globals `Gscale` and `Ascale`.  The
local `c` is assigned by the three `readByte` calls only. -/
def initMPU9250 (g : Globals) (bus : Bus) : Bus :=
  let bus := writeByte Dev.MPU9250_ADDRESS Reg.PWR_MGMT_1 0x00 bus
  let bus := delay 100 bus
  let bus := writeByte Dev.MPU9250_ADDRESS Reg.PWR_MGMT_1 0x01 bus
  let bus := delay 200 bus
  let bus := writeByte Dev.MPU9250_ADDRESS Reg.CONFIG 0x03 bus
  let bus := writeByte Dev.MPU9250_ADDRESS Reg.SMPLRT_DIV 0x04 bus
  let r := readByte Dev.MPU9250_ADDRESS Reg.GYRO_CONFIG bus
  let c := r.1
  let bus := writeByte Dev.MPU9250_ADDRESS Reg.GYRO_CONFIG (clearBits c 0x02) r.2
  let bus := writeByte Dev.MPU9250_ADDRESS Reg.GYRO_CONFIG (clearBits c 0x18) bus
  let bus := writeByte Dev.MPU9250_ADDRESS Reg.GYRO_CONFIG (c ||| (g.Gscale <<< 3)) bus
  let r := readByte Dev.MPU9250_ADDRESS Reg.ACCEL_CONFIG bus
  let c := r.1
  let bus := writeByte Dev.MPU9250_ADDRESS Reg.ACCEL_CONFIG (clearBits c 0x18) r.2
  let bus := writeByte Dev.MPU9250_ADDRESS Reg.ACCEL_CONFIG (c ||| (g.Ascale <<< 3)) bus
  let r := readByte Dev.MPU9250_ADDRESS Reg.ACCEL_CONFIG2 bus
  let c := r.1
  let bus := writeByte Dev.MPU9250_ADDRESS Reg.ACCEL_CONFIG2 (clearBits c 0x0F) r.2
  let bus := writeByte Dev.MPU9250_ADDRESS Reg.ACCEL_CONFIG2 (c ||| 0x03) bus
  let bus := writeByte Dev.MPU9250_ADDRESS Reg.INT_PIN_CFG 0x22 bus
  let bus := writeByte Dev.MPU9250_ADDRESS Reg.INT_ENABLE 0x01 bus
  delay 100 bus

/-- The state of the sketch as a routine finds it: the globals of lines 61-66 and the bus. -/
structure Sketch where
  globals : Globals
  bus : Bus

/-- A call of `calibrateMPU9250(dest1, dest2)` in a sketch state.  The body, lines 361-549, names
none of the globals: it neither reads nor assigns `Gscale`, `Ascale`, `Mscale`, `Mmode`, `aRes`,
`gRes` or `mRes`. -/
def calibrateMPU9250.call (board : Board) (data : Nat → Nat) (s : Sketch) :
    Sketch × Except Fault (Arr3 ℚ × Arr3 ℚ) :=
  let r := calibrateMPU9250 board data s.bus
  (⟨s.globals, r.bus⟩, r.dest)

/-! ## Vocabulary of the statements -/

/-- The three sensor axes, in the order the source indexes them. -/
inductive Axis
  | x
  | y
  | z
  deriving DecidableEq

/-- Element `[0]`, `[1]` or `[2]` of a three-element array. -/
def Arr3.get {α : Type} (a : Arr3 α) : Axis → α
  | Axis.x => a.e0
  | Axis.y => a.e1
  | Axis.z => a.e2

/-- The signed 16-bit value of a big-endian byte pair: the two's-complement reading of
`256 * hi + lo`. -/
def be16 (hi lo : Nat) : Int :=
  if 256 * hi + lo < 32768 then (256 * hi + lo : Int) else (256 * hi + lo : Int) - 65536

/-- The 16-bit two's-complement encoding of an integer, as a number below 65536. -/
def enc16 (v : Int) : Nat := (v % 65536).toNat

/-- A drained FIFO packet: twelve bytes. -/
def IsPacket (p : List Nat) : Prop := p.length = 12 ∧ ∀ b ∈ p, b < 256

instance (p : List Nat) : Decidable (IsPacket p) := by
  unfold IsPacket; infer_instance

/-- Sample `k` of a packet (0, 1, 2: accelerometer x, y, z; 3, 4, 5: gyroscope x, y, z), the
big-endian signed value of bytes `2k` and `2k+1`. -/
def packetSample (p : List Nat) (k : Nat) : Int :=
  be16 (p.getD (2 * k) 0) (p.getD (2 * k + 1) 0)

/-- The mathematical sum of sample `k` over a sequence of packets. -/
def axisSum (pkts : List (List Nat)) (k : Nat) : Int :=
  (pkts.map (fun p => packetSample p k)).sum

/-- Every element of the array lies within `m` times the `int16_t` magnitude. -/
def Arr3.Within (m : Nat) (a : Arr3 Int) : Prop :=
  (-32768 * (m : Int) ≤ a.e0 ∧ a.e0 ≤ 32768 * (m : Int)) ∧
  (-32768 * (m : Int) ≤ a.e1 ∧ a.e1 ≤ 32768 * (m : Int)) ∧
  (-32768 * (m : Int) ≤ a.e2 ∧ a.e2 ≤ 32768 * (m : Int))


/-- The bus traffic of lines 368-416, in program order. -/
def configureLog : List Event :=
  [Event.write Dev.MPU9250_ADDRESS Reg.PWR_MGMT_1 0x80,
   Event.delay 100,
   Event.write Dev.MPU9250_ADDRESS Reg.PWR_MGMT_1 0x01,
   Event.write Dev.MPU9250_ADDRESS Reg.PWR_MGMT_2 0x00,
   Event.delay 200,
   Event.write Dev.MPU9250_ADDRESS Reg.INT_ENABLE 0x00,
   Event.write Dev.MPU9250_ADDRESS Reg.FIFO_EN 0x00,
   Event.write Dev.MPU9250_ADDRESS Reg.PWR_MGMT_1 0x00,
   Event.write Dev.MPU9250_ADDRESS Reg.I2C_MST_CTRL 0x00,
   Event.write Dev.MPU9250_ADDRESS Reg.USER_CTRL 0x00,
   Event.write Dev.MPU9250_ADDRESS Reg.USER_CTRL 0x0C,
   Event.delay 15,
   Event.write Dev.MPU9250_ADDRESS Reg.CONFIG 0x01,
   Event.write Dev.MPU9250_ADDRESS Reg.SMPLRT_DIV 0x00,
   Event.write Dev.MPU9250_ADDRESS Reg.GYRO_CONFIG 0x00,
   Event.write Dev.MPU9250_ADDRESS Reg.ACCEL_CONFIG 0x00,
   Event.write Dev.MPU9250_ADDRESS Reg.USER_CTRL 0x40,
   Event.write Dev.MPU9250_ADDRESS Reg.FIFO_EN 0x78,
   Event.delay 40,
   Event.write Dev.MPU9250_ADDRESS Reg.FIFO_EN 0x00]

/-- One 12-byte read of the FIFO data register. -/
def fifoRead : Event := Event.read Dev.MPU9250_ADDRESS Reg.FIFO_R_W 12

/-- The integer means of the six axes over a sequence of packets: each sum divided by the number
of packets, truncating toward zero.  Accelerometer first, gyroscope second. -/
def packetMeans (pkts : List (List Nat)) : Arr3 Int × Arr3 Int :=
  (⟨Int.tdiv (axisSum pkts 0) pkts.length, Int.tdiv (axisSum pkts 1) pkts.length,
    Int.tdiv (axisSum pkts 2) pkts.length⟩,
   ⟨Int.tdiv (axisSum pkts 3) pkts.length, Int.tdiv (axisSum pkts 4) pkts.length,
    Int.tdiv (axisSum pkts 5) pkts.length⟩)

/-- The value is representable in an `int32_t`. -/
def IsInt32 (x : Int) : Prop := -2147483648 ≤ x ∧ x ≤ 2147483647

instance (x : Int) : Decidable (IsInt32 x) := by
  unfold IsInt32; infer_instance

/-- The data byte of the most recent write to a register in a log, if there is one. -/
def lastWrite (address : Dev) (reg : Reg) (log : List Event) : Option Nat :=
  log.foldl (fun acc e =>
    match e with
    | Event.write a r v => if a = address ∧ r = reg then some v else acc
    | _ => acc) none

/-- The high-byte accelerometer offset register of an axis. -/
def A_OFFSET_H : Axis → Reg
  | Axis.x => Reg.XA_OFFSET_H
  | Axis.y => Reg.YA_OFFSET_H
  | Axis.z => Reg.ZA_OFFSET_H

/-- The low-byte accelerometer offset register of an axis. -/
def A_OFFSET_L : Axis → Reg
  | Axis.x => Reg.XA_OFFSET_L
  | Axis.y => Reg.YA_OFFSET_L
  | Axis.z => Reg.ZA_OFFSET_L

/-- The slave's answers to the three factory trim reads: per axis the pair (high byte, low byte)
held by the accelerometer offset registers. -/
def trimScript (trim : Arr3 (Nat × Nat)) : List (List Nat) :=
  [[trim.e0.1, trim.e0.2], [trim.e1.1, trim.e1.2], [trim.e2.1, trim.e2.2]]

/-- The accelerometer means after gravity removal, in the words of the specification: 16384 is subtracted from a positive
mean and added to any other. -/
def withoutGravity (accel : Arr3 Int) : Arr3 Int :=
  ⟨accel.e0, accel.e1, if accel.e2 > 0 then accel.e2 - 16384 else accel.e2 + 16384⟩

/-- A sample capture of two packets: accelerometer (100, -100, 16400) and (108, -100, 16401),
gyroscope (131, -131, 7) and (131, -131, 8). -/
def samplePackets : List (List Nat) :=
  [[0, 100, 255, 156, 64, 16, 0, 131, 255, 125, 0, 7],
   [0, 108, 255, 156, 64, 17, 0, 131, 255, 125, 0, 8]]

/-- The value is representable in an `int16_t`. -/
def IsInt16 (x : Int) : Prop := -32768 ≤ x ∧ x ≤ 32767

instance (x : Int) : Decidable (IsInt16 x) := by
  unfold IsInt16; infer_instance

/-- A run of `n` bytes as the slave delivers it. -/
def IsBytes (n : Nat) (p : List Nat) : Prop := p.length = n ∧ ∀ b ∈ p, b < 256

instance (n : Nat) (p : List Nat) : Decidable (IsBytes n p) := by
  unfold IsBytes; infer_instance

/-- The slave's answers to `n` rounds of a sampling loop when the sensors hold still: each round
reads the same six accelerometer bytes and the same six gyroscope bytes. -/
def steadyScript (accel gyro : List Nat) : Nat → List (List Nat)
  | 0 => []
  | n + 1 => accel :: gyro :: steadyScript accel gyro n

/-- The FIFO loop body of `calibrateMPU9250` with the six sums kept in the integers, that is
without the reduction to `int32_t` after each addition. -/
def loopBodyExact (board : Board) (s : CalibState) : CalibState :=
  let r := readBytes Dev.MPU9250_ADDRESS Reg.FIFO_R_W 12 s.data s.bus
  let data := r.1
  ⟨r.2, data,
   ⟨s.accel_bias.e0 + toInt16 (int16Pair board (data 0) (data 1)),
    s.accel_bias.e1 + toInt16 (int16Pair board (data 2) (data 3)),
    s.accel_bias.e2 + toInt16 (int16Pair board (data 4) (data 5))⟩,
   ⟨s.gyro_bias.e0 + toInt16 (int16Pair board (data 6) (data 7)),
    s.gyro_bias.e1 + toInt16 (int16Pair board (data 8) (data 9)),
    s.gyro_bias.e2 + toInt16 (int16Pair board (data 10) (data 11))⟩⟩

/-- The FIFO loop with the sums kept in the integers. -/
def loopExact (board : Board) : Nat → CalibState → CalibState
  | 0, s => s
  | n + 1, s => loopExact board n (loopBodyExact board s)

/-- The bus traffic of `n` rounds of a sampling loop of `MPU9250SelfTest`: a 6-byte accelerometer
read, then a 6-byte gyroscope read, per round. -/
def sampleReads : Nat → List Event
  | 0 => []
  | n + 1 => Event.read Dev.MPU9250_ADDRESS Reg.ACCEL_XOUT_H 6
      :: Event.read Dev.MPU9250_ADDRESS Reg.GYRO_XOUT_H 6 :: sampleReads n

/-- The bus traffic of `MPU9250SelfTest`, in program order. -/
def selfTestLog : List Event :=
  [Event.write Dev.MPU9250_ADDRESS Reg.SMPLRT_DIV 0x00,
   Event.write Dev.MPU9250_ADDRESS Reg.CONFIG 0x02,
   Event.write Dev.MPU9250_ADDRESS Reg.GYRO_CONFIG 0x01,
   Event.write Dev.MPU9250_ADDRESS Reg.ACCEL_CONFIG2 0x02,
   Event.write Dev.MPU9250_ADDRESS Reg.ACCEL_CONFIG 0x01]
  ++ sampleReads 200
  ++ [Event.write Dev.MPU9250_ADDRESS Reg.ACCEL_CONFIG 0xE0,
      Event.write Dev.MPU9250_ADDRESS Reg.GYRO_CONFIG 0xE0,
      Event.delay 25]
  ++ sampleReads 200
  ++ [Event.write Dev.MPU9250_ADDRESS Reg.ACCEL_CONFIG 0x00,
      Event.write Dev.MPU9250_ADDRESS Reg.GYRO_CONFIG 0x00,
      Event.delay 25,
      Event.read Dev.MPU9250_ADDRESS Reg.SELF_TEST_X_ACCEL 1,
      Event.read Dev.MPU9250_ADDRESS Reg.SELF_TEST_Y_ACCEL 1,
      Event.read Dev.MPU9250_ADDRESS Reg.SELF_TEST_Z_ACCEL 1,
      Event.read Dev.MPU9250_ADDRESS Reg.SELF_TEST_X_GYRO 1,
      Event.read Dev.MPU9250_ADDRESS Reg.SELF_TEST_Y_GYRO 1,
      Event.read Dev.MPU9250_ADDRESS Reg.SELF_TEST_Z_GYRO 1]

/-- The slave's answers to the six trim code reads, one byte each. -/
def codeScript (codes : Arr6 Nat) : List (List Nat) :=
  [[codes.e0], [codes.e1], [codes.e2], [codes.e3], [codes.e4], [codes.e5]]

/-- The state in which `calibrateMPU9250` enters the FIFO loop: configuration done, FIFO count
read into `data`, all six sums zero. -/
def captureStart (data : Nat → Nat) (bus : Bus) : CalibState :=
  ⟨(readBytes Dev.MPU9250_ADDRESS Reg.FIFO_COUNTH 2 data (calibrateMPU9250.configure bus)).2,
   (readBytes Dev.MPU9250_ADDRESS Reg.FIFO_COUNTH 2 data (calibrateMPU9250.configure bus)).1,
   ⟨0, 0, 0⟩, ⟨0, 0, 0⟩⟩

/-- Sum arrays that happen to hold zero on entry. -/
def zeroSums : SelfTestSums := ⟨⟨0, 0, 0⟩, ⟨0, 0, 0⟩, ⟨0, 0, 0⟩, ⟨0, 0, 0⟩⟩

/-- The high-byte gyroscope offset register of an axis. -/
def G_OFFSET_H : Axis → Reg
  | Axis.x => Reg.XG_OFFSET_H
  | Axis.y => Reg.YG_OFFSET_H
  | Axis.z => Reg.ZG_OFFSET_H

/-- The low-byte gyroscope offset register of an axis. -/
def G_OFFSET_L : Axis → Reg
  | Axis.x => Reg.XG_OFFSET_L
  | Axis.y => Reg.YG_OFFSET_L
  | Axis.z => Reg.ZG_OFFSET_L

/-- Bits [4:3] of a register value, the full-scale selection of GYRO_CONFIG and ACCEL_CONFIG. -/
def fullScaleBits (v : Nat) : Nat := v / 8 % 4

/-- Bits [7:5] of a register value, the three self-test enables of GYRO_CONFIG and
ACCEL_CONFIG. -/
def selfTestBits (v : Nat) : Nat := v / 32 % 8

/-- The values the globals of lines 61-66 are initialised with: 250 dps, 2 g, 16-bit magnetometer
resolution, mode 2; the three resolutions start at zero. -/
def initialGlobals : Globals := ⟨GFS_250DPS, AFS_2G, MFS_16BITS, 0x02, 0, 0, 0⟩

/-- One round of a sampling loop as it acts on three sums when the answer `p` is complete: each
sum takes the big-endian value of its byte pair, with `int16_t` wrap-around. -/
def addReading (p : List Nat) (x : Arr3 Int) : Arr3 Int :=
  ⟨addAssign16 x.e0 (be16 (p.getD 0 0) (p.getD 1 0)),
   addAssign16 x.e1 (be16 (p.getD 2 0) (p.getD 3 0)),
   addAssign16 x.e2 (be16 (p.getD 4 0) (p.getD 5 0))⟩

/-- Floating-point arithmetic without rounding error: both roundings are the identity and `pow`
is the exact power, at the whole exponents the routine passes. -/
def exactArith : FloatOps := ⟨fun x => x, fun x => x, fun x y => x ^ Int.floor y⟩

/-- The slave's answers to a self-test run in which the accelerometer x axis reads 100 in each of
the 200 baseline rounds and 500 in each of the 200 stimulated rounds, every other axis reads 0,
and the six trim codes are 1. -/
def steadyRun : List (List Nat) :=
  steadyScript [0x00, 0x64, 0, 0, 0, 0] [0, 0, 0, 0, 0, 0] 200
    ++ (steadyScript [0x01, 0xF4, 0, 0, 0, 0] [0, 0, 0, 0, 0, 0] 200
      ++ codeScript ⟨1, 1, 1, 1, 1, 1⟩)

/-! ## Arithmetic and transport lemmas -/

/-- Truncating division of a non-negative dividend is floor division. -/
theorem tdiv_nonneg_eq (a b : Int) (ha : 0 ≤ a) (hb : 0 ≤ b) : Int.tdiv a b = a / b :=
  Int.tdiv_eq_ediv ha hb

/-- Truncating division of a non-positive dividend, through floor division of its negation. -/
theorem tdiv_neg_eq (a b : Int) (ha : a ≤ 0) (hb : 0 ≤ b) : Int.tdiv a b = -((-a) / b) := by
  have h := Int.tdiv_eq_ediv (a := -a) (b := b) (by omega) hb
  rw [Int.neg_tdiv] at h
  omega

/-- The bit pattern `(hi << 8) | lo` is `256 * hi + lo` when `lo` is a byte. -/
theorem pair_eq (hi lo : Nat) (hlo : lo < 256) : (hi <<< 8) ||| lo = 256 * hi + lo := by
  rw [Nat.shiftLeft_eq, Nat.mul_comm]
  exact (Nat.mul_add_lt_is_or (i := 8) (by simpa using hlo) hi).symm

theorem toInt16_int16Pair (board : Board) (hi lo : Nat) (hlo : lo < 256) :
    toInt16 (int16Pair board hi lo) = toInt16 (256 * hi + lo) := by
  unfold int16Pair
  rw [pair_eq hi lo hlo]
  cases board
  · simp only [Board.toInt, toInt16]; push_cast; omega
  · simp only [Board.toInt]; push_cast; rfl

/-- The receive loop overwrites exactly the positions `i .. i + xs.length - 1` of `dest`. -/
theorem fillDest_apply (xs : List Nat) (i : Nat) (dest : Nat → Nat) (j : Nat) :
    fillDest xs i dest j = if i ≤ j ∧ j < i + xs.length then xs.getD (j - i) 0 else dest j := by
  induction xs generalizing i dest with
  | nil =>
    have h : ¬ (i ≤ j ∧ j < i + ([] : List Nat).length) := by simp
    rw [fillDest, if_neg h]
  | cons x xs ih =>
    rw [fillDest, ih]
    by_cases h1 : j = i
    · subst h1; simp
    · by_cases h2 : i + 1 ≤ j ∧ j < i + 1 + xs.length
      · have h3 : i ≤ j ∧ j < i + (x :: xs).length := by simp; omega
        rw [if_pos h2, if_pos h3]
        have : j - i = (j - (i+1)) + 1 := by omega
        rw [this]; simp
      · have h3 : ¬ (i ≤ j ∧ j < i + (x :: xs).length) := by simp; omega
        rw [if_neg h2, if_neg h3, if_neg h1]

/-- A read that is answered with exactly `count` bytes stores them, reduced to `uint8_t`, in
`dest[0 .. count-1]` and logs one read transaction. -/
theorem readBytes_full (address : Dev) (subAddress : Reg) (count : Nat) (dest : Nat → Nat)
    (p : List Nat) (rest : List (List Nat)) (log : List Event) (hp : p.length = count) :
    (readBytes address subAddress count dest ⟨p :: rest, log⟩).2
        = ⟨rest, log ++ [Event.read address subAddress count]⟩
      ∧ ∀ j, j < count →
        (readBytes address subAddress count dest ⟨p :: rest, log⟩).1 j = p.getD j 0 % 256 := by
  constructor
  · simp [readBytes, requestFrom]
  · intro j hj
    simp only [readBytes, requestFrom, List.headD_cons, fillDest_apply]
    have h : 0 ≤ j ∧ j < 0 + (List.map (fun b => b % 256) (List.take count p)).length := by
      simp; omega
    rw [if_pos h]
    rw [List.take_of_length_le (by omega)]
    simp [List.getD_eq_getElem?_getD, List.getElem?_map]
    cases hq : p[j]? <;> simp

theorem be16_eq_toInt16 (hi lo : Nat) (hhi : hi < 256) (hlo : lo < 256) :
    toInt16 (256 * hi + lo) = be16 hi lo := by
  unfold toInt16 be16
  split <;> omega

theorem be16_range (hi lo : Nat) (hhi : hi < 256) (hlo : lo < 256) :
    -32768 ≤ be16 hi lo ∧ be16 hi lo ≤ 32767 := by
  unfold be16
  split <;> omega

theorem getD_lt_of_isPacket (p : List Nat) (hp : IsPacket p) (j : Nat) : p.getD j 0 < 256 := by
  rw [List.getD_eq_getElem?_getD]
  cases h : p[j]? with
  | none => simp
  | some b =>
    simp only [Option.getD_some]
    exact hp.2 b (List.getElem?_mem h)

theorem packetSample_range (p : List Nat) (hp : IsPacket p) (k : Nat) :
    -32768 ≤ packetSample p k ∧ packetSample p k ≤ 32767 :=
  be16_range _ _ (getD_lt_of_isPacket p hp _) (getD_lt_of_isPacket p hp _)

theorem toInt32_of_range (x : Int) (h1 : -2147483648 ≤ x) (h2 : x ≤ 2147483647) :
    toInt32 x = x := by
  unfold toInt32; omega

theorem sample_eq (board : Board) (p : List Nat) (hp : IsPacket p) (k : Nat)
    (data : Nat → Nat) (h0 : data (2 * k) = p.getD (2 * k) 0 % 256)
    (h1 : data (2 * k + 1) = p.getD (2 * k + 1) 0 % 256) :
    toInt16 (int16Pair board (data (2 * k)) (data (2 * k + 1))) = packetSample p k := by
  have a := getD_lt_of_isPacket p hp (2 * k)
  have b := getD_lt_of_isPacket p hp (2 * k + 1)
  rw [h0, h1, Nat.mod_eq_of_lt a, Nat.mod_eq_of_lt b, toInt16_int16Pair board _ _ b]
  exact be16_eq_toInt16 _ _ a b

/-- One iteration of the FIFO loop on a full packet: one read is logged and the six samples are
added to the sums without wrapping, as long as fewer than 65535 packets came before. -/
theorem loopBody_spec (board : Board) (s : CalibState) (p : List Nat) (rest : List (List Nat))
    (m : Nat) (hp : IsPacket p) (hrx : s.bus.rx = p :: rest) (hm : m + 1 ≤ 65535)
    (ha : s.accel_bias.Within m) (hg : s.gyro_bias.Within m) :
    (calibrateMPU9250.loopBody board s).bus
        = ⟨rest, s.bus.log ++ [Event.read Dev.MPU9250_ADDRESS Reg.FIFO_R_W 12]⟩
      ∧ (calibrateMPU9250.loopBody board s).accel_bias
        = ⟨s.accel_bias.e0 + packetSample p 0, s.accel_bias.e1 + packetSample p 1,
           s.accel_bias.e2 + packetSample p 2⟩
      ∧ (calibrateMPU9250.loopBody board s).gyro_bias
        = ⟨s.gyro_bias.e0 + packetSample p 3, s.gyro_bias.e1 + packetSample p 4,
           s.gyro_bias.e2 + packetSample p 5⟩ := by
  obtain ⟨bus, data, ab, gb⟩ := s
  obtain ⟨rx, log⟩ := bus
  simp only at hrx
  subst hrx
  obtain ⟨hb, hd⟩ := readBytes_full Dev.MPU9250_ADDRESS Reg.FIFO_R_W 12 data p rest log hp.1
  have e0 := sample_eq board p hp 0 _ (hd 0 (by omega)) (hd 1 (by omega))
  have e1 := sample_eq board p hp 1 _ (hd 2 (by omega)) (hd 3 (by omega))
  have e2 := sample_eq board p hp 2 _ (hd 4 (by omega)) (hd 5 (by omega))
  have e3 := sample_eq board p hp 3 _ (hd 6 (by omega)) (hd 7 (by omega))
  have e4 := sample_eq board p hp 4 _ (hd 8 (by omega)) (hd 9 (by omega))
  have e5 := sample_eq board p hp 5 _ (hd 10 (by omega)) (hd 11 (by omega))
  have r0 := packetSample_range p hp 0
  have r1 := packetSample_range p hp 1
  have r2 := packetSample_range p hp 2
  have r3 := packetSample_range p hp 3
  have r4 := packetSample_range p hp 4
  have r5 := packetSample_range p hp 5
  obtain ⟨⟨a1, a2⟩, ⟨a3, a4⟩, ⟨a5, a6⟩⟩ := ha
  obtain ⟨⟨g1, g2⟩, ⟨g3, g4⟩, ⟨g5, g6⟩⟩ := hg
  simp only at a1 a2 a3 a4 a5 a6 g1 g2 g3 g4 g5 g6
  simp only [Nat.reduceMul, Nat.reduceAdd, Nat.zero_add] at e0 e1 e2 e3 e4 e5
  refine ⟨hb, ?_, ?_⟩
  · simp only [calibrateMPU9250.loopBody, e0, e1, e2]
    rw [toInt32_of_range _ (by omega) (by omega), toInt32_of_range _ (by omega) (by omega),
      toInt32_of_range _ (by omega) (by omega)]
  · simp only [calibrateMPU9250.loopBody, e3, e4, e5]
    rw [toInt32_of_range _ (by omega) (by omega), toInt32_of_range _ (by omega) (by omega),
      toInt32_of_range _ (by omega) (by omega)]

theorem configure_eq (bus : Bus) :
    calibrateMPU9250.configure bus = ⟨bus.rx, bus.log ++ configureLog⟩ := by
  simp [calibrateMPU9250.configure, writeByte, delay, configureLog]

theorem axisSum_cons (p : List Nat) (ps : List (List Nat)) (k : Nat) :
    axisSum (p :: ps) k = packetSample p k + axisSum ps k := by
  simp [axisSum]

theorem axisSum_range (k : Nat) : ∀ pkts : List (List Nat), (∀ p ∈ pkts, IsPacket p) →
    -32768 * (pkts.length : Int) ≤ axisSum pkts k ∧ axisSum pkts k ≤ 32767 * (pkts.length : Int)
  | [], _ => by simp [axisSum]
  | p :: ps, h => by
    have ih := axisSum_range k ps (fun q hq => h q (List.mem_cons_of_mem _ hq))
    have r := packetSample_range p (h p (List.mem_cons_self _ _)) k
    rw [axisSum_cons]
    simp only [List.length_cons]
    push_cast
    omega

/-- The FIFO loop over a sequence of full packets leaves the mathematical sums of the samples. -/
theorem loop_spec (board : Board) (rest : List (List Nat)) :
    ∀ (pkts : List (List Nat)) (s : CalibState) (m : Nat),
      (∀ p ∈ pkts, IsPacket p) → s.bus.rx = pkts ++ rest → m + pkts.length ≤ 65535 →
      s.accel_bias.Within m → s.gyro_bias.Within m →
      (calibrateMPU9250.loop board pkts.length s).bus
          = ⟨rest, s.bus.log ++ List.replicate pkts.length fifoRead⟩
        ∧ (calibrateMPU9250.loop board pkts.length s).accel_bias
          = ⟨s.accel_bias.e0 + axisSum pkts 0, s.accel_bias.e1 + axisSum pkts 1,
             s.accel_bias.e2 + axisSum pkts 2⟩
        ∧ (calibrateMPU9250.loop board pkts.length s).gyro_bias
          = ⟨s.gyro_bias.e0 + axisSum pkts 3, s.gyro_bias.e1 + axisSum pkts 4,
             s.gyro_bias.e2 + axisSum pkts 5⟩
  | [], s, m, _, hrx, _, _, _ => by
    obtain ⟨⟨rx, log⟩, data, ab, gb⟩ := s
    simp only [List.nil_append] at hrx
    subst hrx
    simp [calibrateMPU9250.loop, axisSum]
  | p :: ps, s, m, hp, hrx, hm, ha, hg => by
    have hp0 := hp p (List.mem_cons_self _ _)
    simp only [List.length_cons] at hm
    obtain ⟨b1, a1, g1⟩ := loopBody_spec board s p (ps ++ rest) m hp0
      (by simpa using hrx) (by omega) ha hg
    have r0 := packetSample_range p hp0 0
    have r1 := packetSample_range p hp0 1
    have r2 := packetSample_range p hp0 2
    have r3 := packetSample_range p hp0 3
    have r4 := packetSample_range p hp0 4
    have r5 := packetSample_range p hp0 5
    have ha1 : (calibrateMPU9250.loopBody board s).accel_bias.Within (m + 1) := by
      rw [a1]
      obtain ⟨⟨h1, h2⟩, ⟨h3, h4⟩, ⟨h5, h6⟩⟩ := ha
      refine ⟨⟨?_, ?_⟩, ⟨?_, ?_⟩, ⟨?_, ?_⟩⟩ <;> simp only <;> push_cast <;> omega
    have hg1 : (calibrateMPU9250.loopBody board s).gyro_bias.Within (m + 1) := by
      rw [g1]
      obtain ⟨⟨h1, h2⟩, ⟨h3, h4⟩, ⟨h5, h6⟩⟩ := hg
      refine ⟨⟨?_, ?_⟩, ⟨?_, ?_⟩, ⟨?_, ?_⟩⟩ <;> simp only <;> push_cast <;> omega
    obtain ⟨b2, a2, g2⟩ := loop_spec board rest ps (calibrateMPU9250.loopBody board s) (m + 1)
      (fun q hq => hp q (List.mem_cons_of_mem _ hq)) (by rw [b1]) (by omega) ha1 hg1
    simp only [List.length_cons, calibrateMPU9250.loop]
    refine ⟨?_, ?_, ?_⟩
    · rw [b2, b1]
      simp [List.replicate_succ, fifoRead]
    · rw [a2, a1]
      simp only [axisSum_cons, Int.add_assoc]
    · rw [g2, g1]
      simp only [axisSum_cons, Int.add_assoc]

theorem packet_count_eq (data : Nat → Nat) (h l : Nat) (hh : h < 256) (hl : l < 256)
    (h0 : data 0 = h) (h1 : data 1 = l) :
    calibrateMPU9250.fifo_count data = 256 * h + l
      ∧ calibrateMPU9250.packet_count data = (256 * h + l) / 12 := by
  have e : calibrateMPU9250.fifo_count data = 256 * h + l := by
    unfold calibrateMPU9250.fifo_count
    rw [h0, h1, pair_eq h l hl]
    omega
  refine ⟨e, ?_⟩
  unfold calibrateMPU9250.packet_count
  rw [e]
  omega

/-- Lines 368-443 on a well-formed capture: packet count, bus and the six sums. -/
theorem capture_spec (board : Board) (data : Nat → Nat) (h l : Nat) (pkts rest : List (List Nat))
    (log : List Event) (hh : h < 256) (hl : l < 256) (hn : pkts.length = (256 * h + l) / 12)
    (hp : ∀ p ∈ pkts, IsPacket p) :
    (calibrateMPU9250.capture board data ⟨[h, l] :: (pkts ++ rest), log⟩).1 = pkts.length
      ∧ (calibrateMPU9250.capture board data ⟨[h, l] :: (pkts ++ rest), log⟩).2.bus
          = ⟨rest, log ++ configureLog ++ [Event.read Dev.MPU9250_ADDRESS Reg.FIFO_COUNTH 2]
              ++ List.replicate pkts.length fifoRead⟩
      ∧ (calibrateMPU9250.capture board data ⟨[h, l] :: (pkts ++ rest), log⟩).2.accel_bias
          = ⟨axisSum pkts 0, axisSum pkts 1, axisSum pkts 2⟩
      ∧ (calibrateMPU9250.capture board data ⟨[h, l] :: (pkts ++ rest), log⟩).2.gyro_bias
          = ⟨axisSum pkts 3, axisSum pkts 4, axisSum pkts 5⟩ := by
  obtain ⟨hb, hd⟩ := readBytes_full Dev.MPU9250_ADDRESS Reg.FIFO_COUNTH 2 data [h, l]
    (pkts ++ rest) (log ++ configureLog) rfl
  have d0 := hd 0 (by omega)
  have d1 := hd 1 (by omega)
  simp only [List.getD_cons_zero, List.getD_cons_succ, Nat.mod_eq_of_lt hh,
    Nat.mod_eq_of_lt hl] at d0 d1
  obtain ⟨_, hc⟩ := packet_count_eq _ h l hh hl d0 d1
  have hlen : 0 + pkts.length ≤ 65535 := by omega
  have hz : (⟨0, 0, 0⟩ : Arr3 Int).Within 0 := by simp [Arr3.Within]
  simp only [calibrateMPU9250.capture, configure_eq]
  rw [hc, ← hn]
  obtain ⟨b, a, g⟩ := loop_spec board rest pkts
    ⟨(readBytes Dev.MPU9250_ADDRESS Reg.FIFO_COUNTH 2 data
        ⟨[h, l] :: (pkts ++ rest), log ++ configureLog⟩).2,
     (readBytes Dev.MPU9250_ADDRESS Reg.FIFO_COUNTH 2 data
        ⟨[h, l] :: (pkts ++ rest), log ++ configureLog⟩).1, ⟨0, 0, 0⟩, ⟨0, 0, 0⟩⟩ 0 hp
    (by simp only [hb]) hlen hz hz
  refine ⟨rfl, ?_, ?_, ?_⟩
  · rw [b, hb]
  · rw [a]; simp
  · rw [g]; simp

/-- A truncated quotient by `n >= 1` stays within the per-unit bounds of the dividend. -/
theorem tdiv_range (x : Int) (n : Nat) (B C : Int) (hn : 1 ≤ n) (hB : 0 ≤ B) (hC : 0 ≤ C)
    (h1 : -B * n ≤ x) (h2 : x ≤ C * n) : -B ≤ Int.tdiv x n ∧ Int.tdiv x n ≤ C := by
  have hn0 : (0 : Int) < n := by omega
  rcases Int.le_total 0 x with hx | hx
  · rw [tdiv_nonneg_eq x n hx (by omega)]
    have a := Int.ediv_nonneg hx (Int.le_of_lt hn0)
    have b := Int.ediv_le_of_le_mul hn0 h2
    omega
  · rw [tdiv_neg_eq x n hx (by omega)]
    have a := Int.ediv_nonneg (a := -x) (by omega) (Int.le_of_lt hn0)
    have b := Int.ediv_le_of_le_mul (a := -x) (b := B) hn0 (by
      have : -B * (n : Int) = -(B * n) := by ring
      omega)
    omega

theorem divAssign32_mean (pkts : List (List Nat)) (k : Nat) (hn : 1 ≤ pkts.length)
    (hp : ∀ p ∈ pkts, IsPacket p) :
    divAssign32 (axisSum pkts k) pkts.length
        = Except.ok (Int.tdiv (axisSum pkts k) pkts.length)
      ∧ -32768 ≤ Int.tdiv (axisSum pkts k) pkts.length
      ∧ Int.tdiv (axisSum pkts k) pkts.length ≤ 32767 := by
  obtain ⟨r1, r2⟩ := axisSum_range k pkts hp
  obtain ⟨t1, t2⟩ := tdiv_range (axisSum pkts k) pkts.length 32768 32767 hn (by omega) (by omega)
    (by omega) r2
  refine ⟨?_, t1, t2⟩
  unfold divAssign32
  rw [if_neg (by omega), toInt32_of_range _ (by omega) (by omega)]

/-- The normalisation of the sums of `n >= 1` packets succeeds and gives the truncated means. -/
theorem normalize_spec (pkts : List (List Nat)) (hn : 1 ≤ pkts.length)
    (hp : ∀ p ∈ pkts, IsPacket p) :
    calibrateMPU9250.normalize pkts.length
        ⟨axisSum pkts 0, axisSum pkts 1, axisSum pkts 2⟩
        ⟨axisSum pkts 3, axisSum pkts 4, axisSum pkts 5⟩
      = Except.ok (packetMeans pkts) := by
  simp only [calibrateMPU9250.normalize, (divAssign32_mean pkts _ hn hp).1, packetMeans]
  rfl

/-- The gyroscope push appends six writes, X, Y, Z, high byte before low byte. -/
theorem pushGyro_eq (g : Arr3 Int) (bus : Bus) :
    calibrateMPU9250.pushGyro g bus
      = ⟨bus.rx, bus.log ++
          [Event.write Dev.MPU9250_ADDRESS Reg.XG_OFFSET_H (calibrateMPU9250.gyroBytes g.e0).1,
           Event.write Dev.MPU9250_ADDRESS Reg.XG_OFFSET_L (calibrateMPU9250.gyroBytes g.e0).2,
           Event.write Dev.MPU9250_ADDRESS Reg.YG_OFFSET_H (calibrateMPU9250.gyroBytes g.e1).1,
           Event.write Dev.MPU9250_ADDRESS Reg.YG_OFFSET_L (calibrateMPU9250.gyroBytes g.e1).2,
           Event.write Dev.MPU9250_ADDRESS Reg.ZG_OFFSET_H (calibrateMPU9250.gyroBytes g.e2).1,
           Event.write Dev.MPU9250_ADDRESS Reg.ZG_OFFSET_L (calibrateMPU9250.gyroBytes g.e2).2]⟩ := by
  have hb : ∀ x : Int, toUInt8 x % 256 = toUInt8 x := by
    intro x; unfold toUInt8; omega
  simp [calibrateMPU9250.pushGyro, writeByte, calibrateMPU9250.gyroBytes, hb]

/-- The two gyroscope bytes of an `int32_t` mean are the halves of the 16-bit encoding of the
negated mean divided by 4. -/
theorem gyroBytes_eq (m : Int) (h1 : -2147483648 ≤ m) (h2 : m ≤ 2147483647) :
    calibrateMPU9250.gyroBytes m
      = (enc16 (Int.tdiv (-m) 4) / 256, enc16 (Int.tdiv (-m) 4) % 256) := by
  by_cases hm : m = -2147483648
  · subst hm; decide
  · unfold calibrateMPU9250.gyroBytes enc16 toUInt8 toInt32
    have e1 : (-m + 2147483648) % 4294967296 - 2147483648 = -m := by omega
    rw [e1]
    rcases Int.le_total 0 (-m) with hx | hx
    · rw [tdiv_nonneg_eq (-m) 4 hx (by omega)]
      ext <;> simp only <;> omega
    · rw [tdiv_neg_eq (-m) 4 hx (by omega)]
      ext <;> simp only <;> omega

/-- What `accel_bias_reg[k]` holds after the trim read: the signed 16-bit value on a 16-bit `int`,
possibly 65536 more on a 32-bit `int`. -/
theorem trim_cases (board : Board) (fh fl : Nat) (hh : fh < 256) (hl : fl < 256) :
    toInt32 (int16Pair board fh fl) = be16 fh fl
      ∨ toInt32 (int16Pair board fh fl) = be16 fh fl + 65536 := by
  unfold int16Pair
  rw [pair_eq fh fl hl]
  cases board
  · left
    simp only [Board.toInt, toInt16, toInt32, be16]
    push_cast
    split <;> omega
  · simp only [Board.toInt, toInt32, be16]
    push_cast
    split
    · left; omega
    · right; omega

theorem or_one_facts (x : Nat) (hx : x < 256) :
    (x ||| 1) % 256 = x ||| 1 ∧ (x ||| 1) / 2 = x / 2 ∧ (x ||| 1) % 2 = 1 := by
  have h1 : x ||| 1 < 2 ^ 8 := Nat.or_lt_two_pow (by simpa using hx) (by decide)
  refine ⟨Nat.mod_eq_of_lt (by simpa using h1), ?_, ?_⟩
  · rw [Nat.or_div_two]; simp
  · rw [Nat.or_mod_two_eq_one]; right; rfl

theorem toUInt8_lt (x : Int) : toUInt8 x < 256 := by
  unfold toUInt8; omega

theorem accelBytes_lt (f a : Int) :
    (calibrateMPU9250.accelBytes f a).1 < 256 ∧ (calibrateMPU9250.accelBytes f a).2 < 256 := by
  unfold calibrateMPU9250.accelBytes
  exact ⟨toUInt8_lt _, Nat.mod_lt _ (by decide)⟩

theorem readTrim_full (board : Board) (reg : Reg) (data : Nat → Nat) (fh fl : Nat)
    (rest : List (List Nat)) (log : List Event) :
    (calibrateMPU9250.readTrim board reg data ⟨[fh, fl] :: rest, log⟩).1
        = toInt32 (int16Pair board (fh % 256) (fl % 256))
      ∧ (calibrateMPU9250.readTrim board reg data ⟨[fh, fl] :: rest, log⟩).2.2
        = ⟨rest, log ++ [Event.read Dev.MPU9250_ADDRESS reg 2]⟩ := by
  obtain ⟨hb, hd⟩ := readBytes_full Dev.MPU9250_ADDRESS reg 2 data [fh, fl] rest log rfl
  have d0 := hd 0 (by omega)
  have d1 := hd 1 (by omega)
  simp only [List.getD_cons_zero, List.getD_cons_succ] at d0 d1
  simp only [calibrateMPU9250.readTrim, hb, d0, d1, and_self]

/-- The accelerometer write-back on three two-byte answers: three reads, then six writes. -/
theorem pushAccel_eq (board : Board) (a : Arr3 Int) (data : Nat → Nat) (trim : Arr3 (Nat × Nat))
    (rest : List (List Nat)) (log : List Event) :
    calibrateMPU9250.pushAccel board a data ⟨trimScript trim ++ rest, log⟩
      = ⟨rest, log ++
          [Event.read Dev.MPU9250_ADDRESS Reg.XA_OFFSET_H 2,
           Event.read Dev.MPU9250_ADDRESS Reg.YA_OFFSET_H 2,
           Event.read Dev.MPU9250_ADDRESS Reg.ZA_OFFSET_H 2,
           Event.write Dev.MPU9250_ADDRESS Reg.XA_OFFSET_H (calibrateMPU9250.accelBytes
             (toInt32 (int16Pair board (trim.e0.1 % 256) (trim.e0.2 % 256))) a.e0).1,
           Event.write Dev.MPU9250_ADDRESS Reg.XA_OFFSET_L (calibrateMPU9250.accelBytes
             (toInt32 (int16Pair board (trim.e0.1 % 256) (trim.e0.2 % 256))) a.e0).2,
           Event.write Dev.MPU9250_ADDRESS Reg.YA_OFFSET_H (calibrateMPU9250.accelBytes
             (toInt32 (int16Pair board (trim.e1.1 % 256) (trim.e1.2 % 256))) a.e1).1,
           Event.write Dev.MPU9250_ADDRESS Reg.YA_OFFSET_L (calibrateMPU9250.accelBytes
             (toInt32 (int16Pair board (trim.e1.1 % 256) (trim.e1.2 % 256))) a.e1).2,
           Event.write Dev.MPU9250_ADDRESS Reg.ZA_OFFSET_H (calibrateMPU9250.accelBytes
             (toInt32 (int16Pair board (trim.e2.1 % 256) (trim.e2.2 % 256))) a.e2).1,
           Event.write Dev.MPU9250_ADDRESS Reg.ZA_OFFSET_L (calibrateMPU9250.accelBytes
             (toInt32 (int16Pair board (trim.e2.1 % 256) (trim.e2.2 % 256))) a.e2).2]⟩ := by
  simp only [trimScript, List.cons_append, List.nil_append, calibrateMPU9250.pushAccel]
  obtain ⟨v1, b1⟩ := readTrim_full board Reg.XA_OFFSET_H data trim.e0.1 trim.e0.2
    ([trim.e1.1, trim.e1.2] :: [trim.e2.1, trim.e2.2] :: rest) log
  rw [v1, b1]
  obtain ⟨v2, b2⟩ := readTrim_full board Reg.YA_OFFSET_H
    (calibrateMPU9250.readTrim board Reg.XA_OFFSET_H data
      ⟨[trim.e0.1, trim.e0.2] :: [trim.e1.1, trim.e1.2] :: [trim.e2.1, trim.e2.2] :: rest, log⟩).2.1
    trim.e1.1 trim.e1.2 ([trim.e2.1, trim.e2.2] :: rest)
    (log ++ [Event.read Dev.MPU9250_ADDRESS Reg.XA_OFFSET_H 2])
  rw [v2, b2]
  obtain ⟨v3, b3⟩ := readTrim_full board Reg.ZA_OFFSET_H
    (calibrateMPU9250.readTrim board Reg.YA_OFFSET_H
      (calibrateMPU9250.readTrim board Reg.XA_OFFSET_H data
        ⟨[trim.e0.1, trim.e0.2] :: [trim.e1.1, trim.e1.2] :: [trim.e2.1, trim.e2.2] :: rest,
          log⟩).2.1
      ⟨[trim.e1.1, trim.e1.2] :: [trim.e2.1, trim.e2.2] :: rest,
        log ++ [Event.read Dev.MPU9250_ADDRESS Reg.XA_OFFSET_H 2]⟩).2.1
    trim.e2.1 trim.e2.2 rest
    (log ++ [Event.read Dev.MPU9250_ADDRESS Reg.XA_OFFSET_H 2]
      ++ [Event.read Dev.MPU9250_ADDRESS Reg.YA_OFFSET_H 2])
  rw [v3, b3]
  simp [writeByte, Nat.mod_eq_of_lt (accelBytes_lt _ _).1, Nat.mod_eq_of_lt (accelBytes_lt _ _).2]

theorem be16_parity (fh fl : Nat) : be16 fh fl % 2 = (fl : Int) % 2 := by
  unfold be16; split <;> omega

theorem accelBytes_of_congruent (F f a : Int) (fl : Nat) (hF : F = f ∨ F = f + 65536)
    (hpar : f % 2 = (fl : Int) % 2) :
    (calibrateMPU9250.accelBytes F a).1 = enc16 (f - Int.tdiv a 8) / 256
      ∧ (calibrateMPU9250.accelBytes F a).2 / 2 = enc16 (f - Int.tdiv a 8) % 256 / 2
      ∧ (fl % 2 = 1 → (calibrateMPU9250.accelBytes F a).2 % 2 = 1) := by
  have hFpar : F % 2 = (fl : Int) % 2 := by omega
  simp only [calibrateMPU9250.accelBytes, calibrateMPU9250.mask_bit]
  generalize Int.tdiv a 8 = t
  have e1 : toUInt8 (toInt32 (F - t) / 256 % 256) = enc16 (f - t) / 256 := by
    unfold toUInt8 toInt32 enc16; omega
  have e2 : toUInt8 (toInt32 (F - t) % 256) = enc16 (f - t) % 256 := by
    unfold toUInt8 toInt32 enc16; omega
  have e3 : enc16 (f - t) % 256 < 256 := Nat.mod_lt _ (by decide)
  rw [e1, e2]
  refine ⟨rfl, ?_, ?_⟩
  · split
    · obtain ⟨o1, o2, _⟩ := or_one_facts _ e3
      rw [o1, o2]
    · rw [Nat.or_zero, Nat.mod_eq_of_lt e3]
  · intro hodd
    rw [if_pos (by omega)]
    obtain ⟨o1, _, o3⟩ := or_one_facts _ e3
    rw [o1, o3]

/-- The two accelerometer bytes of an axis in terms of the factory byte pair and the bias. -/
theorem accelBytes_spec (board : Board) (fh fl : Nat) (a : Int) (hh : fh < 256) (hl : fl < 256) :
    (calibrateMPU9250.accelBytes (toInt32 (int16Pair board fh fl)) a).1
        = enc16 (be16 fh fl - Int.tdiv a 8) / 256
      ∧ (calibrateMPU9250.accelBytes (toInt32 (int16Pair board fh fl)) a).2 / 2
        = enc16 (be16 fh fl - Int.tdiv a 8) % 256 / 2
      ∧ (fl % 2 = 1 →
          (calibrateMPU9250.accelBytes (toInt32 (int16Pair board fh fl)) a).2 % 2 = 1) :=
  accelBytes_of_congruent _ _ a fl (trim_cases board fh fl hh hl) (be16_parity fh fl)

/-- The bytes last written to the offset register pair of an axis by the write-back. -/
theorem lastWrite_pushAccel (board : Board) (a : Arr3 Int) (data : Nat → Nat)
    (trim : Arr3 (Nat × Nat)) (rest : List (List Nat)) (log : List Event) (axis : Axis) :
    lastWrite Dev.MPU9250_ADDRESS (A_OFFSET_H axis)
        (calibrateMPU9250.pushAccel board a data ⟨trimScript trim ++ rest, log⟩).log
        = some (calibrateMPU9250.accelBytes
            (toInt32 (int16Pair board ((trim.get axis).1 % 256) ((trim.get axis).2 % 256)))
            (a.get axis)).1
      ∧ lastWrite Dev.MPU9250_ADDRESS (A_OFFSET_L axis)
        (calibrateMPU9250.pushAccel board a data ⟨trimScript trim ++ rest, log⟩).log
        = some (calibrateMPU9250.accelBytes
            (toInt32 (int16Pair board ((trim.get axis).1 % 256) ((trim.get axis).2 % 256)))
            (a.get axis)).2 := by
  rw [pushAccel_eq]
  cases axis <;>
    simp [lastWrite, List.foldl_append, A_OFFSET_H, A_OFFSET_L, Arr3.get]

/-- Gravity removal on an `int32_t` z mean does not wrap. -/
theorem removeGravity_eq (accel_bias : Arr3 Int) (hz : IsInt32 accel_bias.e2) :
    calibrateMPU9250.removeGravity accel_bias = withoutGravity accel_bias := by
  obtain ⟨h1, h2⟩ := hz
  unfold calibrateMPU9250.removeGravity withoutGravity accelsensitivity
  split
  · rw [toInt32_of_range _ (by push_cast; omega) (by push_cast; omega)]; rfl
  · rw [toInt32_of_range _ (by push_cast; omega) (by push_cast; omega)]; rfl

/-- The FIFO loop logs one 12-byte FIFO read per iteration, whatever the slave answers. -/
theorem loop_log (board : Board) : ∀ (n : Nat) (s : CalibState),
    (calibrateMPU9250.loop board n s).bus.log = s.bus.log ++ List.replicate n fifoRead
  | 0, s => by simp [calibrateMPU9250.loop]
  | n + 1, s => by
    rw [calibrateMPU9250.loop, loop_log board n]
    simp [calibrateMPU9250.loopBody, readBytes, requestFrom, List.replicate_succ, fifoRead]

/-- The log of lines 368-443, whatever the slave answers. -/
theorem capture_log (board : Board) (data : Nat → Nat) (bus : Bus) :
    (calibrateMPU9250.capture board data bus).2.bus.log
      = bus.log ++ configureLog ++ [Event.read Dev.MPU9250_ADDRESS Reg.FIFO_COUNTH 2]
          ++ List.replicate (calibrateMPU9250.capture board data bus).1 fifoRead := by
  simp only [calibrateMPU9250.capture, loop_log, configure_eq]
  simp [readBytes, requestFrom]

theorem count_fifoRead_finish (board : Board) (a g : Arr3 Int) (data : Nat → Nat) (bus : Bus) :
    List.count fifoRead (calibrateMPU9250.finish board a g data bus).bus.log
      = List.count fifoRead bus.log := by
  simp [calibrateMPU9250.finish, calibrateMPU9250.pushAccel, calibrateMPU9250.readTrim,
    pushGyro_eq, readBytes, requestFrom, writeByte, fifoRead, List.count_cons]

/-- The whole routine performs as many 12-byte FIFO reads as the packet count, fault or not. -/
theorem count_fifoRead_calibrate (board : Board) (data : Nat → Nat) (bus : Bus) :
    List.count fifoRead (calibrateMPU9250 board data bus).bus.log
      = List.count fifoRead bus.log + (calibrateMPU9250.capture board data bus).1 := by
  have hc : List.count fifoRead (calibrateMPU9250.capture board data bus).2.bus.log
      = List.count fifoRead bus.log + (calibrateMPU9250.capture board data bus).1 := by
    rw [capture_log]
    simp [List.count_append, List.count_replicate_self, configureLog, fifoRead, List.count_cons]
  unfold calibrateMPU9250
  simp only
  split
  · exact hc
  · rw [count_fifoRead_finish]; exact hc

theorem normalize_zero (a g : Arr3 Int) :
    calibrateMPU9250.normalize 0 a g = Except.error Fault.divisionByZero := rfl

/-- On a well-formed capture of `n >= 1` packets the routine reaches lines 453-548 with the
truncated means. -/
theorem calibrate_dest (board : Board) (data : Nat → Nat) (h l : Nat)
    (pkts rest : List (List Nat)) (log : List Event) (hh : h < 256) (hl : l < 256)
    (hn : pkts.length = (256 * h + l) / 12) (hp : ∀ p ∈ pkts, IsPacket p)
    (h1 : 1 ≤ pkts.length) :
    calibrateMPU9250 board data ⟨[h, l] :: (pkts ++ rest), log⟩
      = calibrateMPU9250.finish board (packetMeans pkts).1 (packetMeans pkts).2
          (calibrateMPU9250.capture board data ⟨[h, l] :: (pkts ++ rest), log⟩).2.data
          ⟨rest, log ++ configureLog ++ [Event.read Dev.MPU9250_ADDRESS Reg.FIFO_COUNTH 2]
              ++ List.replicate pkts.length fifoRead⟩ := by
  obtain ⟨c1, c2, c3, c4⟩ := capture_spec board data h l pkts rest log hh hl hn hp
  unfold calibrateMPU9250
  simp only [c1, c2, c3, c4, normalize_spec pkts h1 hp]

/-! ## Lemmas on the decoders and on `MPU9250SelfTest` -/

/-- The reduction to `int16_t` lands in the `int16_t` range. -/
theorem toInt16_range (x : Int) : -32768 ≤ toInt16 x ∧ toInt16 x ≤ 32767 := by
  unfold toInt16; omega

/-- The reduction to `int16_t` leaves an `int16_t` value alone. -/
theorem toInt16_of_range (x : Int) (h1 : -32768 ≤ x) (h2 : x ≤ 32767) : toInt16 x = x := by
  unfold toInt16; omega

/-- The decoder expression on two bytes is the big-endian signed value, on either board. -/
theorem int16Of_eq_be16 (board : Board) (hi lo : Nat) (hhi : hi < 256) (hlo : lo < 256) :
    int16Of board hi lo = be16 hi lo := by
  unfold int16Of
  rw [toInt16_int16Pair board hi lo hlo]
  exact be16_eq_toInt16 hi lo hhi hlo

/-- A byte of a well-formed run, at any index. -/
theorem getD_lt_of_isBytes (n : Nat) (p : List Nat) (hp : IsBytes n p) (j : Nat) :
    p.getD j 0 < 256 := by
  rw [List.getD_eq_getElem?_getD]
  cases h : p[j]? with
  | none => simp
  | some b =>
    simp only [Option.getD_some]
    exact hp.2 b (List.getElem?_mem h)

/-- The decoder expression applied to two positions of a buffer just filled from a well-formed
answer. -/
theorem int16Of_filled (board : Board) (n : Nat) (p : List Nat) (hp : IsBytes n p)
    (data : Nat → Nat) (i j : Nat) (hi : data i = p.getD i 0 % 256)
    (hj : data j = p.getD j 0 % 256) :
    int16Of board (data i) (data j) = be16 (p.getD i 0) (p.getD j 0) := by
  have a := getD_lt_of_isBytes n p hp i
  have b := getD_lt_of_isBytes n p hp j
  rw [hi, hj, Nat.mod_eq_of_lt a, Nat.mod_eq_of_lt b]
  exact int16Of_eq_be16 board _ _ a b

/-- The three big-endian decoders on a full answer. -/
theorem readAccelData_full (board : Board) (rawData : Nat → Nat) (p : List Nat)
    (rest : List (List Nat)) (log : List Event) (hp : IsBytes 6 p) :
    readAccelData board rawData ⟨p :: rest, log⟩
      = (⟨be16 (p.getD 0 0) (p.getD 1 0), be16 (p.getD 2 0) (p.getD 3 0),
          be16 (p.getD 4 0) (p.getD 5 0)⟩,
         ⟨rest, log ++ [Event.read Dev.MPU9250_ADDRESS Reg.ACCEL_XOUT_H 6]⟩) := by
  obtain ⟨hb, hd⟩ := readBytes_full Dev.MPU9250_ADDRESS Reg.ACCEL_XOUT_H 6 rawData p rest log hp.1
  simp only [readAccelData, hb,
    int16Of_filled board 6 p hp _ 0 1 (hd 0 (by omega)) (hd 1 (by omega)),
    int16Of_filled board 6 p hp _ 2 3 (hd 2 (by omega)) (hd 3 (by omega)),
    int16Of_filled board 6 p hp _ 4 5 (hd 4 (by omega)) (hd 5 (by omega))]

/-- See `readAccelData_full`. -/
theorem readGyroData_full (board : Board) (rawData : Nat → Nat) (p : List Nat)
    (rest : List (List Nat)) (log : List Event) (hp : IsBytes 6 p) :
    readGyroData board rawData ⟨p :: rest, log⟩
      = (⟨be16 (p.getD 0 0) (p.getD 1 0), be16 (p.getD 2 0) (p.getD 3 0),
          be16 (p.getD 4 0) (p.getD 5 0)⟩,
         ⟨rest, log ++ [Event.read Dev.MPU9250_ADDRESS Reg.GYRO_XOUT_H 6]⟩) := by
  obtain ⟨hb, hd⟩ := readBytes_full Dev.MPU9250_ADDRESS Reg.GYRO_XOUT_H 6 rawData p rest log hp.1
  simp only [readGyroData, hb,
    int16Of_filled board 6 p hp _ 0 1 (hd 0 (by omega)) (hd 1 (by omega)),
    int16Of_filled board 6 p hp _ 2 3 (hd 2 (by omega)) (hd 3 (by omega)),
    int16Of_filled board 6 p hp _ 4 5 (hd 4 (by omega)) (hd 5 (by omega))]

/-- See `readAccelData_full`. -/
theorem readTempData_full (board : Board) (rawData : Nat → Nat) (q : List Nat)
    (rest : List (List Nat)) (log : List Event) (hq : IsBytes 2 q) :
    readTempData board rawData ⟨q :: rest, log⟩
      = (be16 (q.getD 0 0) (q.getD 1 0),
         ⟨rest, log ++ [Event.read Dev.MPU9250_ADDRESS Reg.TEMP_OUT_H 2]⟩) := by
  obtain ⟨hb, hd⟩ := readBytes_full Dev.MPU9250_ADDRESS Reg.TEMP_OUT_H 2 rawData q rest log hq.1
  simp only [readTempData, hb,
    int16Of_filled board 2 q hq _ 0 1 (hd 0 (by omega)) (hd 1 (by omega))]

/-- The test `x & 0x01` is non-zero exactly when bit 0 of `x` is set. -/
theorem and_one_ne_zero_iff (x : Nat) : x &&& 0x01 ≠ 0 ↔ x % 2 = 1 := by
  rw [Nat.and_one_is_mod]; omega

/-- The test `x & 0x08` is zero exactly when bit 3 of `x` is clear. -/
theorem and_eight_eq_zero_iff (x : Nat) : x &&& 0x08 = 0 ↔ x / 8 % 2 = 0 := by
  have h := Nat.and_two_pow x 3
  have t : x.testBit 3 = decide (x / 2 ^ 3 % 2 = 1) := Nat.testBit_to_div_mod
  simp only [Nat.reducePow] at h t
  rw [h, t]
  by_cases hb : x / 8 % 2 = 1
  · simp [hb]
  · have : x / 8 % 2 = 0 := by omega
    simp [this]

/-- A single-byte read that is answered with one byte. -/
theorem readByte_one (address : Dev) (subAddress : Reg) (b : Nat) (rest : List (List Nat))
    (log : List Event) :
    readByte address subAddress ⟨[b] :: rest, log⟩
      = (b % 256, ⟨rest, log ++ [Event.read address subAddress 1]⟩) := by
  simp [readByte, requestFrom]

/-- A sampling loop of `n` rounds consumes `2 * n` answers and logs `2 * n` reads, whatever the
answers are. -/
theorem selfTest_loop_bus (board : Board) : ∀ (n : Nat) (s : SampleState),
    (MPU9250SelfTest.loop board n s).bus
      = ⟨s.bus.rx.drop (2 * n), s.bus.log ++ sampleReads n⟩
  | 0, s => by simp [MPU9250SelfTest.loop, sampleReads]
  | n + 1, s => by
    rw [MPU9250SelfTest.loop, selfTest_loop_bus board n]
    simp only [MPU9250SelfTest.loopBody, readBytes, requestFrom, sampleReads, List.drop_tail,
      List.append_assoc, List.singleton_append, Bus.mk.injEq, and_true]
    rw [show 2 * (n + 1) = 2 * n + 1 + 1 by omega]
    simp

/-- The bus after `MPU9250SelfTest` and the six trim codes it has read, when the slave answers
the 800 sample reads and then the six trim code reads. -/
theorem measure_codes (board : Board) (sums : SelfTestSums) (samples : List (List Nat))
    (codes : Arr6 Nat) (rest : List (List Nat)) (log : List Event)
    (hs : samples.length = 800) :
    (MPU9250SelfTest.measure board sums ⟨samples ++ (codeScript codes ++ rest), log⟩).bus
        = ⟨rest, log ++ selfTestLog⟩
      ∧ (MPU9250SelfTest.measure board sums ⟨samples ++ (codeScript codes ++ rest), log⟩).selfTest
        = ⟨codes.e0 % 256, codes.e1 % 256, codes.e2 % 256, codes.e3 % 256, codes.e4 % 256,
           codes.e5 % 256⟩ := by
  have hd : List.drop 800 (samples ++ (codeScript codes ++ rest)) = codeScript codes ++ rest :=
    List.drop_left' hs
  simp only [MPU9250SelfTest.measure, selfTest_loop_bus, writeByte, delay, List.drop_drop,
    Nat.reduceMul, Nat.reduceAdd, hd]
  simp only [codeScript, List.cons_append, List.nil_append, readByte_one]
  simp [selfTestLog, MPU9250SelfTest.FS]

/-- An element averaged over 200 has magnitude at most 163 once the sum is an `int16_t`. -/
theorem average_elem_range (x : Int) (h : IsInt16 x) :
    toInt16 (Int.tdiv x 200) = Int.tdiv x 200
      ∧ -163 ≤ Int.tdiv x 200 ∧ Int.tdiv x 200 ≤ 163 := by
  obtain ⟨h1, h2⟩ := h
  have r : -163 ≤ Int.tdiv x 200 ∧ Int.tdiv x 200 ≤ 163 := by
    rcases Int.le_total 0 x with hx | hx
    · rw [tdiv_nonneg_eq x 200 hx (by omega)]; omega
    · rw [tdiv_neg_eq x 200 hx (by omega)]; omega
  exact ⟨toInt16_of_range _ (by omega) (by omega), r⟩

/-- The sums a sampling loop leaves after at least one round are `int16_t` values, whatever they
held on entry and whatever the slave answers. -/
theorem selfTest_loop_int16 (board : Board) : ∀ (n : Nat) (s : SampleState),
    (IsInt16 s.accel.e0 ∧ IsInt16 s.accel.e1 ∧ IsInt16 s.accel.e2
        ∧ IsInt16 s.gyro.e0 ∧ IsInt16 s.gyro.e1 ∧ IsInt16 s.gyro.e2) ∨ 1 ≤ n →
    IsInt16 (MPU9250SelfTest.loop board n s).accel.e0
      ∧ IsInt16 (MPU9250SelfTest.loop board n s).accel.e1
      ∧ IsInt16 (MPU9250SelfTest.loop board n s).accel.e2
      ∧ IsInt16 (MPU9250SelfTest.loop board n s).gyro.e0
      ∧ IsInt16 (MPU9250SelfTest.loop board n s).gyro.e1
      ∧ IsInt16 (MPU9250SelfTest.loop board n s).gyro.e2
  | 0, s, h => by
    rcases h with h | h
    · exact h
    · omega
  | n + 1, s, _ => by
    rw [MPU9250SelfTest.loop]
    apply selfTest_loop_int16 board n
    left
    simp only [MPU9250SelfTest.loopBody, addAssign16]
    exact ⟨toInt16_range _, toInt16_range _, toInt16_range _, toInt16_range _, toInt16_range _,
      toInt16_range _⟩

/-- The averages of `MPU9250SelfTest` have magnitude at most 163. -/
theorem average_range (board : Board) (s : SampleState) :
    (-163 ≤ (MPU9250SelfTest.average (MPU9250SelfTest.loop board 200 s).accel).e0
      ∧ (MPU9250SelfTest.average (MPU9250SelfTest.loop board 200 s).accel).e0 ≤ 163)
    ∧ (-163 ≤ (MPU9250SelfTest.average (MPU9250SelfTest.loop board 200 s).accel).e1
      ∧ (MPU9250SelfTest.average (MPU9250SelfTest.loop board 200 s).accel).e1 ≤ 163)
    ∧ (-163 ≤ (MPU9250SelfTest.average (MPU9250SelfTest.loop board 200 s).accel).e2
      ∧ (MPU9250SelfTest.average (MPU9250SelfTest.loop board 200 s).accel).e2 ≤ 163)
    ∧ (-163 ≤ (MPU9250SelfTest.average (MPU9250SelfTest.loop board 200 s).gyro).e0
      ∧ (MPU9250SelfTest.average (MPU9250SelfTest.loop board 200 s).gyro).e0 ≤ 163)
    ∧ (-163 ≤ (MPU9250SelfTest.average (MPU9250SelfTest.loop board 200 s).gyro).e1
      ∧ (MPU9250SelfTest.average (MPU9250SelfTest.loop board 200 s).gyro).e1 ≤ 163)
    ∧ (-163 ≤ (MPU9250SelfTest.average (MPU9250SelfTest.loop board 200 s).gyro).e2
      ∧ (MPU9250SelfTest.average (MPU9250SelfTest.loop board 200 s).gyro).e2 ≤ 163) := by
  obtain ⟨a0, a1, a2, g0, g1, g2⟩ := selfTest_loop_int16 board 200 s (Or.inr (by omega))
  simp only [MPU9250SelfTest.average]
  obtain ⟨e0, r0⟩ := average_elem_range _ a0
  obtain ⟨e1, r1⟩ := average_elem_range _ a1
  obtain ⟨e2, r2⟩ := average_elem_range _ a2
  obtain ⟨e3, r3⟩ := average_elem_range _ g0
  obtain ⟨e4, r4⟩ := average_elem_range _ g1
  obtain ⟨e5, r5⟩ := average_elem_range _ g2
  rw [e0, e1, e2, e3, e4, e5]
  exact ⟨r0, r1, r2, r3, r4, r5⟩

/-- The `int` subtraction of two averages does not wrap, on either board. -/
theorem wrap_of_small (board : Board) (x : Int) (h1 : -32768 ≤ x) (h2 : x ≤ 32767) :
    board.wrap x = x := by
  cases board
  · exact toInt16_of_range x h1 h2
  · exact toInt32_of_range x (by omega) (by omega)

/-- The four averages `MPU9250SelfTest` computes have magnitude at most 163, element by element. -/
theorem measure_range (board : Board) (sums : SelfTestSums) (bus : Bus) :
    ((-163 ≤ (MPU9250SelfTest.measure board sums bus).aAvg.e0
        ∧ (MPU9250SelfTest.measure board sums bus).aAvg.e0 ≤ 163)
      ∧ (-163 ≤ (MPU9250SelfTest.measure board sums bus).aAvg.e1
        ∧ (MPU9250SelfTest.measure board sums bus).aAvg.e1 ≤ 163)
      ∧ (-163 ≤ (MPU9250SelfTest.measure board sums bus).aAvg.e2
        ∧ (MPU9250SelfTest.measure board sums bus).aAvg.e2 ≤ 163))
    ∧ ((-163 ≤ (MPU9250SelfTest.measure board sums bus).gAvg.e0
        ∧ (MPU9250SelfTest.measure board sums bus).gAvg.e0 ≤ 163)
      ∧ (-163 ≤ (MPU9250SelfTest.measure board sums bus).gAvg.e1
        ∧ (MPU9250SelfTest.measure board sums bus).gAvg.e1 ≤ 163)
      ∧ (-163 ≤ (MPU9250SelfTest.measure board sums bus).gAvg.e2
        ∧ (MPU9250SelfTest.measure board sums bus).gAvg.e2 ≤ 163))
    ∧ ((-163 ≤ (MPU9250SelfTest.measure board sums bus).aSTAvg.e0
        ∧ (MPU9250SelfTest.measure board sums bus).aSTAvg.e0 ≤ 163)
      ∧ (-163 ≤ (MPU9250SelfTest.measure board sums bus).aSTAvg.e1
        ∧ (MPU9250SelfTest.measure board sums bus).aSTAvg.e1 ≤ 163)
      ∧ (-163 ≤ (MPU9250SelfTest.measure board sums bus).aSTAvg.e2
        ∧ (MPU9250SelfTest.measure board sums bus).aSTAvg.e2 ≤ 163))
    ∧ ((-163 ≤ (MPU9250SelfTest.measure board sums bus).gSTAvg.e0
        ∧ (MPU9250SelfTest.measure board sums bus).gSTAvg.e0 ≤ 163)
      ∧ (-163 ≤ (MPU9250SelfTest.measure board sums bus).gSTAvg.e1
        ∧ (MPU9250SelfTest.measure board sums bus).gSTAvg.e1 ≤ 163)
      ∧ (-163 ≤ (MPU9250SelfTest.measure board sums bus).gSTAvg.e2
        ∧ (MPU9250SelfTest.measure board sums bus).gSTAvg.e2 ≤ 163)) := by
  simp only [MPU9250SelfTest.measure]
  exact ⟨⟨(average_range board _).1, (average_range board _).2.1, (average_range board _).2.2.1⟩,
    ⟨(average_range board _).2.2.2.1, (average_range board _).2.2.2.2.1,
      (average_range board _).2.2.2.2.2⟩,
    ⟨(average_range board _).1, (average_range board _).2.1, (average_range board _).2.2.1⟩,
    ⟨(average_range board _).2.2.2.1, (average_range board _).2.2.2.2.1,
      (average_range board _).2.2.2.2.2⟩⟩

/-- The length of a steady script. -/
theorem steadyScript_length (accel gyro : List Nat) : ∀ n : Nat,
    (steadyScript accel gyro n).length = 2 * n
  | 0 => rfl
  | n + 1 => by
    simp only [steadyScript, List.length_cons, steadyScript_length accel gyro n]
    omega

/-- The body of a sampling loop on two complete answers. -/
theorem selfTest_loopBody_full (board : Board) (a g : List Nat) (ha : IsBytes 6 a)
    (hg : IsBytes 6 g) (rest : List (List Nat)) (log : List Event) (raw : Nat → Nat)
    (acc gy : Arr3 Int) :
    ∃ raw2 log2, MPU9250SelfTest.loopBody board ⟨⟨a :: g :: rest, log⟩, raw, acc, gy⟩
      = ⟨⟨rest, log2⟩, raw2, addReading a acc, addReading g gy⟩ := by
  obtain ⟨hb, hd⟩ := readBytes_full Dev.MPU9250_ADDRESS Reg.ACCEL_XOUT_H 6 raw a (g :: rest) log
    ha.1
  obtain ⟨hb2, hd2⟩ := readBytes_full Dev.MPU9250_ADDRESS Reg.GYRO_XOUT_H 6
    (readBytes Dev.MPU9250_ADDRESS Reg.ACCEL_XOUT_H 6 raw ⟨a :: g :: rest, log⟩).1 g rest
    (log ++ [Event.read Dev.MPU9250_ADDRESS Reg.ACCEL_XOUT_H 6]) hg.1
  refine ⟨(readBytes Dev.MPU9250_ADDRESS Reg.GYRO_XOUT_H 6
      (readBytes Dev.MPU9250_ADDRESS Reg.ACCEL_XOUT_H 6 raw ⟨a :: g :: rest, log⟩).1
      ⟨g :: rest, log ++ [Event.read Dev.MPU9250_ADDRESS Reg.ACCEL_XOUT_H 6]⟩).1,
    log ++ [Event.read Dev.MPU9250_ADDRESS Reg.ACCEL_XOUT_H 6]
      ++ [Event.read Dev.MPU9250_ADDRESS Reg.GYRO_XOUT_H 6], ?_⟩
  simp only [MPU9250SelfTest.loopBody, addReading, hb, hb2,
    int16Of_filled board 6 a ha _ 0 1 (hd 0 (by omega)) (hd 1 (by omega)),
    int16Of_filled board 6 a ha _ 2 3 (hd 2 (by omega)) (hd 3 (by omega)),
    int16Of_filled board 6 a ha _ 4 5 (hd 4 (by omega)) (hd 5 (by omega)),
    int16Of_filled board 6 g hg _ 0 1 (hd2 0 (by omega)) (hd2 1 (by omega)),
    int16Of_filled board 6 g hg _ 2 3 (hd2 2 (by omega)) (hd2 3 (by omega)),
    int16Of_filled board 6 g hg _ 4 5 (hd2 4 (by omega)) (hd2 5 (by omega))]

/-- The sums of a sampling loop after `n` rounds in which the sensors hold still. -/
theorem selfTest_loop_steady (board : Board) (a g : List Nat) (ha : IsBytes 6 a)
    (hg : IsBytes 6 g) : ∀ (n : Nat) (rest : List (List Nat)) (log : List Event)
      (raw : Nat → Nat) (acc gy : Arr3 Int),
    (MPU9250SelfTest.loop board n ⟨⟨steadyScript a g n ++ rest, log⟩, raw, acc, gy⟩).accel
        = (addReading a)^[n] acc
      ∧ (MPU9250SelfTest.loop board n ⟨⟨steadyScript a g n ++ rest, log⟩, raw, acc, gy⟩).gyro
        = (addReading g)^[n] gy
  | 0, rest, log, raw, acc, gy => by simp [MPU9250SelfTest.loop]
  | n + 1, rest, log, raw, acc, gy => by
    obtain ⟨raw2, log2, e⟩ := selfTest_loopBody_full board a g ha hg
      (steadyScript a g n ++ rest) log raw acc gy
    rw [MPU9250SelfTest.loop]
    simp only [steadyScript, List.cons_append]
    rw [e, Function.iterate_succ_apply, Function.iterate_succ_apply]
    exact selfTest_loop_steady board a g ha hg n rest log2 raw2 _ _


set_option maxRecDepth 100000 in
/-- The two accelerometer x averages and the first trim code of the run `steadyRun`. -/
theorem measure_steadyRun (board : Board) :
    (MPU9250SelfTest.measure board zeroSums ⟨steadyRun, []⟩).aAvg.e0 = 100
      ∧ (MPU9250SelfTest.measure board zeroSums ⟨steadyRun, []⟩).aSTAvg.e0 = -155
      ∧ (MPU9250SelfTest.measure board zeroSums ⟨steadyRun, []⟩).selfTest.e0 = 1 := by
  have hb : IsBytes 6 [0x00, 0x64, 0, 0, 0, 0] := by decide
  have hs : IsBytes 6 [0x01, 0xF4, 0, 0, 0, 0] := by decide
  have hz : IsBytes 6 [0, 0, 0, 0, 0, 0] := by decide
  have hdrop : List.drop (2 * 200) steadyRun
      = steadyScript [0x01, 0xF4, 0, 0, 0, 0] [0, 0, 0, 0, 0, 0] 200
          ++ codeScript ⟨1, 1, 1, 1, 1, 1⟩ :=
    List.drop_left' (steadyScript_length _ _ 200)
  have hrun : steadyRun
      = (steadyScript [0x00, 0x64, 0, 0, 0, 0] [0, 0, 0, 0, 0, 0] 200
          ++ steadyScript [0x01, 0xF4, 0, 0, 0, 0] [0, 0, 0, 0, 0, 0] 200)
        ++ (codeScript ⟨1, 1, 1, 1, 1, 1⟩ ++ []) := by
    simp [steadyRun]
  have hlen : (steadyScript [0x00, 0x64, 0, 0, 0, 0] [0, 0, 0, 0, 0, 0] 200
      ++ steadyScript [0x01, 0xF4, 0, 0, 0, 0] [0, 0, 0, 0, 0, 0] 200).length = 800 := by
    rw [List.length_append, steadyScript_length, steadyScript_length]
  refine ⟨?_, ?_, ?_⟩
  · simp only [MPU9250SelfTest.measure, writeByte, zeroSums, steadyRun,
      (selfTest_loop_steady board _ _ hb hz 200 _ _ _ _ _).1]
    decide
  · simp only [MPU9250SelfTest.measure, selfTest_loop_bus, writeByte, delay, zeroSums, hdrop,
      (selfTest_loop_steady board _ _ hs hz 200 _ _ _ _ _).1]
    decide
  · rw [hrun, (measure_codes board zeroSums _ ⟨1, 1, 1, 1, 1, 1⟩ [] [] hlen).2]
    rfl


/-- The calibrator's gyroscope bytes are the byte split of the negated, quartered mean. -/
theorem gyroBytes_eq_splitBytes (g : Int) :
    calibrateMPU9250.gyroBytes g = splitBytes (Int.tdiv (toInt32 (-g)) 4) := rfl

/-- The byte split yields bytes. -/
theorem splitBytes_lt (x : Int) : (splitBytes x).1 < 256 ∧ (splitBytes x).2 < 256 :=
  ⟨toUInt8_lt _, toUInt8_lt _⟩

/-- Adding one `int16_t` sample to an `int32_t` sum of fewer than 65535 samples does not wrap. -/
theorem toInt32_add_sample (a x : Int) (m : Nat) (hm : m + 1 ≤ 65535)
    (ha : -32768 * (m : Int) ≤ a ∧ a ≤ 32768 * (m : Int)) :
    toInt32 (a + toInt16 x) = a + toInt16 x
      ∧ -32768 * ((m + 1 : Nat) : Int) ≤ a + toInt16 x
      ∧ a + toInt16 x ≤ 32768 * ((m + 1 : Nat) : Int) := by
  obtain ⟨r1, r2⟩ := toInt16_range x
  obtain ⟨a1, a2⟩ := ha
  refine ⟨toInt32_of_range _ (by omega) (by omega), ?_, ?_⟩ <;> push_cast <;> omega

/-- One iteration of the FIFO loop, whatever the slave answers: as long as fewer than 65535
iterations came before, no `int32_t` addition wraps, and each sum grows by one `int16_t`. -/
theorem loopBody_exact (board : Board) (s : CalibState) (m : Nat) (hm : m + 1 ≤ 65535)
    (ha : s.accel_bias.Within m) (hg : s.gyro_bias.Within m) :
    calibrateMPU9250.loopBody board s = loopBodyExact board s
      ∧ (loopBodyExact board s).accel_bias.Within (m + 1)
      ∧ (loopBodyExact board s).gyro_bias.Within (m + 1) := by
  obtain ⟨a0, a1, a2⟩ := ha
  obtain ⟨g0, g1, g2⟩ := hg
  refine ⟨?_, ?_, ?_⟩
  · simp only [calibrateMPU9250.loopBody, loopBodyExact,
      (toInt32_add_sample _ _ m hm a0).1, (toInt32_add_sample _ _ m hm a1).1,
      (toInt32_add_sample _ _ m hm a2).1, (toInt32_add_sample _ _ m hm g0).1,
      (toInt32_add_sample _ _ m hm g1).1, (toInt32_add_sample _ _ m hm g2).1]
  · exact ⟨(toInt32_add_sample _ _ m hm a0).2, (toInt32_add_sample _ _ m hm a1).2,
      (toInt32_add_sample _ _ m hm a2).2⟩
  · exact ⟨(toInt32_add_sample _ _ m hm g0).2, (toInt32_add_sample _ _ m hm g1).2,
      (toInt32_add_sample _ _ m hm g2).2⟩

/-- The FIFO loop, whatever the slave answers: run for `k` iterations after `m` earlier ones,
`m + k <= 65535`, it computes the sums the integers give. -/
theorem loop_exact (board : Board) : ∀ (k : Nat) (s : CalibState) (m : Nat), m + k ≤ 65535 →
    s.accel_bias.Within m → s.gyro_bias.Within m →
    calibrateMPU9250.loop board k s = loopExact board k s
      ∧ (loopExact board k s).accel_bias.Within (m + k)
      ∧ (loopExact board k s).gyro_bias.Within (m + k)
  | 0, s, m, _, ha, hg => ⟨rfl, ha, hg⟩
  | k + 1, s, m, hm, ha, hg => by
    obtain ⟨e, a1, g1⟩ := loopBody_exact board s m (by omega) ha hg
    obtain ⟨e2, a2, g2⟩ := loop_exact board k (loopBodyExact board s) (m + 1) (by omega) a1 g1
    rw [calibrateMPU9250.loop, loopExact, e, e2]
    rw [show m + (k + 1) = m + 1 + k by omega]
    exact ⟨rfl, a2, g2⟩

/-- The packet count never exceeds 5461. -/
theorem packet_count_le (data : Nat → Nat) : calibrateMPU9250.packet_count data ≤ 5461 := by
  unfold calibrateMPU9250.packet_count calibrateMPU9250.fifo_count
  omega

/-- A sum within `k <= 5461` times the `int16_t` magnitude is an `int32_t` value. -/
theorem isInt32_of_within (k : Nat) (hk : k ≤ 5461) (x : Int)
    (h : -32768 * (k : Int) ≤ x ∧ x ≤ 32768 * (k : Int)) : IsInt32 x := by
  unfold IsInt32; omega

/-! ## Lemmas on the logs and on the ranges of the means -/

/-- The log of `MPU9250SelfTest`, whatever the slave answers. -/
theorem measure_log (board : Board) (sums : SelfTestSums) (bus : Bus) :
    (MPU9250SelfTest.measure board sums bus).bus.log = bus.log ++ selfTestLog := by
  simp only [MPU9250SelfTest.measure, selfTest_loop_bus, writeByte, delay, readByte, requestFrom]
  simp [selfTestLog, MPU9250SelfTest.FS]

/-- Read transactions do not change what was last written to a register. -/
theorem lastWrite_append_sampleReads (address : Dev) (reg : Reg) (log : List Event) :
    ∀ k : Nat, lastWrite address reg (log ++ sampleReads k) = lastWrite address reg log
  | 0 => by simp [sampleReads]
  | k + 1 => by
    have ih := lastWrite_append_sampleReads address reg
      (log ++ [Event.read Dev.MPU9250_ADDRESS Reg.ACCEL_XOUT_H 6,
        Event.read Dev.MPU9250_ADDRESS Reg.GYRO_XOUT_H 6]) k
    have e : log ++ sampleReads (k + 1)
        = (log ++ [Event.read Dev.MPU9250_ADDRESS Reg.ACCEL_XOUT_H 6,
            Event.read Dev.MPU9250_ADDRESS Reg.GYRO_XOUT_H 6]) ++ sampleReads k := by
      simp [sampleReads]
    rw [e, ih]
    simp [lastWrite, List.foldl_append]

/-- The log of lines 453-548 extends the log they start from. -/
theorem finish_log_extends (board : Board) (a g : Arr3 Int) (data : Nat → Nat) (bus : Bus) :
    ∃ tail, (calibrateMPU9250.finish board a g data bus).bus.log = bus.log ++ tail := by
  simp only [calibrateMPU9250.finish, calibrateMPU9250.pushAccel, calibrateMPU9250.readTrim,
    pushGyro_eq, readBytes, requestFrom, writeByte, List.append_assoc]
  exact ⟨_, rfl⟩

/-- The log of `calibrateMPU9250` starts with the configuration traffic, fault or not. -/
theorem calibrate_log_extends (board : Board) (data : Nat → Nat) (bus : Bus) :
    ∃ tail, (calibrateMPU9250 board data bus).bus.log = bus.log ++ configureLog ++ tail := by
  have hc := capture_log board data bus
  unfold calibrateMPU9250
  simp only
  split
  · exact ⟨_, by rw [hc, List.append_assoc]⟩
  · obtain ⟨t, ht⟩ := finish_log_extends board _ _
      (calibrateMPU9250.capture board data bus).2.data (calibrateMPU9250.capture board data bus).2.bus
    exact ⟨_, by rw [ht, hc, List.append_assoc, List.append_assoc]⟩

/-- The log of `MPU9250SelfTest`, whatever the slave answers. -/
theorem selfTest_log (fp : FloatOps) (board : Board) (sums : SelfTestSums) (destination : Nat → ℚ) (bus : Bus) :
    (MPU9250SelfTest fp board sums destination bus).2.log = bus.log ++ selfTestLog := by
  simp only [MPU9250SelfTest]
  exact measure_log board sums bus

/-- Through the baseline rounds ACCEL_CONFIG and GYRO_CONFIG were last written 0x01. -/
theorem lastWrite_during_baseline (log : List Event) (k : Nat) (reg : Reg)
    (hreg : reg = Reg.ACCEL_CONFIG ∨ reg = Reg.GYRO_CONFIG) :
    lastWrite Dev.MPU9250_ADDRESS reg
        (log
          ++ [Event.write Dev.MPU9250_ADDRESS Reg.SMPLRT_DIV 0x00,
              Event.write Dev.MPU9250_ADDRESS Reg.CONFIG 0x02,
              Event.write Dev.MPU9250_ADDRESS Reg.GYRO_CONFIG 0x01,
              Event.write Dev.MPU9250_ADDRESS Reg.ACCEL_CONFIG2 0x02,
              Event.write Dev.MPU9250_ADDRESS Reg.ACCEL_CONFIG 0x01]
          ++ sampleReads k) = some 0x01 := by
  rw [lastWrite_append_sampleReads]
  rcases hreg with h | h <;> subst h <;> simp [lastWrite, List.foldl_append]

/-- Through the stimulated rounds ACCEL_CONFIG and GYRO_CONFIG were last written 0xE0. -/
theorem lastWrite_during_stimulus (log : List Event) (k : Nat) (reg : Reg)
    (hreg : reg = Reg.ACCEL_CONFIG ∨ reg = Reg.GYRO_CONFIG) :
    lastWrite Dev.MPU9250_ADDRESS reg
        (log
          ++ [Event.write Dev.MPU9250_ADDRESS Reg.SMPLRT_DIV 0x00,
              Event.write Dev.MPU9250_ADDRESS Reg.CONFIG 0x02,
              Event.write Dev.MPU9250_ADDRESS Reg.GYRO_CONFIG 0x01,
              Event.write Dev.MPU9250_ADDRESS Reg.ACCEL_CONFIG2 0x02,
              Event.write Dev.MPU9250_ADDRESS Reg.ACCEL_CONFIG 0x01]
          ++ sampleReads 200
          ++ [Event.write Dev.MPU9250_ADDRESS Reg.ACCEL_CONFIG 0xE0,
              Event.write Dev.MPU9250_ADDRESS Reg.GYRO_CONFIG 0xE0,
              Event.delay 25]
          ++ sampleReads k) = some 0xE0 := by
  rw [lastWrite_append_sampleReads]
  rcases hreg with h | h <;> subst h <;> simp [lastWrite, List.foldl_append]

/-- When `MPU9250SelfTest` returns, ACCEL_CONFIG and GYRO_CONFIG were last written 0x00. -/
theorem lastWrite_after_selfTest (fp : FloatOps) (board : Board) (sums : SelfTestSums) (destination : Nat → ℚ)
    (bus : Bus) (reg : Reg) (hreg : reg = Reg.ACCEL_CONFIG ∨ reg = Reg.GYRO_CONFIG) :
    lastWrite Dev.MPU9250_ADDRESS reg (MPU9250SelfTest fp board sums destination bus).2.log
      = some 0x00 := by
  rw [selfTest_log]
  rcases hreg with h | h <;> subst h <;> simp [selfTestLog, lastWrite, List.foldl_append]

/-- The log of `MPU9250SelfTest`, written out. -/
theorem selfTest_log_explicit (fp : FloatOps) (board : Board) (sums : SelfTestSums) (destination : Nat → ℚ)
    (bus : Bus) :
    (MPU9250SelfTest fp board sums destination bus).2.log
      = bus.log
        ++ [Event.write Dev.MPU9250_ADDRESS Reg.SMPLRT_DIV 0x00,
            Event.write Dev.MPU9250_ADDRESS Reg.CONFIG 0x02,
            Event.write Dev.MPU9250_ADDRESS Reg.GYRO_CONFIG 0x01,
            Event.write Dev.MPU9250_ADDRESS Reg.ACCEL_CONFIG2 0x02,
            Event.write Dev.MPU9250_ADDRESS Reg.ACCEL_CONFIG 0x01]
        ++ sampleReads 200
        ++ [Event.write Dev.MPU9250_ADDRESS Reg.ACCEL_CONFIG 0xE0,
            Event.write Dev.MPU9250_ADDRESS Reg.GYRO_CONFIG 0xE0,
            Event.delay 25]
        ++ sampleReads 200
        ++ [Event.write Dev.MPU9250_ADDRESS Reg.ACCEL_CONFIG 0x00,
            Event.write Dev.MPU9250_ADDRESS Reg.GYRO_CONFIG 0x00,
            Event.delay 25,
            Event.read Dev.MPU9250_ADDRESS Reg.SELF_TEST_X_ACCEL 1,
            Event.read Dev.MPU9250_ADDRESS Reg.SELF_TEST_Y_ACCEL 1,
            Event.read Dev.MPU9250_ADDRESS Reg.SELF_TEST_Z_ACCEL 1,
            Event.read Dev.MPU9250_ADDRESS Reg.SELF_TEST_X_GYRO 1,
            Event.read Dev.MPU9250_ADDRESS Reg.SELF_TEST_Y_GYRO 1,
            Event.read Dev.MPU9250_ADDRESS Reg.SELF_TEST_Z_GYRO 1] := by
  rw [selfTest_log]
  simp [selfTestLog]

/-- The six truncated means of a well-formed capture are `int16_t` values. -/
theorem packetMeans_int16 (pkts : List (List Nat)) (h1 : 1 ≤ pkts.length)
    (hp : ∀ p ∈ pkts, IsPacket p) :
    (IsInt16 (packetMeans pkts).1.e0 ∧ IsInt16 (packetMeans pkts).1.e1
      ∧ IsInt16 (packetMeans pkts).1.e2)
    ∧ (IsInt16 (packetMeans pkts).2.e0 ∧ IsInt16 (packetMeans pkts).2.e1
      ∧ IsInt16 (packetMeans pkts).2.e2) :=
  ⟨⟨(divAssign32_mean pkts 0 h1 hp).2, (divAssign32_mean pkts 1 h1 hp).2,
      (divAssign32_mean pkts 2 h1 hp).2⟩,
    ⟨(divAssign32_mean pkts 3 h1 hp).2, (divAssign32_mean pkts 4 h1 hp).2,
      (divAssign32_mean pkts 5 h1 hp).2⟩⟩

/-- The correction of an `int16_t` gyroscope mean, its range, and its recovery from the two bytes
the calibrator forms. -/
theorem gyroBytes_decode (m : Int) (hm : IsInt16 m) :
    (-8191 ≤ Int.tdiv (-m) 4 ∧ Int.tdiv (-m) 4 ≤ 8192)
      ∧ be16 (calibrateMPU9250.gyroBytes m).1 (calibrateMPU9250.gyroBytes m).2
        = Int.tdiv (-m) 4 := by
  obtain ⟨m1, m2⟩ := hm
  have r : -8191 ≤ Int.tdiv (-m) 4 ∧ Int.tdiv (-m) 4 ≤ 8192 := by
    rcases Int.le_total 0 (-m) with hx | hx
    · rw [tdiv_nonneg_eq (-m) 4 hx (by omega)]; omega
    · rw [tdiv_neg_eq (-m) 4 hx (by omega)]; omega
  refine ⟨r, ?_⟩
  rw [gyroBytes_eq m (by omega) (by omega)]
  generalize Int.tdiv (-m) 4 = v at r
  obtain ⟨r1, r2⟩ := r
  unfold be16 enc16
  simp only
  split <;> omega

/-- The whole log of `calibrateMPU9250` on a well-formed capture followed by the three factory
trim answers. -/
theorem calibrate_log_full (board : Board) (data : Nat → Nat) (h l : Nat)
    (pkts : List (List Nat)) (trim : Arr3 (Nat × Nat)) (rest : List (List Nat))
    (log : List Event) (hh : h < 256) (hl : l < 256)
    (hn : pkts.length = (256 * h + l) / 12) (hp : ∀ p ∈ pkts, IsPacket p)
    (h1 : 1 ≤ pkts.length) :
    (calibrateMPU9250 board data ⟨[h, l] :: (pkts ++ (trimScript trim ++ rest)), log⟩).bus
      = calibrateMPU9250.pushAccel board (withoutGravity (packetMeans pkts).1)
          (calibrateMPU9250.gyroData (packetMeans pkts).2
            (calibrateMPU9250.capture board data
              ⟨[h, l] :: (pkts ++ (trimScript trim ++ rest)), log⟩).2.data)
          ⟨trimScript trim ++ rest,
            log ++ configureLog ++ [Event.read Dev.MPU9250_ADDRESS Reg.FIFO_COUNTH 2]
              ++ List.replicate pkts.length fifoRead
              ++ [Event.write Dev.MPU9250_ADDRESS Reg.XG_OFFSET_H
                    (calibrateMPU9250.gyroBytes (packetMeans pkts).2.e0).1,
                  Event.write Dev.MPU9250_ADDRESS Reg.XG_OFFSET_L
                    (calibrateMPU9250.gyroBytes (packetMeans pkts).2.e0).2,
                  Event.write Dev.MPU9250_ADDRESS Reg.YG_OFFSET_H
                    (calibrateMPU9250.gyroBytes (packetMeans pkts).2.e1).1,
                  Event.write Dev.MPU9250_ADDRESS Reg.YG_OFFSET_L
                    (calibrateMPU9250.gyroBytes (packetMeans pkts).2.e1).2,
                  Event.write Dev.MPU9250_ADDRESS Reg.ZG_OFFSET_H
                    (calibrateMPU9250.gyroBytes (packetMeans pkts).2.e2).1,
                  Event.write Dev.MPU9250_ADDRESS Reg.ZG_OFFSET_L
                    (calibrateMPU9250.gyroBytes (packetMeans pkts).2.e2).2]⟩ := by
  have hz : IsInt32 (packetMeans pkts).1.e2 := by
    obtain ⟨⟨_, _, z1, z2⟩, _⟩ := packetMeans_int16 pkts h1 hp
    exact ⟨by omega, by omega⟩
  rw [calibrate_dest board data h l pkts (trimScript trim ++ rest) log hh hl hn hp h1]
  simp only [calibrateMPU9250.finish, removeGravity_eq _ hz, pushGyro_eq]

/-- The bytes last written to the gyroscope offset register pair of an axis by a run on a
well-formed capture followed by the three factory trim answers. -/
theorem lastWrite_gyro_offsets (board : Board) (data : Nat → Nat) (h l : Nat)
    (pkts : List (List Nat)) (trim : Arr3 (Nat × Nat)) (rest : List (List Nat))
    (log : List Event) (hh : h < 256) (hl : l < 256)
    (hn : pkts.length = (256 * h + l) / 12) (hp : ∀ p ∈ pkts, IsPacket p)
    (h1 : 1 ≤ pkts.length) (axis : Axis) :
    lastWrite Dev.MPU9250_ADDRESS (G_OFFSET_H axis)
        (calibrateMPU9250 board data
          ⟨[h, l] :: (pkts ++ (trimScript trim ++ rest)), log⟩).bus.log
        = some (calibrateMPU9250.gyroBytes ((packetMeans pkts).2.get axis)).1
      ∧ lastWrite Dev.MPU9250_ADDRESS (G_OFFSET_L axis)
        (calibrateMPU9250 board data
          ⟨[h, l] :: (pkts ++ (trimScript trim ++ rest)), log⟩).bus.log
        = some (calibrateMPU9250.gyroBytes ((packetMeans pkts).2.get axis)).2 := by
  rw [calibrate_log_full board data h l pkts trim rest log hh hl hn hp h1, pushAccel_eq]
  cases axis <;>
    simp [lastWrite, List.foldl_append, G_OFFSET_H, G_OFFSET_L, Arr3.get]

/-! ## The properties -/

/-- C1 fails on the code: with a factory XA_OFFSET pair of 0x00, 0x00 (flag bit clear) and one
captured packet whose x acceleration is 8, the routine writes 0xFF to XA_OFFSET_L: bit 0 of the
byte written is 1 although bit 0 of the byte read was 0.  The mask bit is only or-ed in. -/
theorem clear_flag_not_preserved :
    lastWrite Dev.MPU9250_ADDRESS Reg.XA_OFFSET_L
        (calibrateMPU9250 Board.proMini (fun _ => 0)
          ⟨[[0, 12], [0, 8, 0, 0, 0, 0, 0, 0, 0, 0, 0, 0], [0, 0], [0, 0], [0, 0]], []⟩).bus.log
        = some 0xFF
      ∧ lastWrite Dev.MPU9250_ADDRESS Reg.XA_OFFSET_L
        (calibrateMPU9250 Board.teensy31 (fun _ => 0)
          ⟨[[0, 12], [0, 8, 0, 0, 0, 0, 0, 0, 0, 0, 0, 0], [0, 0], [0, 0], [0, 0]], []⟩).bus.log
        = some 0xFF := by
  decide

/-- C2 fails on the code: for every FIFO byte count from 0 to 11 the routine reads no packet and
goes on to divide the sums by a packet count of zero; nothing rejects the capture before. -/
theorem empty_capture_divides_by_zero (board : Board) (data : Nat → Nat) (l : Fin 12)
    (rest : List (List Nat)) (log : List Event) :
    (calibrateMPU9250.capture board data ⟨[0, l.val] :: rest, log⟩).1 = 0
      ∧ (calibrateMPU9250 board data ⟨[0, l.val] :: rest, log⟩).dest
          = Except.error Fault.divisionByZero
      ∧ (calibrateMPU9250 board data ⟨[0, l.val] :: rest, log⟩).bus.log
          = log ++ configureLog ++ [Event.read Dev.MPU9250_ADDRESS Reg.FIFO_COUNTH 2] := by
  obtain ⟨_, hd⟩ := readBytes_full Dev.MPU9250_ADDRESS Reg.FIFO_COUNTH 2 data [0, l.val]
    rest (log ++ configureLog) rfl
  have hl : l.val < 256 := by omega
  have d0 := hd 0 (by omega)
  have d1 := hd 1 (by omega)
  simp only [List.getD_cons_zero, List.getD_cons_succ, Nat.mod_eq_of_lt hl, Nat.zero_mod]
    at d0 d1
  obtain ⟨_, hc⟩ := packet_count_eq _ 0 l.val (by omega) hl d0 d1
  have hcap : (calibrateMPU9250.capture board data ⟨[0, l.val] :: rest, log⟩).1 = 0 := by
    simp only [calibrateMPU9250.capture, configure_eq]
    rw [hc]; omega
  have hlog := capture_log board data ⟨[0, l.val] :: rest, log⟩
  rw [hcap] at hlog
  refine ⟨hcap, ?_, ?_⟩
  · unfold calibrateMPU9250
    simp only [hcap, normalize_zero]
  · unfold calibrateMPU9250
    simp only [hcap, normalize_zero]
    simpa using hlog

/-- C3: when bit 0 of the low byte of an axis's factory accelerometer offset register is set, the
low byte written back to that register has bit 0 set, whatever the averaged bias is. -/
theorem accel_flag_set_is_kept (board : Board) (accel_bias : Arr3 Int) (data : Nat → Nat)
    (trim : Arr3 (Nat × Nat)) (rest : List (List Nat)) (log : List Event) (axis : Axis)
    (hflag : (trim.get axis).2 % 2 = 1) :
    ∃ v, lastWrite Dev.MPU9250_ADDRESS (A_OFFSET_L axis)
          (calibrateMPU9250.pushAccel board accel_bias data ⟨trimScript trim ++ rest, log⟩).log
          = some v
      ∧ v % 2 = 1 := by
  refine ⟨_, (lastWrite_pushAccel board accel_bias data trim rest log axis).2, ?_⟩
  exact (accelBytes_spec board _ _ (accel_bias.get axis) (Nat.mod_lt _ (by decide))
    (Nat.mod_lt _ (by decide))).2.2 (by omega)

/-- C3 at a concrete input: factory low byte 0x35 on x, a bias of 16 whose correction is even. -/
theorem accel_flag_set_is_kept_witness :
    (((⟨(0x12, 0x35), (0, 0), (0, 0)⟩ : Arr3 (Nat × Nat)).get Axis.x).2 % 2 = 1) ∧
    ∃ v, lastWrite Dev.MPU9250_ADDRESS (A_OFFSET_L Axis.x)
          (calibrateMPU9250.pushAccel Board.proMini ⟨16, 0, 0⟩ (fun _ => 0)
            ⟨trimScript ⟨(0x12, 0x35), (0, 0), (0, 0)⟩ ++ [], []⟩).log = some v
      ∧ v % 2 = 1 :=
  ⟨by decide, accel_flag_set_is_kept Board.proMini ⟨16, 0, 0⟩ (fun _ => 0)
    ⟨(0x12, 0x35), (0, 0), (0, 0)⟩ [] [] Axis.x (by decide)⟩

/-- C4: the six bytes pushed to the gyroscope offset registers are, in the order X, Y, Z and high
byte before low byte, the high and low bytes of the 16-bit two's-complement encoding of `(-m)/4`,
the division truncating toward zero, for the mean `m` of each axis. -/
theorem gyro_offsets_encode_negated_quarter (gyro_bias : Arr3 Int) (bus : Bus)
    (hx : IsInt32 gyro_bias.e0) (hy : IsInt32 gyro_bias.e1) (hz : IsInt32 gyro_bias.e2) :
    calibrateMPU9250.pushGyro gyro_bias bus
      = ⟨bus.rx, bus.log ++
          [Event.write Dev.MPU9250_ADDRESS Reg.XG_OFFSET_H
             (enc16 (Int.tdiv (-gyro_bias.e0) 4) / 256),
           Event.write Dev.MPU9250_ADDRESS Reg.XG_OFFSET_L
             (enc16 (Int.tdiv (-gyro_bias.e0) 4) % 256),
           Event.write Dev.MPU9250_ADDRESS Reg.YG_OFFSET_H
             (enc16 (Int.tdiv (-gyro_bias.e1) 4) / 256),
           Event.write Dev.MPU9250_ADDRESS Reg.YG_OFFSET_L
             (enc16 (Int.tdiv (-gyro_bias.e1) 4) % 256),
           Event.write Dev.MPU9250_ADDRESS Reg.ZG_OFFSET_H
             (enc16 (Int.tdiv (-gyro_bias.e2) 4) / 256),
           Event.write Dev.MPU9250_ADDRESS Reg.ZG_OFFSET_L
             (enc16 (Int.tdiv (-gyro_bias.e2) 4) % 256)]⟩ := by
  rw [pushGyro_eq, gyroBytes_eq _ hx.1 hx.2, gyroBytes_eq _ hy.1 hy.2, gyroBytes_eq _ hz.1 hz.2]

/-- C4 at a concrete input: means 7, -7 and -32768 give 0xFFFF, 0x0001 and 0x2000. -/
theorem gyro_offsets_encode_negated_quarter_witness :
    (IsInt32 7 ∧ IsInt32 (-7) ∧ IsInt32 (-32768)) ∧
    calibrateMPU9250.pushGyro ⟨7, -7, -32768⟩ ⟨[], []⟩
      = ⟨[], [] ++
          [Event.write Dev.MPU9250_ADDRESS Reg.XG_OFFSET_H (enc16 (Int.tdiv (-7) 4) / 256),
           Event.write Dev.MPU9250_ADDRESS Reg.XG_OFFSET_L (enc16 (Int.tdiv (-7) 4) % 256),
           Event.write Dev.MPU9250_ADDRESS Reg.YG_OFFSET_H (enc16 (Int.tdiv (- -7) 4) / 256),
           Event.write Dev.MPU9250_ADDRESS Reg.YG_OFFSET_L (enc16 (Int.tdiv (- -7) 4) % 256),
           Event.write Dev.MPU9250_ADDRESS Reg.ZG_OFFSET_H (enc16 (Int.tdiv (- -32768) 4) / 256),
           Event.write Dev.MPU9250_ADDRESS Reg.ZG_OFFSET_L
             (enc16 (Int.tdiv (- -32768) 4) % 256)]⟩ :=
  ⟨by decide, gyro_offsets_encode_negated_quarter ⟨7, -7, -32768⟩ ⟨[], []⟩
    (by decide) (by decide) (by decide)⟩

/-- C5, as the spec words it, fails: a gyroscope mean of 131 is not encoded as 0xFF, 0xDF. -/
theorem gyro_mean_131_is_not_FFDF :
    ¬ (calibrateMPU9250.pushGyro ⟨131, 0, 0⟩ ⟨[], []⟩).log.take 2
        = [Event.write Dev.MPU9250_ADDRESS Reg.XG_OFFSET_H 0xFF,
           Event.write Dev.MPU9250_ADDRESS Reg.XG_OFFSET_L 0xDF] := by
  decide

/-- C5, amended: a gyroscope mean of 131 is encoded as 0xFF (high), 0xE0 (low), the bytes of
-32 = (-131)/4 truncated toward zero, on whichever axis it occurs. -/
theorem gyro_mean_131_is_FFE0 :
    calibrateMPU9250.gyroBytes 131 = (0xFF, 0xE0)
      ∧ ∀ (y z : Int) (bus : Bus),
        (calibrateMPU9250.pushGyro ⟨131, y, z⟩ bus).log.take (bus.log.length + 2)
          = bus.log ++ [Event.write Dev.MPU9250_ADDRESS Reg.XG_OFFSET_H 0xFF,
                        Event.write Dev.MPU9250_ADDRESS Reg.XG_OFFSET_L 0xE0] := by
  refine ⟨by decide, ?_⟩
  intro y z bus
  rw [pushGyro_eq]
  have e : calibrateMPU9250.gyroBytes 131 = (0xFF, 0xE0) := by decide
  simp [e, List.take_append_eq_append_take]

/-- C6: the value written back to an axis's accelerometer offset register pair is the factory
value `f` (big-endian signed 16-bit) minus the averaged bias divided by 8 (truncating), reduced to
16 bits: the high byte written is bits 15..8 of that value and bits 7..1 of the low byte written
are its bits 7..1. -/
theorem accel_offset_is_corrected (board : Board) (accel_bias : Arr3 Int) (data : Nat → Nat)
    (trim : Arr3 (Nat × Nat)) (rest : List (List Nat)) (log : List Event) (axis : Axis)
    (hhi : (trim.get axis).1 < 256) (hlo : (trim.get axis).2 < 256) :
    lastWrite Dev.MPU9250_ADDRESS (A_OFFSET_H axis)
        (calibrateMPU9250.pushAccel board accel_bias data ⟨trimScript trim ++ rest, log⟩).log
        = some (enc16 (be16 (trim.get axis).1 (trim.get axis).2
            - Int.tdiv (accel_bias.get axis) 8) / 256)
      ∧ ∃ v, lastWrite Dev.MPU9250_ADDRESS (A_OFFSET_L axis)
          (calibrateMPU9250.pushAccel board accel_bias data ⟨trimScript trim ++ rest, log⟩).log
          = some v
        ∧ v / 2 = enc16 (be16 (trim.get axis).1 (trim.get axis).2
            - Int.tdiv (accel_bias.get axis) 8) % 256 / 2 := by
  obtain ⟨w1, w2⟩ := lastWrite_pushAccel board accel_bias data trim rest log axis
  rw [Nat.mod_eq_of_lt hhi, Nat.mod_eq_of_lt hlo] at w1 w2
  obtain ⟨s1, s2, _⟩ := accelBytes_spec board _ _ (accel_bias.get axis) hhi hlo
  exact ⟨by rw [w1, s1], _, w2, s2⟩

/-- C6 at a concrete input: factory value 0x1234 on y with a bias of -100: 0x1234 + 12 = 0x1240. -/
theorem accel_offset_is_corrected_witness :
    (((⟨(0, 0), (0x12, 0x34), (0, 0)⟩ : Arr3 (Nat × Nat)).get Axis.y).1 < 256
      ∧ ((⟨(0, 0), (0x12, 0x34), (0, 0)⟩ : Arr3 (Nat × Nat)).get Axis.y).2 < 256)
    ∧ (lastWrite Dev.MPU9250_ADDRESS (A_OFFSET_H Axis.y)
        (calibrateMPU9250.pushAccel Board.teensy31 ⟨0, -100, 0⟩ (fun _ => 0)
          ⟨trimScript ⟨(0, 0), (0x12, 0x34), (0, 0)⟩ ++ [], []⟩).log
        = some (enc16 (be16 ((⟨(0, 0), (0x12, 0x34), (0, 0)⟩ : Arr3 (Nat × Nat)).get Axis.y).1
              ((⟨(0, 0), (0x12, 0x34), (0, 0)⟩ : Arr3 (Nat × Nat)).get Axis.y).2
            - Int.tdiv ((⟨0, -100, 0⟩ : Arr3 Int).get Axis.y) 8) / 256)
      ∧ ∃ v, lastWrite Dev.MPU9250_ADDRESS (A_OFFSET_L Axis.y)
          (calibrateMPU9250.pushAccel Board.teensy31 ⟨0, -100, 0⟩ (fun _ => 0)
            ⟨trimScript ⟨(0, 0), (0x12, 0x34), (0, 0)⟩ ++ [], []⟩).log = some v
        ∧ v / 2 = enc16 (be16 ((⟨(0, 0), (0x12, 0x34), (0, 0)⟩ : Arr3 (Nat × Nat)).get Axis.y).1
              ((⟨(0, 0), (0x12, 0x34), (0, 0)⟩ : Arr3 (Nat × Nat)).get Axis.y).2
            - Int.tdiv ((⟨0, -100, 0⟩ : Arr3 Int).get Axis.y) 8) % 256 / 2) :=
  ⟨⟨by decide, by decide⟩,
   accel_offset_is_corrected Board.teensy31 ⟨0, -100, 0⟩ (fun _ => 0)
    ⟨(0, 0), (0x12, 0x34), (0, 0)⟩ [] [] Axis.y (by decide) (by decide)⟩

/-- C7: for a capture of `n >= 1` complete packets, the six values the normalisation leaves are
the per-axis sums of the big-endian signed 16-bit samples divided by `n`, truncating toward
zero. -/
theorem means_are_truncated_averages (board : Board) (data : Nat → Nat) (h l : Nat)
    (pkts rest : List (List Nat)) (log : List Event) (hh : h < 256) (hl : l < 256)
    (hn : pkts.length = (256 * h + l) / 12) (hp : ∀ p ∈ pkts, IsPacket p)
    (h1 : 1 ≤ pkts.length) :
    calibrateMPU9250.normalize
        (calibrateMPU9250.capture board data ⟨[h, l] :: (pkts ++ rest), log⟩).1
        (calibrateMPU9250.capture board data ⟨[h, l] :: (pkts ++ rest), log⟩).2.accel_bias
        (calibrateMPU9250.capture board data ⟨[h, l] :: (pkts ++ rest), log⟩).2.gyro_bias
      = Except.ok
          (⟨Int.tdiv (axisSum pkts 0) pkts.length, Int.tdiv (axisSum pkts 1) pkts.length,
            Int.tdiv (axisSum pkts 2) pkts.length⟩,
           ⟨Int.tdiv (axisSum pkts 3) pkts.length, Int.tdiv (axisSum pkts 4) pkts.length,
            Int.tdiv (axisSum pkts 5) pkts.length⟩) := by
  obtain ⟨c1, _, c3, c4⟩ := capture_spec board data h l pkts rest log hh hl hn hp
  rw [c1, c3, c4, normalize_spec pkts h1 hp]
  rfl

/-- C7 at a concrete input: the two sample packets, announced by a FIFO count of 24. -/
theorem means_are_truncated_averages_witness :
    (0 < 256 ∧ 24 < 256 ∧ samplePackets.length = (256 * 0 + 24) / 12
      ∧ (∀ p ∈ samplePackets, IsPacket p) ∧ 1 ≤ samplePackets.length) ∧
    calibrateMPU9250.normalize
        (calibrateMPU9250.capture Board.teensy31 (fun _ => 0)
          ⟨[0, 24] :: (samplePackets ++ []), []⟩).1
        (calibrateMPU9250.capture Board.teensy31 (fun _ => 0)
          ⟨[0, 24] :: (samplePackets ++ []), []⟩).2.accel_bias
        (calibrateMPU9250.capture Board.teensy31 (fun _ => 0)
          ⟨[0, 24] :: (samplePackets ++ []), []⟩).2.gyro_bias
      = Except.ok (⟨104, -100, 16400⟩, ⟨131, -131, 7⟩) :=
  ⟨by decide, means_are_truncated_averages Board.teensy31 (fun _ => 0) 0 24 samplePackets [] []
    (by decide) (by decide) (by decide) (by decide) (by decide)⟩

/-- C8: the two bytes `h`, `l` read from the FIFO count register give the byte count
`256 * h + l` and the packet count `(256 * h + l) / 12`; the capture ends with exactly that many
12-byte reads of the FIFO data register, and the whole routine performs no other. -/
theorem fifo_drained_by_whole_packets (board : Board) (data : Nat → Nat) (h l : Nat)
    (rest : List (List Nat)) (log : List Event) (hh : h < 256) (hl : l < 256) :
    calibrateMPU9250.fifo_count (readBytes Dev.MPU9250_ADDRESS Reg.FIFO_COUNTH 2 data
        (calibrateMPU9250.configure ⟨[h, l] :: rest, log⟩)).1 = 256 * h + l
      ∧ (calibrateMPU9250.capture board data ⟨[h, l] :: rest, log⟩).1 = (256 * h + l) / 12
      ∧ (calibrateMPU9250.capture board data ⟨[h, l] :: rest, log⟩).2.bus.log
          = log ++ configureLog ++ [Event.read Dev.MPU9250_ADDRESS Reg.FIFO_COUNTH 2]
              ++ List.replicate ((256 * h + l) / 12) fifoRead
      ∧ List.count fifoRead (calibrateMPU9250 board data ⟨[h, l] :: rest, log⟩).bus.log
          = List.count fifoRead log + (256 * h + l) / 12 := by
  obtain ⟨_, hd⟩ := readBytes_full Dev.MPU9250_ADDRESS Reg.FIFO_COUNTH 2 data [h, l]
    rest (log ++ configureLog) rfl
  have d0 := hd 0 (by omega)
  have d1 := hd 1 (by omega)
  simp only [List.getD_cons_zero, List.getD_cons_succ, Nat.mod_eq_of_lt hh,
    Nat.mod_eq_of_lt hl] at d0 d1
  obtain ⟨hf, hc⟩ := packet_count_eq _ h l hh hl d0 d1
  have hcap : (calibrateMPU9250.capture board data ⟨[h, l] :: rest, log⟩).1
      = (256 * h + l) / 12 := by
    simp only [calibrateMPU9250.capture, configure_eq]
    exact hc
  refine ⟨by rw [configure_eq]; exact hf, hcap, ?_, ?_⟩
  · rw [capture_log, hcap]
  · rw [count_fifoRead_calibrate, hcap]

/-- C8 at a concrete input: a FIFO count of 0x01E7 = 487 bytes is 40 packets and 7 bytes over. -/
theorem fifo_drained_by_whole_packets_witness :
    (1 < 256 ∧ 0xE7 < 256) ∧
    (calibrateMPU9250.fifo_count (readBytes Dev.MPU9250_ADDRESS Reg.FIFO_COUNTH 2 (fun _ => 0)
        (calibrateMPU9250.configure ⟨[1, 0xE7] :: [], []⟩)).1 = 256 * 1 + 0xE7
      ∧ (calibrateMPU9250.capture Board.proMini (fun _ => 0) ⟨[1, 0xE7] :: [], []⟩).1
          = (256 * 1 + 0xE7) / 12
      ∧ (calibrateMPU9250.capture Board.proMini (fun _ => 0) ⟨[1, 0xE7] :: [], []⟩).2.bus.log
          = [] ++ configureLog ++ [Event.read Dev.MPU9250_ADDRESS Reg.FIFO_COUNTH 2]
              ++ List.replicate ((256 * 1 + 0xE7) / 12) fifoRead
      ∧ List.count fifoRead
          (calibrateMPU9250 Board.proMini (fun _ => 0) ⟨[1, 0xE7] :: [], []⟩).bus.log
          = List.count fifoRead [] + (256 * 1 + 0xE7) / 12) :=
  ⟨by decide, fifo_drained_by_whole_packets Board.proMini (fun _ => 0) 1 0xE7 [] []
    (by decide) (by decide)⟩

/-- C9: gravity removal changes the z accelerometer mean only: 16384 is subtracted from a positive
z mean and added to a zero or negative one; the x and y accelerometer means and the three
gyroscope means go unchanged into everything that follows. -/
theorem gravity_removed_from_z_only (board : Board) (accel_bias gyro_bias : Arr3 Int)
    (data : Nat → Nat) (bus : Bus) (hz : IsInt32 accel_bias.e2) :
    calibrateMPU9250.removeGravity accel_bias = withoutGravity accel_bias
      ∧ calibrateMPU9250.finish board accel_bias gyro_bias data bus
        = ⟨calibrateMPU9250.pushAccel board (withoutGravity accel_bias)
              (calibrateMPU9250.gyroData gyro_bias data)
              (calibrateMPU9250.pushGyro gyro_bias bus),
            Except.ok (calibrateMPU9250.scaled gyro_bias gyrosensitivity,
              calibrateMPU9250.scaled (withoutGravity accel_bias) accelsensitivity)⟩ := by
  have e := removeGravity_eq accel_bias hz
  exact ⟨e, by simp only [calibrateMPU9250.finish, e]⟩

/-- C9 at a concrete input: a z mean of 16500 becomes 116. -/
theorem gravity_removed_from_z_only_witness :
    IsInt32 (⟨10, -20, 16500⟩ : Arr3 Int).e2 ∧
    (calibrateMPU9250.removeGravity ⟨10, -20, 16500⟩ = withoutGravity ⟨10, -20, 16500⟩
      ∧ calibrateMPU9250.finish Board.proMini ⟨10, -20, 16500⟩ ⟨1, 2, 3⟩ (fun _ => 0) ⟨[], []⟩
        = ⟨calibrateMPU9250.pushAccel Board.proMini (withoutGravity ⟨10, -20, 16500⟩)
              (calibrateMPU9250.gyroData ⟨1, 2, 3⟩ (fun _ => 0))
              (calibrateMPU9250.pushGyro ⟨1, 2, 3⟩ ⟨[], []⟩),
            Except.ok (calibrateMPU9250.scaled ⟨1, 2, 3⟩ gyrosensitivity,
              calibrateMPU9250.scaled (withoutGravity ⟨10, -20, 16500⟩) accelsensitivity)⟩) :=
  ⟨by decide, gravity_removed_from_z_only Board.proMini ⟨10, -20, 16500⟩ ⟨1, 2, 3⟩ (fun _ => 0)
    ⟨[], []⟩ (by decide)⟩

/-- C10: for a capture of `n >= 1` complete packets the routine returns, per axis, the integer
gyroscope mean divided by 131 and the integer accelerometer mean (z after gravity removal)
divided by 16384, as rationals; 131 and 16384 are the counts per unit of the 250 dps and 2 g full
scales, the ones the routine configures. -/
theorem returned_biases_are_scaled_means (board : Board) (data : Nat → Nat) (h l : Nat)
    (pkts rest : List (List Nat)) (log : List Event) (hh : h < 256) (hl : l < 256)
    (hn : pkts.length = (256 * h + l) / 12) (hp : ∀ p ∈ pkts, IsPacket p)
    (h1 : 1 ≤ pkts.length) :
    (calibrateMPU9250 board data ⟨[h, l] :: (pkts ++ rest), log⟩).dest
        = Except.ok
          (⟨((packetMeans pkts).2.e0 : ℚ) / 131, ((packetMeans pkts).2.e1 : ℚ) / 131,
            ((packetMeans pkts).2.e2 : ℚ) / 131⟩,
           ⟨((withoutGravity (packetMeans pkts).1).e0 : ℚ) / 16384,
            ((withoutGravity (packetMeans pkts).1).e1 : ℚ) / 16384,
            ((withoutGravity (packetMeans pkts).1).e2 : ℚ) / 16384⟩)
      ∧ gyrosensitivity = 32768 / 250 ∧ accelsensitivity = 32768 / 2
      ∧ lastWrite Dev.MPU9250_ADDRESS Reg.GYRO_CONFIG configureLog = some 0
      ∧ lastWrite Dev.MPU9250_ADDRESS Reg.ACCEL_CONFIG configureLog = some 0 := by
  refine ⟨?_, by decide, by decide, by decide, by decide⟩
  rw [calibrate_dest board data h l pkts rest log hh hl hn hp h1]
  have hz : IsInt32 (packetMeans pkts).1.e2 := by
    obtain ⟨_, t1, t2⟩ := divAssign32_mean pkts 2 h1 hp
    exact ⟨by simp only [packetMeans]; omega, by simp only [packetMeans]; omega⟩
  simp [calibrateMPU9250.finish, removeGravity_eq _ hz, calibrateMPU9250.scaled, gyrosensitivity,
    accelsensitivity]

/-- C10 at a concrete input: the two sample packets followed by three factory trim answers. -/
theorem returned_biases_are_scaled_means_witness :
    (0 < 256 ∧ 24 < 256 ∧ samplePackets.length = (256 * 0 + 24) / 12
      ∧ (∀ p ∈ samplePackets, IsPacket p) ∧ 1 ≤ samplePackets.length) ∧
    ((calibrateMPU9250 Board.proMini (fun _ => 0)
        ⟨[0, 24] :: (samplePackets ++ [[0x12, 0x35], [0xFF, 0xFE], [0x10, 0x00]]), []⟩).dest
        = Except.ok
          (⟨((packetMeans samplePackets).2.e0 : ℚ) / 131,
            ((packetMeans samplePackets).2.e1 : ℚ) / 131,
            ((packetMeans samplePackets).2.e2 : ℚ) / 131⟩,
           ⟨((withoutGravity (packetMeans samplePackets).1).e0 : ℚ) / 16384,
            ((withoutGravity (packetMeans samplePackets).1).e1 : ℚ) / 16384,
            ((withoutGravity (packetMeans samplePackets).1).e2 : ℚ) / 16384⟩)
      ∧ gyrosensitivity = 32768 / 250 ∧ accelsensitivity = 32768 / 2
      ∧ lastWrite Dev.MPU9250_ADDRESS Reg.GYRO_CONFIG configureLog = some 0
      ∧ lastWrite Dev.MPU9250_ADDRESS Reg.ACCEL_CONFIG configureLog = some 0) :=
  ⟨by decide, returned_biases_are_scaled_means Board.proMini (fun _ => 0) 0 24 samplePackets
    [[0x12, 0x35], [0xFF, 0xFE], [0x10, 0x00]] []
    (by decide) (by decide) (by decide) (by decide) (by decide)⟩

set_option maxRecDepth 100000 in
/-- C11 fails on the code: the sums are `int16_t` and wrap.  With the sum arrays starting at zero
and 200 accelerometer readings of 1000 on x, the sum 200000 wraps to 3392 and the baseline
average comes out as 16 instead of 1000, on either board.  The arrays also start from whatever
they hold: from 200 and 200 readings of 0 the average is 1 instead of 0. -/
theorem self_test_average_wraps :
    (MPU9250SelfTest.measure Board.proMini zeroSums
        ⟨steadyScript [0x03, 0xE8, 0, 0, 0, 0] [0, 0, 0, 0, 0, 0] 200, []⟩).aAvg.e0 = 16
      ∧ (MPU9250SelfTest.measure Board.teensy31 zeroSums
        ⟨steadyScript [0x03, 0xE8, 0, 0, 0, 0] [0, 0, 0, 0, 0, 0] 200, []⟩).aAvg.e0 = 16
      ∧ (MPU9250SelfTest.measure Board.teensy31 ⟨⟨0, 0, 0⟩, ⟨200, 0, 0⟩, ⟨0, 0, 0⟩, ⟨0, 0, 0⟩⟩
        ⟨steadyScript [0, 0, 0, 0, 0, 0] [0, 0, 0, 0, 0, 0] 200, []⟩).aAvg.e0 = 1 := by
  decide

/-- C12 fails on the code, from the same defect as C11: the averages the six results are formed
from are the wrapped `int16_t` values, not the averages of the readings.  With the sum arrays
starting at zero, 200 baseline readings of 100 and 200 stimulated readings of 500 on
accelerometer x and trim code 1, the baseline average is 100 but the stimulated average comes
out as -155 (the sum 100000 wraps to -31072), on either board.  Entry 0 is therefore computed
from the difference -255 instead of 400, whatever the floating-point arithmetic; in arithmetic
without rounding it is -1275/131, not the 100 * (500 - 100) / factory trim of the claim.  In no
run at all does the difference of the two averages leave the range -326..326. -/
theorem deviation_uses_wrapped_averages (fp : FloatOps) (board : Board) (sums : SelfTestSums)
    (destination : Nat → ℚ) (bus : Bus) :
    ((MPU9250SelfTest.measure board zeroSums ⟨steadyRun, []⟩).aAvg.e0 = 100
      ∧ (MPU9250SelfTest.measure board zeroSums ⟨steadyRun, []⟩).aSTAvg.e0 = -155
      ∧ (MPU9250SelfTest.measure board zeroSums ⟨steadyRun, []⟩).selfTest.e0 = 1)
    ∧ (MPU9250SelfTest fp board zeroSums destination ⟨steadyRun, []⟩).1 0
        = fp.toFloat (fp.toDouble
            (fp.toDouble (fp.toDouble 100 * fp.toFloat (-255)) / MPU9250SelfTest.factoryTrim fp 1))
    ∧ ((MPU9250SelfTest exactArith board zeroSums destination ⟨steadyRun, []⟩).1 0 = -1275 / 131
      ∧ (MPU9250SelfTest exactArith board zeroSums destination ⟨steadyRun, []⟩).1 0
          ≠ 100 * (500 - 100) / MPU9250SelfTest.factoryTrim exactArith 1)
    ∧ (-326 ≤ (MPU9250SelfTest.measure board sums bus).aSTAvg.e0
            - (MPU9250SelfTest.measure board sums bus).aAvg.e0
      ∧ (MPU9250SelfTest.measure board sums bus).aSTAvg.e0
            - (MPU9250SelfTest.measure board sums bus).aAvg.e0 ≤ 326) := by
  have hm := measure_steadyRun board
  have hw : board.wrap (-155 - 100) = -255 := by cases board <;> decide
  have hd : ∀ gp : FloatOps,
      (MPU9250SelfTest gp board zeroSums destination ⟨steadyRun, []⟩).1 0
        = gp.toFloat (gp.toDouble
            (gp.toDouble (gp.toDouble 100 * gp.toFloat (-255))
              / MPU9250SelfTest.factoryTrim gp 1)) := by
    intro gp
    simp only [MPU9250SelfTest, MPU9250SelfTest.report, MPU9250SelfTest.factoryTrims, setFloat,
      MPU9250SelfTest.deviation, hm.1, hm.2.1, hm.2.2, hw]
    simp
  have ht : MPU9250SelfTest.factoryTrim exactArith 1 = 2620 := by
    simp [MPU9250SelfTest.factoryTrim, exactArith, MPU9250SelfTest.FS]
  have he : (MPU9250SelfTest exactArith board zeroSums destination ⟨steadyRun, []⟩).1 0
      = -1275 / 131 := by
    rw [hd exactArith, ht]
    simp only [exactArith]
    norm_num
  obtain ⟨⟨a0, _, _⟩, _, ⟨s0, _, _⟩, _⟩ := measure_range board sums bus
  refine ⟨hm, hd fp, ⟨he, ?_⟩, by omega, by omega⟩
  rw [he, ht]
  norm_num

/-- C14: `readAccelData`, `readGyroData` and `readTempData` decode every consecutive byte pair
`(h, l)` of the run they read as the big-endian two's-complement value of `256 * h + l`, in
order. -/
theorem big_endian_decoders (board : Board) (rawData : Nat → Nat) (p q : List Nat)
    (rest : List (List Nat)) (log : List Event) (hp : IsBytes 6 p) (hq : IsBytes 2 q) :
    readAccelData board rawData ⟨p :: rest, log⟩
        = (⟨be16 (p.getD 0 0) (p.getD 1 0), be16 (p.getD 2 0) (p.getD 3 0),
            be16 (p.getD 4 0) (p.getD 5 0)⟩,
           ⟨rest, log ++ [Event.read Dev.MPU9250_ADDRESS Reg.ACCEL_XOUT_H 6]⟩)
      ∧ readGyroData board rawData ⟨p :: rest, log⟩
        = (⟨be16 (p.getD 0 0) (p.getD 1 0), be16 (p.getD 2 0) (p.getD 3 0),
            be16 (p.getD 4 0) (p.getD 5 0)⟩,
           ⟨rest, log ++ [Event.read Dev.MPU9250_ADDRESS Reg.GYRO_XOUT_H 6]⟩)
      ∧ readTempData board rawData ⟨q :: rest, log⟩
        = (be16 (q.getD 0 0) (q.getD 1 0),
           ⟨rest, log ++ [Event.read Dev.MPU9250_ADDRESS Reg.TEMP_OUT_H 2]⟩) :=
  ⟨readAccelData_full board rawData p rest log hp, readGyroData_full board rawData p rest log hp,
   readTempData_full board rawData q rest log hq⟩

/-- C14 at the input of the specification: the bytes 04 00 FF F0 00 01 decode to 1024, -16, 1
(and FF F0 alone to -16). -/
theorem big_endian_decoders_witness :
    (IsBytes 6 [0x04, 0x00, 0xFF, 0xF0, 0x00, 0x01] ∧ IsBytes 2 [0xFF, 0xF0]) ∧
    (readAccelData Board.proMini (fun _ => 0) ⟨[0x04, 0x00, 0xFF, 0xF0, 0x00, 0x01] :: [], []⟩
        = (⟨1024, -16, 1⟩, ⟨[], [] ++ [Event.read Dev.MPU9250_ADDRESS Reg.ACCEL_XOUT_H 6]⟩)
      ∧ readGyroData Board.proMini (fun _ => 0) ⟨[0x04, 0x00, 0xFF, 0xF0, 0x00, 0x01] :: [], []⟩
        = (⟨1024, -16, 1⟩, ⟨[], [] ++ [Event.read Dev.MPU9250_ADDRESS Reg.GYRO_XOUT_H 6]⟩)
      ∧ readTempData Board.proMini (fun _ => 0) ⟨[0xFF, 0xF0] :: [], []⟩
        = (-16, ⟨[], [] ++ [Event.read Dev.MPU9250_ADDRESS Reg.TEMP_OUT_H 2]⟩)) :=
  ⟨by decide, big_endian_decoders Board.proMini (fun _ => 0) [0x04, 0x00, 0xFF, 0xF0, 0x00, 0x01]
    [0xFF, 0xF0] [] [] (by decide) (by decide)⟩

/-- C15: splitting a signed 16-bit value into bytes the way the calibrator does and decoding the
pair with the big-endian decoder gives the value back, and splitting the decoded value of a byte
pair gives the pair back. -/
theorem split_decode_round_trip (board : Board) (v : Int) (h l : Nat) (hv : IsInt16 v)
    (hh : h < 256) (hl : l < 256) :
    int16Of board (splitBytes v).1 (splitBytes v).2 = v
      ∧ splitBytes (int16Of board h l) = (h, l)
      ∧ calibrateMPU9250.gyroBytes v = splitBytes (Int.tdiv (toInt32 (-v)) 4) := by
  refine ⟨?_, ?_, rfl⟩
  · obtain ⟨b1, b2⟩ := splitBytes_lt v
    obtain ⟨v1, v2⟩ := hv
    rw [int16Of_eq_be16 board _ _ b1 b2]
    unfold be16 splitBytes toUInt8
    simp only
    split <;> omega
  · rw [int16Of_eq_be16 board h l hh hl]
    unfold be16 splitBytes toUInt8
    split <;> (ext <;> simp only <;> omega)

/-- C15 at a concrete input: -16 splits into FF F0, and 04 00 decodes to 1024. -/
theorem split_decode_round_trip_witness :
    (IsInt16 (-16) ∧ 0x04 < 256 ∧ 0x00 < 256) ∧
    (int16Of Board.teensy31 (splitBytes (-16)).1 (splitBytes (-16)).2 = -16
      ∧ splitBytes (int16Of Board.teensy31 0x04 0x00) = (0x04, 0x00)
      ∧ calibrateMPU9250.gyroBytes (-16) = splitBytes (Int.tdiv (toInt32 (- -16)) 4)) :=
  ⟨by decide, split_decode_round_trip Board.teensy31 (-16) 0x04 0x00 (by decide) (by decide)
    (by decide)⟩

/-- C16: when the data-ready bit (bit 0 of ST1) is set and the overflow bit (bit 3 of the seventh
byte read) is clear, `readMagData` sets the three outputs to the little-endian two's-complement
values of the byte pairs (0,1), (2,3), (4,5). -/
theorem mag_little_endian (board : Board) (rawData : Nat → Nat) (destination : Arr3 Int)
    (st : Nat) (resp : List Nat) (rest : List (List Nat)) (log : List Event)
    (hready : st % 2 = 1) (hresp : IsBytes 7 resp) (hclear : resp.getD 6 0 / 8 % 2 = 0) :
    readMagData board rawData destination ⟨[st] :: resp :: rest, log⟩
      = (⟨be16 (resp.getD 1 0) (resp.getD 0 0), be16 (resp.getD 3 0) (resp.getD 2 0),
          be16 (resp.getD 5 0) (resp.getD 4 0)⟩,
         ⟨rest, log ++ [Event.read Dev.AK8963_ADDRESS Reg.AK8963_ST1 1,
                        Event.read Dev.AK8963_ADDRESS Reg.AK8963_XOUT_L 7]⟩) := by
  obtain ⟨hb, hd⟩ := readBytes_full Dev.AK8963_ADDRESS Reg.AK8963_XOUT_L 7 rawData resp rest
    (log ++ [Event.read Dev.AK8963_ADDRESS Reg.AK8963_ST1 1]) hresp.1
  have h6 := hd 6 (by omega)
  rw [Nat.mod_eq_of_lt (getD_lt_of_isBytes 7 resp hresp 6)] at h6
  have hst : st % 256 &&& 0x01 ≠ 0 := (and_one_ne_zero_iff _).2 (by omega)
  have hc : (readBytes Dev.AK8963_ADDRESS Reg.AK8963_XOUT_L 7 rawData
      ⟨resp :: rest, log ++ [Event.read Dev.AK8963_ADDRESS Reg.AK8963_ST1 1]⟩).1 6 &&& 0x08 = 0 := by
    rw [h6]; exact (and_eight_eq_zero_iff _).2 hclear
  simp only [readMagData, readByte_one, if_pos hst, if_pos hc, hb,
    int16Of_filled board 7 resp hresp _ 1 0 (hd 1 (by omega)) (hd 0 (by omega)),
    int16Of_filled board 7 resp hresp _ 3 2 (hd 3 (by omega)) (hd 2 (by omega)),
    int16Of_filled board 7 resp hresp _ 5 4 (hd 5 (by omega)) (hd 4 (by omega))]
  simp

/-- C16 at a concrete input: ST1 = 1 and the bytes 34 12 F0 FF 01 00 10 give 0x1234, -16, 1. -/
theorem mag_little_endian_witness :
    (1 % 2 = 1 ∧ IsBytes 7 [0x34, 0x12, 0xF0, 0xFF, 0x01, 0x00, 0x10]
      ∧ [0x34, 0x12, 0xF0, 0xFF, 0x01, 0x00, 0x10].getD 6 0 / 8 % 2 = 0) ∧
    readMagData Board.proMini (fun _ => 0) ⟨7, 7, 7⟩
        ⟨[1] :: [0x34, 0x12, 0xF0, 0xFF, 0x01, 0x00, 0x10] :: [], []⟩
      = (⟨0x1234, -16, 1⟩,
         ⟨[], [] ++ [Event.read Dev.AK8963_ADDRESS Reg.AK8963_ST1 1,
                     Event.read Dev.AK8963_ADDRESS Reg.AK8963_XOUT_L 7]⟩) :=
  ⟨by decide, mag_little_endian Board.proMini (fun _ => 0) ⟨7, 7, 7⟩ 1
    [0x34, 0x12, 0xF0, 0xFF, 0x01, 0x00, 0x10] [] [] (by decide) (by decide) (by decide)⟩

/-- C17: `readMagData` leaves the three destination values as they were whenever the data-ready
bit is not set and whenever the overflow bit of the seventh byte is set; when the data-ready bit
is not set the only bus transaction is the status read, the 7-byte read is not performed. -/
theorem mag_stale_when_skipped (board : Board) (rawData : Nat → Nat) (destination : Arr3 Int)
    (st : Nat) (script : List (List Nat)) (log : List Event)
    (hskip : st % 2 = 0
      ∨ (IsBytes 7 (script.headD []) ∧ (script.headD []).getD 6 0 / 8 % 2 = 1)) :
    (readMagData board rawData destination ⟨[st] :: script, log⟩).1 = destination
      ∧ (st % 2 = 0 →
          (readMagData board rawData destination ⟨[st] :: script, log⟩).2
            = ⟨script, log ++ [Event.read Dev.AK8963_ADDRESS Reg.AK8963_ST1 1]⟩) := by
  by_cases hst : st % 2 = 0
  · have h0 : ¬ (st % 256 &&& 0x01 ≠ 0) := by
      rw [and_one_ne_zero_iff]; omega
    simp only [readMagData, readByte_one, if_neg h0]
    exact ⟨trivial, fun _ => trivial⟩
  · obtain ⟨hresp, hov⟩ : IsBytes 7 (script.headD []) ∧ (script.headD []).getD 6 0 / 8 % 2 = 1 := by
      rcases hskip with h | h
      · exact absurd h hst
      · exact h
    cases script with
    | nil => exact absurd hresp.1 (by simp)
    | cons resp rest =>
      simp only [List.headD_cons] at hresp hov
      obtain ⟨_, hd⟩ := readBytes_full Dev.AK8963_ADDRESS Reg.AK8963_XOUT_L 7 rawData resp rest
        (log ++ [Event.read Dev.AK8963_ADDRESS Reg.AK8963_ST1 1]) hresp.1
      have h6 := hd 6 (by omega)
      rw [Nat.mod_eq_of_lt (getD_lt_of_isBytes 7 resp hresp 6)] at h6
      have h1 : st % 256 &&& 0x01 ≠ 0 := (and_one_ne_zero_iff _).2 (by omega)
      have hc : ¬ ((readBytes Dev.AK8963_ADDRESS Reg.AK8963_XOUT_L 7 rawData
          ⟨resp :: rest, log ++ [Event.read Dev.AK8963_ADDRESS Reg.AK8963_ST1 1]⟩).1 6
            &&& 0x08 = 0) := by
        rw [h6, and_eight_eq_zero_iff]; omega
      simp only [readMagData, readByte_one, if_pos h1, if_neg hc]
      exact ⟨trivial, fun h => absurd h hst⟩

/-- C17 at a concrete input: data not ready (ST1 = 0), the pending frame has its overflow bit set
(seventh byte 0x18). -/
theorem mag_stale_when_skipped_witness :
    (0 % 2 = 0
      ∨ (IsBytes 7 ([[0x34, 0x12, 0xF0, 0xFF, 0x01, 0x00, 0x18]].headD [])
        ∧ ([[0x34, 0x12, 0xF0, 0xFF, 0x01, 0x00, 0x18]].headD []).getD 6 0 / 8 % 2 = 1)) ∧
    ((readMagData Board.proMini (fun _ => 0) ⟨7, 8, 9⟩
        ⟨[0] :: [[0x34, 0x12, 0xF0, 0xFF, 0x01, 0x00, 0x18]], []⟩).1 = ⟨7, 8, 9⟩
      ∧ (0 % 2 = 0 →
          (readMagData Board.proMini (fun _ => 0) ⟨7, 8, 9⟩
            ⟨[0] :: [[0x34, 0x12, 0xF0, 0xFF, 0x01, 0x00, 0x18]], []⟩).2
            = ⟨[[0x34, 0x12, 0xF0, 0xFF, 0x01, 0x00, 0x18]],
               [] ++ [Event.read Dev.AK8963_ADDRESS Reg.AK8963_ST1 1]⟩)) :=
  ⟨by decide, mag_stale_when_skipped Board.proMini (fun _ => 0) ⟨7, 8, 9⟩ 0
    [[0x34, 0x12, 0xF0, 0xFF, 0x01, 0x00, 0x18]] [] (by decide)⟩

/-- C18: for each of the four accelerometer settings `getAres` sets `aRes` to range/32768 and for
each of the four gyroscope settings `getGres` sets `gRes` to range/32768, as rationals. -/
theorem resolution_is_range_over_32768 (gs as ms mm : Nat) (a g m : ℚ) :
    ((getAres ⟨gs, AFS_2G, ms, mm, a, g, m⟩).aRes = 2 / 32768
      ∧ (getAres ⟨gs, AFS_4G, ms, mm, a, g, m⟩).aRes = 4 / 32768
      ∧ (getAres ⟨gs, AFS_8G, ms, mm, a, g, m⟩).aRes = 8 / 32768
      ∧ (getAres ⟨gs, AFS_16G, ms, mm, a, g, m⟩).aRes = 16 / 32768)
    ∧ ((getGres ⟨GFS_250DPS, as, ms, mm, a, g, m⟩).gRes = 250 / 32768
      ∧ (getGres ⟨GFS_500DPS, as, ms, mm, a, g, m⟩).gRes = 500 / 32768
      ∧ (getGres ⟨GFS_1000DPS, as, ms, mm, a, g, m⟩).gRes = 1000 / 32768
      ∧ (getGres ⟨GFS_2000DPS, as, ms, mm, a, g, m⟩).gRes = 2000 / 32768) := by
  refine ⟨⟨?_, ?_, ?_, ?_⟩, ⟨?_, ?_, ?_, ?_⟩⟩ <;>
    simp [getAres, getGres, AFS_2G, AFS_4G, AFS_8G, AFS_16G, GFS_250DPS, GFS_500DPS,
      GFS_1000DPS, GFS_2000DPS]

/-- C19: `getMres` sets `mRes` to 10*4219/8190 for the 14-bit setting and to 10*4219/32760 for
the 16-bit setting, so the 14-bit resolution is four times the 16-bit one. -/
theorem mag_resolution (gs as mm : Nat) (a g m : ℚ) :
    (getMres ⟨gs, as, MFS_14BITS, mm, a, g, m⟩).mRes = 10 * 4219 / 8190
      ∧ (getMres ⟨gs, as, MFS_16BITS, mm, a, g, m⟩).mRes = 10 * 4219 / 32760
      ∧ (getMres ⟨gs, as, MFS_14BITS, mm, a, g, m⟩).mRes
          = 4 * (getMres ⟨gs, as, MFS_16BITS, mm, a, g, m⟩).mRes := by
  refine ⟨?_, ?_, ?_⟩
  · simp [getMres, MFS_14BITS]
  · simp [getMres, MFS_14BITS, MFS_16BITS]
  · simp only [getMres, MFS_14BITS, MFS_16BITS]
    norm_num

/-- C20: for every FIFO byte count and whatever the slave answers, after each of the
`packet_count <= 5461` accumulation steps the six `int32_t` running sums are within the
`int32_t` range and equal the sums the integers give: no addition wraps. -/
theorem sums_never_overflow (board : Board) (data : Nat → Nat) (bus : Bus) (k : Nat)
    (hk : k ≤ (calibrateMPU9250.capture board data bus).1) :
    (calibrateMPU9250.capture board data bus).1 ≤ 5461
      ∧ calibrateMPU9250.capture board data bus
          = (calibrateMPU9250.packet_count (captureStart data bus).data,
             calibrateMPU9250.loop board (calibrateMPU9250.packet_count (captureStart data bus).data)
               (captureStart data bus))
      ∧ calibrateMPU9250.loop board k (captureStart data bus)
          = loopExact board k (captureStart data bus)
      ∧ (IsInt32 (calibrateMPU9250.loop board k (captureStart data bus)).accel_bias.e0
        ∧ IsInt32 (calibrateMPU9250.loop board k (captureStart data bus)).accel_bias.e1
        ∧ IsInt32 (calibrateMPU9250.loop board k (captureStart data bus)).accel_bias.e2
        ∧ IsInt32 (calibrateMPU9250.loop board k (captureStart data bus)).gyro_bias.e0
        ∧ IsInt32 (calibrateMPU9250.loop board k (captureStart data bus)).gyro_bias.e1
        ∧ IsInt32 (calibrateMPU9250.loop board k (captureStart data bus)).gyro_bias.e2) := by
  have hcap : calibrateMPU9250.capture board data bus
      = (calibrateMPU9250.packet_count (captureStart data bus).data,
         calibrateMPU9250.loop board (calibrateMPU9250.packet_count (captureStart data bus).data)
           (captureStart data bus)) := rfl
  have hle : (calibrateMPU9250.capture board data bus).1 ≤ 5461 := by
    rw [hcap]; exact packet_count_le _
  have hz : (⟨0, 0, 0⟩ : Arr3 Int).Within 0 := by simp [Arr3.Within]
  have hk5 : k ≤ 5461 := by omega
  obtain ⟨e, ⟨a0, a1, a2⟩, ⟨g0, g1, g2⟩⟩ := loop_exact board k (captureStart data bus) 0
    (by omega) hz hz
  rw [Nat.zero_add] at a0 a1 a2 g0 g1 g2
  refine ⟨hle, hcap, e, ?_⟩
  rw [e]
  exact ⟨isInt32_of_within k hk5 _ a0, isInt32_of_within k hk5 _ a1,
    isInt32_of_within k hk5 _ a2, isInt32_of_within k hk5 _ g0, isInt32_of_within k hk5 _ g1,
    isInt32_of_within k hk5 _ g2⟩

/-- C20 at a concrete input: the two sample packets, after both accumulation steps. -/
theorem sums_never_overflow_witness :
    2 ≤ (calibrateMPU9250.capture Board.proMini (fun _ => 0)
          ⟨[0, 24] :: samplePackets, []⟩).1 ∧
    ((calibrateMPU9250.capture Board.proMini (fun _ => 0) ⟨[0, 24] :: samplePackets, []⟩).1
        ≤ 5461
      ∧ calibrateMPU9250.capture Board.proMini (fun _ => 0) ⟨[0, 24] :: samplePackets, []⟩
          = (calibrateMPU9250.packet_count
               (captureStart (fun _ => 0) ⟨[0, 24] :: samplePackets, []⟩).data,
             calibrateMPU9250.loop Board.proMini
               (calibrateMPU9250.packet_count
                 (captureStart (fun _ => 0) ⟨[0, 24] :: samplePackets, []⟩).data)
               (captureStart (fun _ => 0) ⟨[0, 24] :: samplePackets, []⟩))
      ∧ calibrateMPU9250.loop Board.proMini 2
            (captureStart (fun _ => 0) ⟨[0, 24] :: samplePackets, []⟩)
          = loopExact Board.proMini 2 (captureStart (fun _ => 0) ⟨[0, 24] :: samplePackets, []⟩)
      ∧ (IsInt32 (calibrateMPU9250.loop Board.proMini 2
            (captureStart (fun _ => 0) ⟨[0, 24] :: samplePackets, []⟩)).accel_bias.e0
        ∧ IsInt32 (calibrateMPU9250.loop Board.proMini 2
            (captureStart (fun _ => 0) ⟨[0, 24] :: samplePackets, []⟩)).accel_bias.e1
        ∧ IsInt32 (calibrateMPU9250.loop Board.proMini 2
            (captureStart (fun _ => 0) ⟨[0, 24] :: samplePackets, []⟩)).accel_bias.e2
        ∧ IsInt32 (calibrateMPU9250.loop Board.proMini 2
            (captureStart (fun _ => 0) ⟨[0, 24] :: samplePackets, []⟩)).gyro_bias.e0
        ∧ IsInt32 (calibrateMPU9250.loop Board.proMini 2
            (captureStart (fun _ => 0) ⟨[0, 24] :: samplePackets, []⟩)).gyro_bias.e1
        ∧ IsInt32 (calibrateMPU9250.loop Board.proMini 2
            (captureStart (fun _ => 0) ⟨[0, 24] :: samplePackets, []⟩)).gyro_bias.e2)) :=
  ⟨by decide, sums_never_overflow Board.proMini (fun _ => 0) ⟨[0, 24] :: samplePackets, []⟩ 2
    (by decide)⟩

/-- C21: two calls of `calibrateMPU9250` that find the same bus (same answers from the slave) but
different globals `Gscale`, `Ascale`, `Mscale` (and `Mmode`, `aRes`, `gRes`, `mRes`) produce the
same bus traffic and the same two bias vectors, and leave the globals alone; the traffic starts
with the configuration block, in which GYRO_CONFIG and ACCEL_CONFIG are written 0x00 right before
the FIFO is enabled. -/
theorem calibration_ignores_scale_settings (board : Board) (data : Nat → Nat) (g1 g2 : Globals)
    (bus : Bus) :
    (calibrateMPU9250.call board data ⟨g1, bus⟩).1.bus
        = (calibrateMPU9250.call board data ⟨g2, bus⟩).1.bus
      ∧ (calibrateMPU9250.call board data ⟨g1, bus⟩).2
        = (calibrateMPU9250.call board data ⟨g2, bus⟩).2
      ∧ (calibrateMPU9250.call board data ⟨g1, bus⟩).1.globals = g1
      ∧ (∃ tail, (calibrateMPU9250.call board data ⟨g1, bus⟩).1.bus.log
          = bus.log ++ configureLog ++ tail)
      ∧ configureLog.drop 14
        = [Event.write Dev.MPU9250_ADDRESS Reg.GYRO_CONFIG 0x00,
           Event.write Dev.MPU9250_ADDRESS Reg.ACCEL_CONFIG 0x00,
           Event.write Dev.MPU9250_ADDRESS Reg.USER_CTRL 0x40,
           Event.write Dev.MPU9250_ADDRESS Reg.FIFO_EN 0x78,
           Event.delay 40,
           Event.write Dev.MPU9250_ADDRESS Reg.FIFO_EN 0x00]
      ∧ lastWrite Dev.MPU9250_ADDRESS Reg.GYRO_CONFIG (bus.log ++ configureLog.take 16) = some 0x00
      ∧ lastWrite Dev.MPU9250_ADDRESS Reg.ACCEL_CONFIG (bus.log ++ configureLog.take 16)
        = some 0x00 := by
  refine ⟨rfl, rfl, rfl, calibrate_log_extends board data bus, by decide, ?_, ?_⟩
  · simp [lastWrite, List.foldl_append, configureLog]
  · simp [lastWrite, List.foldl_append, configureLog]

/-- C22: `MPU9250SelfTest` writes 0xE0 to ACCEL_CONFIG and GYRO_CONFIG once, after the 200
baseline rounds and before the 200 stimulated rounds: through every baseline round both registers
were last written 0x01 (self-test bits clear), through every stimulated round 0xE0 (all three
set), and when the routine returns 0x00 (clear again). -/
theorem self_test_stimulus_window (fp : FloatOps) (board : Board) (sums : SelfTestSums) (destination : Nat → ℚ)
    (bus : Bus) :
    (MPU9250SelfTest fp board sums destination bus).2.log
        = bus.log
          ++ [Event.write Dev.MPU9250_ADDRESS Reg.SMPLRT_DIV 0x00,
              Event.write Dev.MPU9250_ADDRESS Reg.CONFIG 0x02,
              Event.write Dev.MPU9250_ADDRESS Reg.GYRO_CONFIG 0x01,
              Event.write Dev.MPU9250_ADDRESS Reg.ACCEL_CONFIG2 0x02,
              Event.write Dev.MPU9250_ADDRESS Reg.ACCEL_CONFIG 0x01]
          ++ sampleReads 200
          ++ [Event.write Dev.MPU9250_ADDRESS Reg.ACCEL_CONFIG 0xE0,
              Event.write Dev.MPU9250_ADDRESS Reg.GYRO_CONFIG 0xE0,
              Event.delay 25]
          ++ sampleReads 200
          ++ [Event.write Dev.MPU9250_ADDRESS Reg.ACCEL_CONFIG 0x00,
              Event.write Dev.MPU9250_ADDRESS Reg.GYRO_CONFIG 0x00,
              Event.delay 25,
              Event.read Dev.MPU9250_ADDRESS Reg.SELF_TEST_X_ACCEL 1,
              Event.read Dev.MPU9250_ADDRESS Reg.SELF_TEST_Y_ACCEL 1,
              Event.read Dev.MPU9250_ADDRESS Reg.SELF_TEST_Z_ACCEL 1,
              Event.read Dev.MPU9250_ADDRESS Reg.SELF_TEST_X_GYRO 1,
              Event.read Dev.MPU9250_ADDRESS Reg.SELF_TEST_Y_GYRO 1,
              Event.read Dev.MPU9250_ADDRESS Reg.SELF_TEST_Z_GYRO 1]
      ∧ (∀ k : Nat, ∀ reg : Reg, reg = Reg.ACCEL_CONFIG ∨ reg = Reg.GYRO_CONFIG →
          lastWrite Dev.MPU9250_ADDRESS reg
            (bus.log
              ++ [Event.write Dev.MPU9250_ADDRESS Reg.SMPLRT_DIV 0x00,
                  Event.write Dev.MPU9250_ADDRESS Reg.CONFIG 0x02,
                  Event.write Dev.MPU9250_ADDRESS Reg.GYRO_CONFIG 0x01,
                  Event.write Dev.MPU9250_ADDRESS Reg.ACCEL_CONFIG2 0x02,
                  Event.write Dev.MPU9250_ADDRESS Reg.ACCEL_CONFIG 0x01]
              ++ sampleReads k) = some 0x01)
      ∧ (∀ k : Nat, ∀ reg : Reg, reg = Reg.ACCEL_CONFIG ∨ reg = Reg.GYRO_CONFIG →
          lastWrite Dev.MPU9250_ADDRESS reg
            (bus.log
              ++ [Event.write Dev.MPU9250_ADDRESS Reg.SMPLRT_DIV 0x00,
                  Event.write Dev.MPU9250_ADDRESS Reg.CONFIG 0x02,
                  Event.write Dev.MPU9250_ADDRESS Reg.GYRO_CONFIG 0x01,
                  Event.write Dev.MPU9250_ADDRESS Reg.ACCEL_CONFIG2 0x02,
                  Event.write Dev.MPU9250_ADDRESS Reg.ACCEL_CONFIG 0x01]
              ++ sampleReads 200
              ++ [Event.write Dev.MPU9250_ADDRESS Reg.ACCEL_CONFIG 0xE0,
                  Event.write Dev.MPU9250_ADDRESS Reg.GYRO_CONFIG 0xE0,
                  Event.delay 25]
              ++ sampleReads k) = some 0xE0)
      ∧ lastWrite Dev.MPU9250_ADDRESS Reg.ACCEL_CONFIG
          (MPU9250SelfTest fp board sums destination bus).2.log = some 0x00
      ∧ lastWrite Dev.MPU9250_ADDRESS Reg.GYRO_CONFIG
          (MPU9250SelfTest fp board sums destination bus).2.log = some 0x00
      ∧ selfTestBits 0x01 = 0 ∧ selfTestBits 0xE0 = 7 ∧ selfTestBits 0x00 = 0 := by
  exact ⟨selfTest_log_explicit fp board sums destination bus,
    fun k reg hreg => lastWrite_during_baseline bus.log k reg hreg,
    fun k reg hreg => lastWrite_during_stimulus bus.log k reg hreg,
    lastWrite_after_selfTest fp board sums destination bus Reg.ACCEL_CONFIG (Or.inl rfl),
    lastWrite_after_selfTest fp board sums destination bus Reg.GYRO_CONFIG (Or.inr rfl),
    by decide, by decide, by decide⟩

/-- C23 fails on the code: `c` keeps the value read, so the last write `c | Gscale << 3` carries
the old full-scale bits.  With GYRO_CONFIG holding 0x18 and `Gscale = 0` the value finally
written is 0x18, bits [4:3] = 3; with ACCEL_CONFIG holding 0x10 and `Ascale = 1` it is 0x18
again, bits [4:3] = 3.  The write of `c & ~0x18` that precedes is overwritten. -/
theorem init_keeps_old_full_scale_bits :
    (lastWrite Dev.MPU9250_ADDRESS Reg.GYRO_CONFIG
        (initMPU9250 ⟨GFS_250DPS, AFS_4G, MFS_16BITS, 0x02, 0, 0, 0⟩
          ⟨[[0x18], [0x10], [0x00]], []⟩).log).map fullScaleBits = some 3
      ∧ (lastWrite Dev.MPU9250_ADDRESS Reg.ACCEL_CONFIG
        (initMPU9250 ⟨GFS_250DPS, AFS_4G, MFS_16BITS, 0x02, 0, 0, 0⟩
          ⟨[[0x18], [0x10], [0x00]], []⟩).log).map fullScaleBits = some 3
      ∧ (initMPU9250 ⟨GFS_250DPS, AFS_4G, MFS_16BITS, 0x02, 0, 0, 0⟩
          ⟨[[0x18], [0x10], [0x00]], []⟩).log.drop 6
        = [Event.read Dev.MPU9250_ADDRESS Reg.GYRO_CONFIG 1,
           Event.write Dev.MPU9250_ADDRESS Reg.GYRO_CONFIG 0x18,
           Event.write Dev.MPU9250_ADDRESS Reg.GYRO_CONFIG 0x00,
           Event.write Dev.MPU9250_ADDRESS Reg.GYRO_CONFIG 0x18,
           Event.read Dev.MPU9250_ADDRESS Reg.ACCEL_CONFIG 1,
           Event.write Dev.MPU9250_ADDRESS Reg.ACCEL_CONFIG 0x00,
           Event.write Dev.MPU9250_ADDRESS Reg.ACCEL_CONFIG 0x18,
           Event.read Dev.MPU9250_ADDRESS Reg.ACCEL_CONFIG2 1,
           Event.write Dev.MPU9250_ADDRESS Reg.ACCEL_CONFIG2 0x00,
           Event.write Dev.MPU9250_ADDRESS Reg.ACCEL_CONFIG2 0x03,
           Event.write Dev.MPU9250_ADDRESS Reg.INT_PIN_CFG 0x22,
           Event.write Dev.MPU9250_ADDRESS Reg.INT_ENABLE 0x01,
           Event.delay 100] := by
  decide

/-- C24: for a capture of `n >= 1` complete packets every per-axis mean is an `int16_t` value,
so the correction `(-mean)/4` of a gyroscope axis lies in [-8191, 8192], and the two bytes last
written to that axis's gyroscope offset registers decode, as a big-endian two's-complement
16-bit value, to exactly `(-mean)/4`. -/
theorem gyro_correction_fits_16_bits (board : Board) (data : Nat → Nat) (h l : Nat)
    (pkts : List (List Nat)) (trim : Arr3 (Nat × Nat)) (rest : List (List Nat))
    (log : List Event) (axis : Axis) (hh : h < 256) (hl : l < 256)
    (hn : pkts.length = (256 * h + l) / 12) (hp : ∀ p ∈ pkts, IsPacket p)
    (h1 : 1 ≤ pkts.length) :
    ((IsInt16 (packetMeans pkts).1.e0 ∧ IsInt16 (packetMeans pkts).1.e1
        ∧ IsInt16 (packetMeans pkts).1.e2)
      ∧ (IsInt16 (packetMeans pkts).2.e0 ∧ IsInt16 (packetMeans pkts).2.e1
        ∧ IsInt16 (packetMeans pkts).2.e2))
    ∧ (-8191 ≤ Int.tdiv (-((packetMeans pkts).2.get axis)) 4
      ∧ Int.tdiv (-((packetMeans pkts).2.get axis)) 4 ≤ 8192)
    ∧ ∃ hi lo,
        lastWrite Dev.MPU9250_ADDRESS (G_OFFSET_H axis)
            (calibrateMPU9250 board data
              ⟨[h, l] :: (pkts ++ (trimScript trim ++ rest)), log⟩).bus.log = some hi
          ∧ lastWrite Dev.MPU9250_ADDRESS (G_OFFSET_L axis)
            (calibrateMPU9250 board data
              ⟨[h, l] :: (pkts ++ (trimScript trim ++ rest)), log⟩).bus.log = some lo
          ∧ be16 hi lo = Int.tdiv (-((packetMeans pkts).2.get axis)) 4 := by
  have hm := packetMeans_int16 pkts h1 hp
  have hax : IsInt16 ((packetMeans pkts).2.get axis) := by
    cases axis
    · exact hm.2.1
    · exact hm.2.2.1
    · exact hm.2.2.2
  obtain ⟨r, d⟩ := gyroBytes_decode _ hax
  obtain ⟨w1, w2⟩ := lastWrite_gyro_offsets board data h l pkts trim rest log hh hl hn hp h1 axis
  exact ⟨hm, r, _, _, w1, w2, d⟩

/-- C24 at a concrete input: the two sample packets (gyroscope z mean 7) and three factory trim
answers. -/
theorem gyro_correction_fits_16_bits_witness :
    (0 < 256 ∧ 24 < 256 ∧ samplePackets.length = (256 * 0 + 24) / 12
      ∧ (∀ p ∈ samplePackets, IsPacket p) ∧ 1 ≤ samplePackets.length) ∧
    (((IsInt16 (packetMeans samplePackets).1.e0 ∧ IsInt16 (packetMeans samplePackets).1.e1
        ∧ IsInt16 (packetMeans samplePackets).1.e2)
      ∧ (IsInt16 (packetMeans samplePackets).2.e0 ∧ IsInt16 (packetMeans samplePackets).2.e1
        ∧ IsInt16 (packetMeans samplePackets).2.e2))
    ∧ (-8191 ≤ Int.tdiv (-((packetMeans samplePackets).2.get Axis.z)) 4
      ∧ Int.tdiv (-((packetMeans samplePackets).2.get Axis.z)) 4 ≤ 8192)
    ∧ ∃ hi lo,
        lastWrite Dev.MPU9250_ADDRESS (G_OFFSET_H Axis.z)
            (calibrateMPU9250 Board.proMini (fun _ => 0)
              ⟨[0, 24] :: (samplePackets
                ++ (trimScript ⟨(0x12, 0x35), (0xFF, 0xFE), (0x10, 0x00)⟩ ++ [])), []⟩).bus.log
            = some hi
          ∧ lastWrite Dev.MPU9250_ADDRESS (G_OFFSET_L Axis.z)
            (calibrateMPU9250 Board.proMini (fun _ => 0)
              ⟨[0, 24] :: (samplePackets
                ++ (trimScript ⟨(0x12, 0x35), (0xFF, 0xFE), (0x10, 0x00)⟩ ++ [])), []⟩).bus.log
            = some lo
          ∧ be16 hi lo = Int.tdiv (-((packetMeans samplePackets).2.get Axis.z)) 4) :=
  ⟨by decide, gyro_correction_fits_16_bits Board.proMini (fun _ => 0) 0 24 samplePackets
    ⟨(0x12, 0x35), (0xFF, 0xFE), (0x10, 0x00)⟩ [] [] Axis.z
    (by decide) (by decide) (by decide) (by decide) (by decide)⟩

/-- C25: for a capture of `n >= 1` complete packets the z accelerometer mean after gravity
removal lies in [-16384, 16384], so the z correction `a/8` lies in [-2048, 2048] and the returned
z accelerometer bias, `a/16384`, lies in [-1, 1]. -/
theorem z_bias_within_one_g (board : Board) (data : Nat → Nat) (h l : Nat)
    (pkts rest : List (List Nat)) (log : List Event) (hh : h < 256) (hl : l < 256)
    (hn : pkts.length = (256 * h + l) / 12) (hp : ∀ p ∈ pkts, IsPacket p)
    (h1 : 1 ≤ pkts.length) :
    calibrateMPU9250.removeGravity (packetMeans pkts).1 = withoutGravity (packetMeans pkts).1
      ∧ (-16384 ≤ (withoutGravity (packetMeans pkts).1).e2
        ∧ (withoutGravity (packetMeans pkts).1).e2 ≤ 16384)
      ∧ (-2048 ≤ Int.tdiv (withoutGravity (packetMeans pkts).1).e2 8
        ∧ Int.tdiv (withoutGravity (packetMeans pkts).1).e2 8 ≤ 2048)
      ∧ ∃ dest1 dest2,
          (calibrateMPU9250 board data ⟨[h, l] :: (pkts ++ rest), log⟩).dest
              = Except.ok (dest1, dest2)
            ∧ dest2.e2 = ((withoutGravity (packetMeans pkts).1).e2 : ℚ) / 16384
            ∧ -1 ≤ dest2.e2 ∧ dest2.e2 ≤ 1 := by
  obtain ⟨⟨_, _, z1, z2⟩, _⟩ := packetMeans_int16 pkts h1 hp
  have hz : IsInt32 (packetMeans pkts).1.e2 := ⟨by omega, by omega⟩
  have hg := removeGravity_eq _ hz
  have ha : -16384 ≤ (withoutGravity (packetMeans pkts).1).e2
      ∧ (withoutGravity (packetMeans pkts).1).e2 ≤ 16384 := by
    simp only [withoutGravity]
    split <;> omega
  obtain ⟨a1, a2⟩ := ha
  have hd : -2048 ≤ Int.tdiv (withoutGravity (packetMeans pkts).1).e2 8
      ∧ Int.tdiv (withoutGravity (packetMeans pkts).1).e2 8 ≤ 2048 := by
    rcases Int.le_total 0 (withoutGravity (packetMeans pkts).1).e2 with hx | hx
    · rw [tdiv_nonneg_eq _ 8 hx (by omega)]; omega
    · rw [tdiv_neg_eq _ 8 hx (by omega)]; omega
  refine ⟨hg, ⟨a1, a2⟩, hd, calibrateMPU9250.scaled (packetMeans pkts).2 gyrosensitivity,
    calibrateMPU9250.scaled (withoutGravity (packetMeans pkts).1) accelsensitivity, ?_, ?_, ?_, ?_⟩
  · rw [calibrate_dest board data h l pkts rest log hh hl hn hp h1]
    simp only [calibrateMPU9250.finish, hg]
  · simp [calibrateMPU9250.scaled, accelsensitivity]
  · have c1 : (-16384 : ℚ) ≤ ((withoutGravity (packetMeans pkts).1).e2 : ℚ) := by
      exact_mod_cast a1
    simp only [calibrateMPU9250.scaled, accelsensitivity]
    push_cast
    linarith
  · have c2 : ((withoutGravity (packetMeans pkts).1).e2 : ℚ) ≤ 16384 := by
      exact_mod_cast a2
    simp only [calibrateMPU9250.scaled, accelsensitivity]
    push_cast
    linarith

/-- C25 at a concrete input: the two sample packets (z accelerometer mean 16400, 16 after gravity
removal). -/
theorem z_bias_within_one_g_witness :
    (0 < 256 ∧ 24 < 256 ∧ samplePackets.length = (256 * 0 + 24) / 12
      ∧ (∀ p ∈ samplePackets, IsPacket p) ∧ 1 ≤ samplePackets.length) ∧
    (calibrateMPU9250.removeGravity (packetMeans samplePackets).1
        = withoutGravity (packetMeans samplePackets).1
      ∧ (-16384 ≤ (withoutGravity (packetMeans samplePackets).1).e2
        ∧ (withoutGravity (packetMeans samplePackets).1).e2 ≤ 16384)
      ∧ (-2048 ≤ Int.tdiv (withoutGravity (packetMeans samplePackets).1).e2 8
        ∧ Int.tdiv (withoutGravity (packetMeans samplePackets).1).e2 8 ≤ 2048)
      ∧ ∃ dest1 dest2,
          (calibrateMPU9250 Board.teensy31 (fun _ => 0)
              ⟨[0, 24] :: (samplePackets ++ []), []⟩).dest = Except.ok (dest1, dest2)
            ∧ dest2.e2 = ((withoutGravity (packetMeans samplePackets).1).e2 : ℚ) / 16384
            ∧ -1 ≤ dest2.e2 ∧ dest2.e2 ≤ 1) :=
  ⟨by decide, z_bias_within_one_g Board.teensy31 (fun _ => 0) 0 24 samplePackets [] []
    (by decide) (by decide) (by decide) (by decide) (by decide)⟩

/-- C26: the scale settings are plain bytes; each resolver, taken on its own, changes nothing when
its own setting is outside the enumerated values, whatever the other settings are: `getAres` when
`Ascale` is above 3, `getGres` when `Gscale` is above 3, `getMres` when `Mscale` is above 1 (so
`aRes`, `gRes` and `mRes` respectively keep their values); and for any setting each resolver
changes its own resolution variable only. -/
theorem resolvers_frame (ga gg gm r : Globals) (ha : 3 < ga.Ascale) (hg : 3 < gg.Gscale)
    (hm : 1 < gm.Mscale) :
    (getAres ga = ga ∧ (getAres ga).aRes = ga.aRes)
    ∧ (getGres gg = gg ∧ (getGres gg).gRes = gg.gRes)
    ∧ (getMres gm = gm ∧ (getMres gm).mRes = gm.mRes)
    ∧ ((getAres r).Gscale = r.Gscale ∧ (getAres r).Ascale = r.Ascale
      ∧ (getAres r).Mscale = r.Mscale ∧ (getAres r).Mmode = r.Mmode
      ∧ (getAres r).gRes = r.gRes ∧ (getAres r).mRes = r.mRes)
    ∧ ((getGres r).Gscale = r.Gscale ∧ (getGres r).Ascale = r.Ascale
      ∧ (getGres r).Mscale = r.Mscale ∧ (getGres r).Mmode = r.Mmode
      ∧ (getGres r).aRes = r.aRes ∧ (getGres r).mRes = r.mRes)
    ∧ ((getMres r).Gscale = r.Gscale ∧ (getMres r).Ascale = r.Ascale
      ∧ (getMres r).Mscale = r.Mscale ∧ (getMres r).Mmode = r.Mmode
      ∧ (getMres r).aRes = r.aRes ∧ (getMres r).gRes = r.gRes) := by
  have ea : getAres ga = ga := by
    unfold getAres AFS_2G AFS_4G AFS_8G AFS_16G
    rw [if_neg (by omega), if_neg (by omega), if_neg (by omega), if_neg (by omega)]
  have eg : getGres gg = gg := by
    unfold getGres GFS_250DPS GFS_500DPS GFS_1000DPS GFS_2000DPS
    rw [if_neg (by omega), if_neg (by omega), if_neg (by omega), if_neg (by omega)]
  have em : getMres gm = gm := by
    unfold getMres MFS_14BITS MFS_16BITS
    rw [if_neg (by omega), if_neg (by omega)]
  refine ⟨⟨ea, by rw [ea]⟩, ⟨eg, by rw [eg]⟩, ⟨em, by rw [em]⟩, ?_, ?_, ?_⟩
  · unfold getAres
    split_ifs <;> exact ⟨rfl, rfl, rfl, rfl, rfl, rfl⟩
  · unfold getGres
    split_ifs <;> exact ⟨rfl, rfl, rfl, rfl, rfl, rfl⟩
  · unfold getMres
    split_ifs <;> exact ⟨rfl, rfl, rfl, rfl, rfl, rfl⟩

/-- C26 at concrete inputs: `getAres` at `Ascale` 4 with `Gscale` 0 and `Mscale` 1, `getGres` at
`Gscale` 4 with `Ascale` 0 and `Mscale` 1, `getMres` at `Mscale` 2 with `Ascale` 0 and `Gscale` 0,
and the sketch's initial settings for the frame part. -/
theorem resolvers_frame_witness :
    (3 < (⟨0, 4, 1, 2, 1, 2, 3⟩ : Globals).Ascale ∧ 3 < (⟨4, 0, 1, 2, 1, 2, 3⟩ : Globals).Gscale
      ∧ 1 < (⟨0, 0, 2, 2, 1, 2, 3⟩ : Globals).Mscale) ∧
    ((getAres ⟨0, 4, 1, 2, 1, 2, 3⟩ = ⟨0, 4, 1, 2, 1, 2, 3⟩
        ∧ (getAres ⟨0, 4, 1, 2, 1, 2, 3⟩).aRes = (⟨0, 4, 1, 2, 1, 2, 3⟩ : Globals).aRes)
    ∧ (getGres ⟨4, 0, 1, 2, 1, 2, 3⟩ = ⟨4, 0, 1, 2, 1, 2, 3⟩
        ∧ (getGres ⟨4, 0, 1, 2, 1, 2, 3⟩).gRes = (⟨4, 0, 1, 2, 1, 2, 3⟩ : Globals).gRes)
    ∧ (getMres ⟨0, 0, 2, 2, 1, 2, 3⟩ = ⟨0, 0, 2, 2, 1, 2, 3⟩
        ∧ (getMres ⟨0, 0, 2, 2, 1, 2, 3⟩).mRes = (⟨0, 0, 2, 2, 1, 2, 3⟩ : Globals).mRes)
    ∧ ((getAres initialGlobals).Gscale = initialGlobals.Gscale
      ∧ (getAres initialGlobals).Ascale = initialGlobals.Ascale
      ∧ (getAres initialGlobals).Mscale = initialGlobals.Mscale
      ∧ (getAres initialGlobals).Mmode = initialGlobals.Mmode
      ∧ (getAres initialGlobals).gRes = initialGlobals.gRes
      ∧ (getAres initialGlobals).mRes = initialGlobals.mRes)
    ∧ ((getGres initialGlobals).Gscale = initialGlobals.Gscale
      ∧ (getGres initialGlobals).Ascale = initialGlobals.Ascale
      ∧ (getGres initialGlobals).Mscale = initialGlobals.Mscale
      ∧ (getGres initialGlobals).Mmode = initialGlobals.Mmode
      ∧ (getGres initialGlobals).aRes = initialGlobals.aRes
      ∧ (getGres initialGlobals).mRes = initialGlobals.mRes)
    ∧ ((getMres initialGlobals).Gscale = initialGlobals.Gscale
      ∧ (getMres initialGlobals).Ascale = initialGlobals.Ascale
      ∧ (getMres initialGlobals).Mscale = initialGlobals.Mscale
      ∧ (getMres initialGlobals).Mmode = initialGlobals.Mmode
      ∧ (getMres initialGlobals).aRes = initialGlobals.aRes
      ∧ (getMres initialGlobals).gRes = initialGlobals.gRes)) :=
  ⟨by decide, resolvers_frame ⟨0, 4, 1, 2, 1, 2, 3⟩ ⟨4, 0, 1, 2, 1, 2, 3⟩ ⟨0, 0, 2, 2, 1, 2, 3⟩
    initialGlobals (by decide) (by decide) (by decide)⟩

end MPU9250
